import Mathlib

/-!
Connection tracker of the DPVS virtual server (`src/ip_vs_conn.c`).

A shallow embedding of the connection-tracking core: the per-lcore flow table,
the shared template table, the binder, flow construction, lookup and release,
the expiration callback, the flush and the `conn_init_timeout` keyword.

Conventions of the embedding.

* Records that the C code reaches through pointers live in two heaps,
  `State.conns` and `State.dests`, indexed by natural numbers; a null pointer
  is `none`.
* A bucket of a hash table is the list of the tuple nodes linked in it, head
  first. A tuple node is named by its owning record and its slot in the
  `tuplehash[2]` array.
* An address is the content of a `union inet_addr` read as a number; its low
  32 bits are the member `in.s_addr`.
* The 32-bit atomic counters (`refcnt`, `n_control`, the counters of a
  destination, the per-lcore flow count) are unbounded integers: no
  wrap-around is modelled.
* Calls that leave this module (timer wheel, transmitters, address pools,
  protocol hooks, packet buffers) are recorded in `State.log` and are taken
  to have no other effect on the tracker state.
-/

namespace Dpvs

/-! ## Data model -/

/-- Return codes `EDPVS_*`. `OK` is zero, every other code is non-zero. -/
inductive Err where
  | OK
  | EXIST
  | NOTEXIST
  | BUSY
  | OVERLOAD
  | NOTSUPP
  | NOMEM
  | DISABLED
  deriving DecidableEq, Repr

/-- Direction tag of a tuple node: `DPVS_CONN_DIR_INBOUND`, `DPVS_CONN_DIR_OUTBOUND`. -/
inductive Dir where
  | INBOUND
  | OUTBOUND
  deriving DecidableEq, Repr

/-- Forwarding mode of a destination. `conn_bind_dest` names three modes in its
`switch`; every other value of the enumeration is `OTHER n`. -/
inductive FwdMode where
  | DR
  | FNAT
  | SNAT
  | OTHER (n : Nat)
  deriving DecidableEq, Repr

/-- Transmit callbacks installed by `conn_bind_dest`. -/
inductive Xmit where
  | dp_vs_xmit_dr
  | dp_vs_xmit_fnat
  | dp_vs_out_xmit_fnat
  | dp_vs_xmit_snat
  | dp_vs_out_xmit_snat
  deriving DecidableEq, Repr

/-- The flag word of a connection (`DPVS_CONN_F_*`). The bit positions are
declared in `conn.h`, which is not part of `src/`; the word is kept as one
Boolean per flag the module tests, plus the remaining bits. `a | b`,
`a & F` and `a & ~F` become field-wise operations. -/
structure ConnFlags where
  hashed : Bool
  template : Bool
  inactive : Bool
  synproxy : Bool
  other : Nat
  deriving DecidableEq, Repr

/-- Bitwise or of two flag words: `a | b`. -/
def ConnFlags.lor (a b : ConnFlags) : ConnFlags :=
  { hashed := a.hashed || b.hashed
    template := a.template || b.template
    inactive := a.inactive || b.inactive
    synproxy := a.synproxy || b.synproxy
    other := a.other ||| b.other }

/-- The all-zero flag word. -/
def ConnFlags.zero : ConnFlags :=
  { hashed := false, template := false, inactive := false, synproxy := false, other := 0 }

/-- The flag word of a destination (`DPVS_DEST_F_*`), one Boolean per flag the
module touches, plus the remaining bits. -/
structure DestFlags where
  available : Bool
  overload : Bool
  other : Nat
  deriving DecidableEq, Repr

/-- A tuple hash node, `struct conn_tuple_hash` without its list links. -/
structure ConnTupleHash where
  direct : Dir
  af : Int
  proto : Nat
  saddr : Nat
  sport : Nat
  daddr : Nat
  dport : Nat
  deriving DecidableEq, Repr

/-- A `struct timeval`. -/
structure Timeval where
  tv_sec : Int
  tv_usec : Int
  deriving DecidableEq, Repr

/-- What this module reads of a packet buffer: the IPv4 source address, the
number of bytes available after the IP header, the first 16-bit word of the
L4 header (the source port) and the TCP acknowledgement number. -/
structure Mbuf where
  src_addr : Nat
  l4_len : Nat
  l4_sport : Nat
  tcp_ack_seq : Nat
  deriving DecidableEq, Repr

/-- A destination (real server), `struct dp_vs_dest`, as far as this module
reads or writes it. -/
structure DpVsDest where
  addr : Nat
  port : Nat
  fwdmode : FwdMode
  flags : DestFlags
  conn_flags : ConnFlags
  weight : Int
  refcnt : Int
  actconns : Int
  inactconns : Int
  persistconns : Int
  max_conn : Nat
  deriving DecidableEq, Repr

/-- A connection record, `struct dp_vs_conn`. -/
structure DpVsConn where
  af : Int
  proto : Nat
  caddr : Nat
  vaddr : Nat
  laddr : Nat
  daddr : Nat
  cport : Nat
  vport : Nat
  lport : Nat
  dport : Nat
  tuplehash_in : ConnTupleHash
  tuplehash_out : ConnTupleHash
  flags : ConnFlags
  state : Nat
  refcnt : Int
  dest : Option Nat
  control : Option Nat
  n_control : Int
  packet_xmit : Option Xmit
  packet_out_xmit : Option Xmit
  timeout : Timeval
  syn_mbuf : Option Mbuf
  syn_retry_max : Int
  dup_ack_cnt : Int
  ack_mbuf : List Mbuf
  ack_num : Nat
  isn : Nat
  fdata_seq : Nat
  deriving DecidableEq, Repr

/-- The record after `memset(new, 0, sizeof(struct dp_vs_conn))`. -/
def DpVsConn.zero : DpVsConn :=
  { af := 0, proto := 0, caddr := 0, vaddr := 0, laddr := 0, daddr := 0
    cport := 0, vport := 0, lport := 0, dport := 0
    tuplehash_in := ⟨Dir.INBOUND, 0, 0, 0, 0, 0, 0⟩
    tuplehash_out := ⟨Dir.INBOUND, 0, 0, 0, 0, 0, 0⟩
    flags := ConnFlags.zero, state := 0, refcnt := 0, dest := none
    control := none, n_control := 0, packet_xmit := none, packet_out_xmit := none
    timeout := ⟨0, 0⟩, syn_mbuf := none, syn_retry_max := 0, dup_ack_cnt := 0
    ack_mbuf := [], ack_num := 0, isn := 0, fdata_seq := 0 }

/-- The node `conn->tuplehash[d]`: `tuplehash_in(conn)` and `tuplehash_out(conn)`. -/
def DpVsConn.tuplehash (c : DpVsConn) : Dir → ConnTupleHash
  | Dir.INBOUND => c.tuplehash_in
  | Dir.OUTBOUND => c.tuplehash_out

/-- The address of a tuple node: the record that embeds it and its slot. -/
structure Node where
  conn : Nat
  slot : Dir
  deriving DecidableEq, Repr

/-- Calls that leave the module, in the order they are made (newest first in
`State.log`). The Boolean of a timer call selects the template wheel. -/
inductive Event where
  | timer_sched (conn : Nat) (tv : Timeval) (tmpl : Bool)
  | timer_update (conn : Nat) (tv : Timeval) (tmpl : Bool)
  | timer_cancel (conn : Nat) (tmpl : Bool)
  | packet_xmit (conn : Nat) (f : Xmit) (m : Mbuf)
  | estats_inc_synproxy_rs_error
  | proto_conn_expire (conn : Nat)
  | sa_release (conn : Nat)
  | laddr_unbind (conn : Nat)
  | pktmbuf_free (m : Mbuf)
  deriving DecidableEq, Repr

/-- The state the module works on: the two heaps, the per-lcore table
`this_conn_tab`, the shared template table `dp_vs_ct_tab`, the per-lcore flow
count, the hash seed, the record pool `this_conn_cache` (free records, next
one first), the number of free wrappers in `this_ack_mbufpool`, the two
hot-reloadable control variables and the log of outgoing calls. -/
structure State where
  conns : Nat → DpVsConn
  dests : Nat → DpVsDest
  dp_vs_conn_tab : Nat → List Node
  dp_vs_ct_tab : Nat → List Node
  dp_vs_conn_count : Int
  dp_vs_conn_rnd : Nat
  conn_cache : List Nat
  ack_mbufpool : Nat
  conn_init_timeout : Int
  conn_expire_quiescent_template : Bool
  log : List Event

/-- Collaborators outside the module, supplied as functions.
`rte_jhash_3words` is the hash of the packet runtime; `dpvs_time_rand_delay`
adds the jitter to a deadline; `timeout_table proto` is the per-state timeout
table of the protocol, if the protocol is registered and has one;
`has_conn_expire proto` tells whether the protocol has a `conn_expire` hook;
`dp_vs_get_conn_timeout` is the configured override of the established
timeout; `laddr_pick` is the choice of the local-address pool for a full-NAT
flow, `none` when the pool has nothing to give; `mbuf_pool` tells whether
`get_mbuf_pool` finds a pool for the flow and `pktmbuf_clone` whether the
clone of a packet succeeds;
`host_big_endian` is the byte order of the host; the three state numbers
are the enumerators of `proto_tcp.h` and `proto_udp.h`, which are not part
of `src/`. -/
structure Env where
  rte_jhash_3words : Nat → Nat → Nat → Nat → Nat
  dpvs_time_rand_delay : Timeval → Nat → Timeval
  timeout_table : Nat → Option (Nat → Int)
  has_conn_expire : Nat → Bool
  dp_vs_get_conn_timeout : DpVsConn → Nat
  laddr_pick : DpVsConn → Option (Nat × Nat)
  mbuf_pool : DpVsConn → Bool
  pktmbuf_clone : Mbuf → Bool
  host_big_endian : Bool
  DPVS_TCP_S_ESTABLISHED : Nat
  DPVS_TCP_S_SYN_SENT : Nat
  DPVS_UDP_S_NORMAL : Nat

/-- The constant `DPVS_CONN_TAB_BITS`. -/
def DPVS_CONN_TAB_BITS : Nat := 20

/-- The constant `DPVS_CONN_TAB_SIZE`, `1 << DPVS_CONN_TAB_BITS`. -/
def DPVS_CONN_TAB_SIZE : Nat := 1 <<< DPVS_CONN_TAB_BITS

/-- The constant `DPVS_CONN_TAB_MASK`, `DPVS_CONN_TAB_SIZE - 1`. -/
def DPVS_CONN_TAB_MASK : Nat := DPVS_CONN_TAB_SIZE - 1

/-- The constant `DPVS_CONN_INIT_TIMEOUT_DEF`, in seconds. -/
def DPVS_CONN_INIT_TIMEOUT_DEF : Int := 3

/-! ## Heap and list primitives -/

/-- Store a connection record at an address. -/
def State.setConn (s : State) (cid : Nat) (c : DpVsConn) : State :=
  { s with conns := fun i => if i = cid then c else s.conns i }

/-- Store a destination record at an address. -/
def State.setDest (s : State) (did : Nat) (d : DpVsDest) : State :=
  { s with dests := fun i => if i = did then d else s.dests i }

/-- Append a call to the log. -/
def State.emit (s : State) (e : Event) : State :=
  { s with log := e :: s.log }

/-- The tuple node stored at a node address. -/
def State.tuple (s : State) (n : Node) : ConnTupleHash :=
  (s.conns n.conn).tuplehash n.slot

/-- The kernel-style `list_add(node, &tab[h])`: the node becomes the first
entry of bucket `h`. -/
def list_add (tab : Nat → List Node) (h : Nat) (n : Node) : Nat → List Node :=
  fun i => if i = h then n :: tab i else tab i

/-- The kernel-style `list_del(node)`: the node leaves the list it is linked in,
whichever bucket that is. -/
def list_del (tab : Nat → List Node) (n : Node) : Nat → List Node :=
  fun i => (tab i).filter (fun m => !(m == n))

/-- The atomic increment `rte_atomic32_inc(&conn->refcnt)`. -/
def conn_refcnt_inc (s : State) (cid : Nat) : State :=
  s.setConn cid { s.conns cid with refcnt := (s.conns cid).refcnt + 1 }

/-- The atomic decrement `rte_atomic32_dec(&conn->refcnt)`. -/
def conn_refcnt_dec (s : State) (cid : Nat) : State :=
  s.setConn cid { s.conns cid with refcnt := (s.conns cid).refcnt - 1 }

/-- Address family `AF_INET`. -/
def AF_INET : Int := 2

/-- Modelled from the spec: `inet_addr_equal` is declared in `inet.h`, which is
not part of `src/`. Lookups "match on sport/dport/saddr/daddr/proto/af", and
the template lookup makes the comparison of the destination "family-agnostic".
An address is the content of a `union inet_addr` read as a number, whose low
32 bits are the member `in.s_addr` that `conn_hashkey` reads. Under `AF_INET`
two addresses are equal when their `in.s_addr` are equal; under every other
family (`AF_INET6`, whose member fills the union, and `AF_UNSPEC`) the
comparison is of the whole union and depends on no family. -/
def inet_addr_equal (af : Int) (a b : Nat) : Bool :=
  if af = AF_INET then a % 2 ^ 32 == b % 2 ^ 32 else a == b

/-- The owner of a tuple node, `tuplehash_to_conn`:
`container_of(thash, struct dp_vs_conn, tuplehash[thash->direct])`. A node is
addressed by its owner and slot; the pointer arithmetic of the source lands on
the owner when the `direct` tag of the node is its slot, which is how
`dp_vs_conn_new` fills both nodes. -/
def tuplehash_to_conn (n : Node) : Nat :=
  n.conn

/-! ## Tuple hash and the two tables -/

/-- The bucket index `conn_hashkey(af, saddr, sport, daddr, dport)`: a 3-word
hash of the two IPv4 words and `sport << 16 | dport`, seeded with
`dp_vs_conn_rnd` and masked to the table size. The family is not mixed in. -/
def conn_hashkey (env : Env) (s : State) (_af : Int)
    (saddr sport daddr dport : Nat) : Nat :=
  (env.rte_jhash_3words (saddr % 2 ^ 32) (daddr % 2 ^ 32)
      (((sport % 2 ^ 16) <<< 16 ||| (dport % 2 ^ 16)) % 2 ^ 32) s.dp_vs_conn_rnd)
    &&& DPVS_CONN_TAB_MASK

/-- The function `__conn_hash(conn, ihash, ohash)`. -/
def __conn_hash (s : State) (cid ihash ohash : Nat) : Err × State :=
  let conn := s.conns cid
  if conn.flags.hashed then (Err.EXIST, s)
  else
    let nin : Node := ⟨cid, Dir.INBOUND⟩
    let nout : Node := ⟨cid, Dir.OUTBOUND⟩
    let s1 : State :=
      if conn.flags.template then
        { s with dp_vs_ct_tab := list_add (list_add s.dp_vs_ct_tab ihash nin) ohash nout }
      else
        { s with dp_vs_conn_tab := list_add (list_add s.dp_vs_conn_tab ihash nin) ohash nout }
    let s2 := s1.setConn cid { conn with flags := { conn.flags with hashed := true } }
    (Err.OK, conn_refcnt_inc s2 cid)

/-- The bucket of the inbound node of a record, as `conn_hash` computes it. -/
def conn_ihash (env : Env) (s : State) (cid : Nat) : Nat :=
  let conn := s.conns cid
  conn_hashkey env s conn.af conn.tuplehash_in.saddr conn.tuplehash_in.sport
    conn.tuplehash_in.daddr conn.tuplehash_in.dport

/-- The bucket of the outbound node of a record, as `conn_hash` computes it. -/
def conn_ohash (env : Env) (s : State) (cid : Nat) : Nat :=
  let conn := s.conns cid
  conn_hashkey env s conn.af conn.tuplehash_out.saddr conn.tuplehash_out.sport
    conn.tuplehash_out.daddr conn.tuplehash_out.dport

/-- The function `conn_hash(conn)`. -/
def conn_hash (env : Env) (s : State) (cid : Nat) : Err × State :=
  __conn_hash s cid (conn_ihash env s cid) (conn_ohash env s cid)

/-- The function `conn_unhash(conn)`. -/
def conn_unhash (s : State) (cid : Nat) : Err × State :=
  let conn := s.conns cid
  if conn.flags.hashed then
    if conn.refcnt ≠ 2 then (Err.BUSY, s)
    else
      let nin : Node := ⟨cid, Dir.INBOUND⟩
      let nout : Node := ⟨cid, Dir.OUTBOUND⟩
      let s1 : State :=
        { s with
          dp_vs_conn_tab := list_del (list_del s.dp_vs_conn_tab nin) nout,
          dp_vs_ct_tab := list_del (list_del s.dp_vs_ct_tab nin) nout }
      let s2 := s1.setConn cid { conn with flags := { conn.flags with hashed := false } }
      (Err.OK, conn_refcnt_dec s2 cid)
  else (Err.NOTEXIST, s)

/-! ## Lookup and release -/

/-- The match condition of the non-reversed bucket walk of `dp_vs_conn_get`. -/
def conn_get_match (af : Int) (proto saddr daddr sport dport : Nat)
    (t : ConnTupleHash) : Bool :=
  t.sport == sport && t.dport == dport
    && inet_addr_equal af t.saddr saddr
    && inet_addr_equal af t.daddr daddr
    && t.proto == proto && t.af == af

/-- The match condition of the reversed bucket walk of `dp_vs_conn_get`:
source and destination of the query are swapped. -/
def conn_get_match_reverse (af : Int) (proto saddr daddr sport dport : Nat)
    (t : ConnTupleHash) : Bool :=
  t.sport == dport && t.dport == sport
    && inet_addr_equal af t.saddr daddr
    && inet_addr_equal af t.daddr saddr
    && t.proto == proto && t.af == af

/-- The function `dp_vs_conn_get`: look the tuple up in the per-lcore table. On
a hit the reference count of the owner is incremented and the owner is
returned with the `direct` tag of the node that matched. -/
def dp_vs_conn_get (env : Env) (s : State) (af : Int) (proto saddr daddr sport dport : Nat)
    (reverse : Bool) : Option (Nat × Dir) × State :=
  let hash :=
    if reverse then conn_hashkey env s af daddr dport saddr sport
    else conn_hashkey env s af saddr sport daddr dport
  if reverse then
    match (s.dp_vs_conn_tab hash).find?
        (fun n => conn_get_match_reverse af proto saddr daddr sport dport (s.tuple n)) with
    | some n =>
      let conn := tuplehash_to_conn n
      (some (conn, (s.tuple n).direct), conn_refcnt_inc s conn)
    | none => (none, s)
  else
    match (s.dp_vs_conn_tab hash).find?
        (fun n => conn_get_match af proto saddr daddr sport dport (s.tuple n)) with
    | some n =>
      let conn := tuplehash_to_conn n
      (some (conn, (s.tuple n).direct), conn_refcnt_inc s conn)
    | none => (none, s)

/-- The function `dp_vs_conn_put_no_reset(conn)`. -/
def dp_vs_conn_put_no_reset (s : State) (cid : Nat) : State :=
  conn_refcnt_dec s cid

/-- The function `dp_vs_conn_put(conn)`: push the timer forward on the wheel the
`TEMPLATE` flag selects, then drop the reference. -/
def dp_vs_conn_put (s : State) (cid : Nat) : State :=
  let conn := s.conns cid
  let s1 :=
    if conn.flags.template then s.emit (Event.timer_update cid conn.timeout true)
    else s.emit (Event.timer_update cid conn.timeout false)
  conn_refcnt_dec s1 cid

/-! ## Binder -/

/-- The function `conn_bind_dest(conn, dest)`. The counters of a destination
and `max_conn` are declared in `dest.h`, which is not part of `src/`; the
overload test compares them as integers. -/
def conn_bind_dest (s : State) (cid did : Nat) : Err × State :=
  let s1 := s.setConn cid
    { s.conns cid with flags := (s.conns cid).flags.lor (s.dests did).conn_flags }
  let dest := s1.dests did
  if dest.max_conn ≠ 0 ∧ dest.inactconns + dest.actconns ≥ (dest.max_conn : Int) then
    (Err.OVERLOAD, s1.setDest did { dest with flags := { dest.flags with overload := true } })
  else
    let s2 := s1.setDest did { dest with refcnt := dest.refcnt + 1 }
    let s3 :=
      if (s2.conns cid).flags.template then
        s2.setDest did { s2.dests did with persistconns := (s2.dests did).persistconns + 1 }
      else
        s2.setDest did { s2.dests did with inactconns := (s2.dests did).inactconns + 1 }
    match (s3.dests did).fwdmode with
    | FwdMode.DR =>
      let s4 := s3.setConn cid { s3.conns cid with packet_xmit := some Xmit.dp_vs_xmit_dr }
      (Err.OK, s4.setConn cid { s4.conns cid with dest := some did })
    | FwdMode.FNAT =>
      let s4 := s3.setConn cid
        { s3.conns cid with
          packet_xmit := some Xmit.dp_vs_xmit_fnat,
          packet_out_xmit := some Xmit.dp_vs_out_xmit_fnat }
      (Err.OK, s4.setConn cid { s4.conns cid with dest := some did })
    | FwdMode.SNAT =>
      let s4 := s3.setConn cid
        { s3.conns cid with
          packet_xmit := some Xmit.dp_vs_xmit_snat,
          packet_out_xmit := some Xmit.dp_vs_out_xmit_snat }
      (Err.OK, s4.setConn cid { s4.conns cid with dest := some did })
    | FwdMode.OTHER _ => (Err.NOTSUPP, s3)

/-- The function `conn_unbind_dest(conn)`. It dereferences `conn->dest`; the
result is `none` when that pointer is null. -/
def conn_unbind_dest (s : State) (cid : Nat) : Option (Err × State) :=
  match (s.conns cid).dest with
  | none => none
  | some did =>
    let conn := s.conns cid
    let dest := s.dests did
    let s1 :=
      if conn.flags.template then
        s.setDest did { dest with persistconns := dest.persistconns - 1 }
      else if conn.flags.inactive then
        s.setDest did { dest with inactconns := dest.inactconns - 1 }
      else
        s.setDest did { dest with actconns := dest.actconns - 1 }
    let d1 := s1.dests did
    let s2 :=
      if d1.max_conn ≠ 0 ∧ d1.inactconns + d1.actconns < (d1.max_conn : Int) then
        s1.setDest did { d1 with flags := { d1.flags with overload := false } }
      else s1
    let s3 := s2.setDest did { s2.dests did with refcnt := (s2.dests did).refcnt - 1 }
    some (Err.OK, s3.setConn cid { s3.conns cid with dest := none })

/-- The four connection counters of a destination: `refcnt`, `actconns`,
`inactconns`, `persistconns`. -/
def DpVsDest.counters (d : DpVsDest) : Int × Int × Int × Int :=
  (d.refcnt, d.actconns, d.inactconns, d.persistconns)

/-! ## Packet and byte-order helpers -/

/-- Protocol number `IPPROTO_TCP`. -/
def IPPROTO_TCP : Nat := 6

/-- Protocol number `IPPROTO_UDP`. -/
def IPPROTO_UDP : Nat := 17

/-- Protocol number `IPPROTO_ICMP`. -/
def IPPROTO_ICMP : Nat := 1

/-- Byte reversal of a 32-bit word. -/
def bswap32 (x : Nat) : Nat :=
  ((x % 256) <<< 24) ||| (((x >>> 8) % 256) <<< 16) ||| (((x >>> 16) % 256) <<< 8)
    ||| ((x >>> 24) % 256)

/-- The conversion `htonl`: identity on a big-endian host, byte reversal otherwise. -/
def htonl (env : Env) (x : Nat) : Nat :=
  if env.host_big_endian then x % 2 ^ 32 else bswap32 x

/-- The conversion `ntohl`, the same map as `htonl`. -/
def ntohl (env : Env) (x : Nat) : Nat :=
  htonl env x

/-- Modelled from the spec: `mbuf_header_pointer` is declared in `mbuf.h`, which
is not part of `src/`. Whether `mbuf_header_pointer(mbuf, ip4_hdrlen(mbuf), len,
buf)` is non-null: `len` bytes are available after the IP header. -/
def mbuf_header_pointer (mbuf : Mbuf) (len : Nat) : Bool :=
  decide (len ≤ mbuf.l4_len)

/-- The parameters record `struct dp_vs_conn_param`. -/
structure DpVsConnParam where
  af : Int
  proto : Nat
  caddr : Nat
  vaddr : Nat
  cport : Nat
  vport : Nat
  ct_dport : Nat
  deriving DecidableEq, Repr

/-! ## Flow construction -/

/-- The label `errout` of `dp_vs_conn_new`: give the record back to the pool and
return `NULL`. -/
def conn_new_errout (s : State) (new : Nat) : Option (Option Nat × State) :=
  some (none, { s with conn_cache := new :: s.conn_cache })

/-- The label `unbind_dest` of `dp_vs_conn_new`, falling through to `errout`. -/
def conn_new_unbind_dest (s : State) (new : Nat) : Option (Option Nat × State) :=
  match conn_unbind_dest s new with
  | none => none
  | some r => conn_new_errout r.2 new

/-- The label `unbind_laddr` of `dp_vs_conn_new`, falling through to
`unbind_dest`. -/
def conn_new_unbind_laddr (s : State) (new : Nat) : Option (Option Nat × State) :=
  conn_new_unbind_dest (s.emit (Event.laddr_unbind new)) new

/-- The tail of `dp_vs_conn_new` after the SYN-proxy block: count the flow, add
the jitter, schedule the timer on the wheel the `TEMPLATE` flag selects and
return the record. -/
def conn_new_finish (env : Env) (s : State) (new : Nat) : Option (Option Nat × State) :=
  let s1 : State := { s with dp_vs_conn_count := s.dp_vs_conn_count + 1 }
  let s2 := s1.setConn new
    { s1.conns new with timeout := env.dpvs_time_rand_delay (s1.conns new).timeout 1000000 }
  let conn := s2.conns new
  if conn.flags.template then
    some (some new, s2.emit (Event.timer_sched new conn.timeout true))
  else
    some (some new, s2.emit (Event.timer_sched new conn.timeout false))

/-- The part of `dp_vs_conn_new` from the timer initialisation on, entered once
`conn_hash` has succeeded. -/
def conn_new_after_hash (env : Env) (s : State) (mbuf : Mbuf) (param : DpVsConnParam)
    (flags : ConnFlags) (new : Nat) : Option (Option Nat × State) :=
  let s1 := s.setConn new
    { s.conns new with
      timeout := ⟨s.conn_init_timeout, 0⟩,
      ack_mbuf := [],
      syn_retry_max := 0,
      dup_ack_cnt := 0 }
  if flags.synproxy && !flags.template then
    if !mbuf_header_pointer mbuf 20 then conn_new_unbind_laddr s1 new
    else if s1.ack_mbufpool = 0 then conn_new_unbind_laddr s1 new
    else
      let s2 : State := { s1 with ack_mbufpool := s1.ack_mbufpool - 1 }
      let s3 := s2.setConn new
        { s2.conns new with
          ack_mbuf := (s2.conns new).ack_mbuf ++ [mbuf],
          ack_num := (s2.conns new).ack_num + 1,
          isn := htonl env ((ntohl env mbuf.tcp_ack_seq + 2 ^ 32 - 1) % 2 ^ 32),
          fdata_seq := htonl env mbuf.tcp_ack_seq }
      match env.timeout_table param.proto with
      | none => none
      | some tbl =>
        let s4 := s3.setConn new
          { s3.conns new with
            state := env.DPVS_TCP_S_SYN_SENT,
            timeout := { (s3.conns new).timeout with tv_sec := tbl env.DPVS_TCP_S_SYN_SENT } }
        conn_new_finish env s4 new
  else conn_new_finish env s1 new

/-- The real-server port `dp_vs_conn_new` picks ("set proper RS port"): the
template port of the parameters when `TEMPLATE` is requested or that port is
set, the L4 source port of the packet for a Source-NAT destination (`none`
when the ports cannot be read), the port of the destination otherwise. -/
def conn_new_rport (s : State) (mbuf : Mbuf) (param : DpVsConnParam) (did : Nat)
    (flags : ConnFlags) : Option Nat :=
  if flags.template || param.ct_dport != 0 then some param.ct_dport
  else if (s.dests did).fwdmode = FwdMode.SNAT then
    (if mbuf_header_pointer mbuf 4 then some mbuf.l4_sport else none)
  else some (s.dests did).port

/-- The record `dp_vs_conn_new` fills in before it binds the destination: both
tuple nodes, the flow-level addresses, no controller, reference count 1, the
supplied flags and state 0, on top of the zeroed record. -/
def conn_new_fill (s : State) (mbuf : Mbuf) (param : DpVsConnParam) (did : Nat)
    (flags : ConnFlags) (rport : Nat) : DpVsConn :=
  let dest := s.dests did
  let tin : ConnTupleHash :=
    { direct := Dir.INBOUND, af := param.af, proto := param.proto
      saddr := param.caddr, sport := param.cport
      daddr := param.vaddr, dport := param.vport }
  let tout : ConnTupleHash :=
    { direct := Dir.OUTBOUND, af := param.af, proto := param.proto
      saddr := if dest.fwdmode = FwdMode.SNAT then mbuf.src_addr else dest.addr
      sport := rport
      daddr := param.caddr, dport := param.cport }
  { DpVsConn.zero with
    tuplehash_in := tin, tuplehash_out := tout
    af := param.af, proto := param.proto
    caddr := param.caddr, cport := param.cport
    vaddr := param.vaddr, vport := param.vport
    laddr := param.caddr, lport := param.cport
    daddr := if dest.fwdmode = FwdMode.SNAT then mbuf.src_addr else dest.addr
    dport := rport
    control := none, n_control := 0
    refcnt := 1, flags := flags, state := 0 }

/-- Modelled from the spec: `dp_vs_laddr_bind` is defined in `laddr.c`, which is
not part of `src/`. "Full-NAT will later rewrite these to `(laddr, lport)`
after local-address binding": on success the local address and port the pool
picked are stored in the record and in the destination side of the outbound
node; the result is `none` when the bind fails. -/
def dp_vs_laddr_bind (env : Env) (s : State) (new : Nat) : Option State :=
  match env.laddr_pick (s.conns new) with
  | none => none
  | some lp =>
    some (s.setConn new
      { s.conns new with
        laddr := lp.1, lport := lp.2
        tuplehash_out := { (s.conns new).tuplehash_out with daddr := lp.1, dport := lp.2 } })

/-- The local-address step of `dp_vs_conn_new` ("FNAT only: select and bind
local address/port"); `none` when `dp_vs_laddr_bind` fails. -/
def conn_new_laddr (env : Env) (s : State) (did new : Nat) : Option State :=
  if (s.dests did).fwdmode = FwdMode.FNAT then dp_vs_laddr_bind env s new
  else some s

/-- The part of `dp_vs_conn_new` from `conn_bind_dest` on, entered with the
filled record stored at `new`. -/
def conn_new_bound (env : Env) (s : State) (mbuf : Mbuf) (param : DpVsConnParam)
    (did : Nat) (flags : ConnFlags) (new : Nat) : Option (Option Nat × State) :=
  let b := conn_bind_dest s new did
  if b.1 ≠ Err.OK then conn_new_errout b.2 new
  else
    match conn_new_laddr env b.2 did new with
    | none => conn_new_unbind_dest b.2 new
    | some s3 =>
      let h := conn_hash env s3 new
      if h.1 ≠ Err.OK then conn_new_unbind_laddr h.2 new
      else conn_new_after_hash env h.2 mbuf param flags new

/-- The function `dp_vs_conn_new(mbuf, param, dest, flags)`. The outer option is
`none` when the code dereferences a null pointer; the inner one is the
returned record, `none` for `NULL`. When the ports of a Source-NAT packet
cannot be read the function returns `NULL` without giving the record back. -/
def dp_vs_conn_new (env : Env) (s : State) (mbuf : Mbuf) (param : DpVsConnParam)
    (did : Nat) (flags : ConnFlags) : Option (Option Nat × State) :=
  match s.conn_cache with
  | [] => some (none, s)
  | new :: rest =>
    let s0 := ({ s with conn_cache := rest } : State).setConn new DpVsConn.zero
    match conn_new_rport s0 mbuf param did flags with
    | none => some (none, s0)
    | some rport =>
      conn_new_bound env (s0.setConn new (conn_new_fill s0 mbuf param did flags rport))
        mbuf param did flags new

/-- The accounting of a bound flow that the unwinding labels of
`dp_vs_conn_new` undo: the flow points to the destination, and the counters of
the destination are the counters `c` raised by the bind of a flow with flag
word `f`. -/
def bound_to (t : State) (new did : Nat) (f : ConnFlags) (c : Int × Int × Int × Int) : Prop :=
  (t.conns new).dest = some did
  ∧ (t.conns new).flags.template = f.template
  ∧ (t.conns new).flags.inactive = f.inactive
  ∧ (t.dests did).counters
      = (c.1 + 1, c.2.1, c.2.2.1 + (if f.template then 0 else 1),
          c.2.2.2 + (if f.template then 1 else 0))

instance (t : State) (new did : Nat) (f : ConnFlags) (c : Int × Int × Int × Int) :
    Decidable (bound_to t new did f c) := by
  unfold bound_to
  infer_instance

/-! ## Expiration -/

/-- Modelled from the spec: `dp_vs_control_del` is declared in `conn.h`, which is
not part of `src/`. "If this flow is controlled by another, detach it from
its parent": the parent loses one controlled child and the link is cleared. -/
def dp_vs_control_del (s : State) (cid : Nat) : State :=
  match (s.conns cid).control with
  | none => s
  | some ctl =>
    let s1 := s.setConn cid { s.conns cid with control := none }
    s1.setConn ctl { s1.conns ctl with n_control := (s1.conns ctl).n_control - 1 }

/-- The deadline `conn_expire` recomputes on entry, before the jitter. -/
def conn_expire_timeout (env : Env) (conn : DpVsConn) : Int :=
  if (conn.proto = IPPROTO_TCP ∧ conn.state = env.DPVS_TCP_S_ESTABLISHED)
      ∨ (conn.proto = IPPROTO_UDP ∧ conn.state = env.DPVS_UDP_S_NORMAL) then
    if env.dp_vs_get_conn_timeout conn > 0 then (env.dp_vs_get_conn_timeout conn : Int)
    else
      match env.timeout_table conn.proto with
      | some tbl => tbl conn.state
      | none => 60
  else
    match env.timeout_table conn.proto with
    | some tbl => tbl conn.state
    | none => 60

/-- The SYN retransmit of `conn_expire`: when a transmitter is installed, a
pool is found and the clone succeeds, the clone is handed to the inbound
transmitter. -/
def conn_expire_retransmit (env : Env) (s : State) (cid : Nat) (syn : Mbuf) : State :=
  match (s.conns cid).packet_xmit with
  | none => s
  | some f =>
    if !env.mbuf_pool (s.conns cid) then s
    else if !env.pktmbuf_clone syn then s
    else s.emit (Event.packet_xmit cid f syn)

/-- The loop of `conn_expire` over the stored ACK packets: each packet is freed
and its wrapper goes back to `this_ack_mbufpool`. -/
def conn_expire_drain_acks (s : State) (cid : Nat) : State :=
  let s1 := (s.conns cid).ack_mbuf.foldl
    (fun (a : State) m =>
      { a.emit (Event.pktmbuf_free m) with ack_mbufpool := a.ack_mbufpool + 1 }) s
  s1.setConn cid { s1.conns cid with ack_mbuf := [] }

/-- The terminal branch of `conn_expire`, entered when the reference count
reads 1 after the unhash attempt. -/
def conn_expire_terminal (env : Env) (s : State) (cid : Nat) : Option State :=
  let s1 :=
    if (s.conns cid).flags.template then s.emit (Event.timer_cancel cid true)
    else s.emit (Event.timer_cancel cid false)
  let s2 := if (s1.conns cid).control.isSome then dp_vs_control_del s1 cid else s1
  let s3 :=
    if env.has_conn_expire (s2.conns cid).proto then s2.emit (Event.proto_conn_expire cid)
    else s2
  match (s3.conns cid).dest with
  | none => none
  | some did =>
    let s4 :=
      if (s3.dests did).fwdmode = FwdMode.SNAT ∧ (s3.conns cid).proto ≠ IPPROTO_ICMP then
        s3.emit (Event.sa_release cid)
      else s3
    match conn_unbind_dest s4 cid with
    | none => none
    | some u =>
      let s5 := u.2.emit (Event.laddr_unbind cid)
      let s6 := conn_expire_drain_acks s5 cid
      let s7 := s6.setConn cid { s6.conns cid with ack_num := 0 }
      let s8 :=
        match (s7.conns cid).syn_mbuf with
        | some m => s7.emit (Event.pktmbuf_free m)
        | none => s7
      let s9 := conn_refcnt_dec s8 cid
      some { s9 with
        conn_cache := cid :: s9.conn_cache,
        dp_vs_conn_count := s9.dp_vs_conn_count - 1 }

/-- The part of `conn_expire` after the SYN retransmit phase: the controller
check, the unhash attempt, then the terminal branch or the reprieve. -/
def conn_expire_rest (env : Env) (s2 : State) (cid : Nat) : Option State :=
  if (s2.conns cid).n_control ≠ 0 then some (dp_vs_conn_put s2 cid)
  else
    let s3 := (conn_unhash s2 cid).2
    if (s3.conns cid).refcnt = 1 then conn_expire_terminal env s3 cid
    else
      let s4 := (conn_hash env s3 cid).2
      let s5 := s4.emit (Event.timer_update cid (s4.conns cid).timeout false)
      some (conn_refcnt_dec s5 cid)

/-- The timer callback `conn_expire(conn)`. The result is `none` when the code
dereferences a null pointer. -/
def conn_expire (env : Env) (s : State) (cid : Nat) : Option State :=
  let s1 := s.setConn cid
    { s.conns cid with
      timeout := env.dpvs_time_rand_delay
        { (s.conns cid).timeout with tv_sec := conn_expire_timeout env (s.conns cid) }
        1000000 }
  let s2 := conn_refcnt_inc s1 cid
  match (s2.conns cid).syn_mbuf with
  | some syn =>
    if (s2.conns cid).syn_retry_max > 0 then
      let s3 := conn_expire_retransmit env s2 cid syn
      let s4 := s3.setConn cid
        { s3.conns cid with syn_retry_max := (s3.conns cid).syn_retry_max - 1 }
      some (dp_vs_conn_put (s4.emit Event.estats_inc_synproxy_rs_error) cid)
    else conn_expire_rest env s2 cid
  | none => conn_expire_rest env s2 cid

/-- Whether a firing of `conn_expire` gives the record back to the pool: the
call returns and `rte_mempool_put(this_conn_cache, conn)` has pushed the
record on the pool. -/
def conn_expire_released (env : Env) (s : State) (cid : Nat) : Bool :=
  match conn_expire env s cid with
  | some s' => decide (s'.conn_cache = cid :: s.conn_cache)
  | none => false

/-! ## Sequences of lookups and releases -/

/-- The part of an address that `inet_addr_equal` compares under a family:
`in.s_addr` under `AF_INET`, the whole union otherwise. -/
def inet_addr_part (af : Int) (a : Nat) : Nat :=
  if af = AF_INET then a % 2 ^ 32 else a

/-- The six fields a lookup compares, `(af, proto, saddr, sport, daddr, dport)`,
the addresses as `inet_addr_equal` reads them under the family of the tuple. -/
def ConnTupleHash.key (t : ConnTupleHash) : Int × Nat × Nat × Nat × Nat × Nat :=
  (t.af, t.proto, inet_addr_part t.af t.saddr, t.sport, inet_addr_part t.af t.daddr, t.dport)

/-- One step of a caller that takes and drops references to a flow: a lookup
with `dp_vs_conn_get`, or a release with `dp_vs_conn_put` or
`dp_vs_conn_put_no_reset`. -/
inductive RefOp where
  | get (af : Int) (proto saddr daddr sport dport : Nat) (reverse : Bool)
  | put
  | put_no_reset
  deriving DecidableEq, Repr

/-- Whether a step is a lookup. -/
def RefOp.isGet : RefOp → Bool
  | RefOp.get .. => true
  | _ => false

/-- Run a sequence of steps against the flow `cid`. The result is `none` when a
lookup of the sequence misses or hits another flow. -/
def run_ref_ops (env : Env) (cid : Nat) : State → List RefOp → Option State
  | s, [] => some s
  | s, RefOp.get af proto saddr daddr sport dport reverse :: ops =>
    match (dp_vs_conn_get env s af proto saddr daddr sport dport reverse).1 with
    | some hit =>
      if hit.1 = cid then
        run_ref_ops env cid (dp_vs_conn_get env s af proto saddr daddr sport dport reverse).2 ops
      else none
    | none => none
  | s, RefOp.put :: ops => run_ref_ops env cid (dp_vs_conn_put s cid) ops
  | s, RefOp.put_no_reset :: ops => run_ref_ops env cid (dp_vs_conn_put_no_reset s cid) ops

/-! ## Concrete inputs -/

/-- A simple environment: additive hash, no jitter, no protocol registered,
local address `(7, 7000)`. -/
def env0 : Env :=
  { rte_jhash_3words := fun a b c d => a + b + c + d
    dpvs_time_rand_delay := fun tv _ => tv
    timeout_table := fun _ => none
    has_conn_expire := fun _ => false
    dp_vs_get_conn_timeout := fun _ => 0
    laddr_pick := fun _ => some (7, 7000)
    mbuf_pool := fun _ => true
    pktmbuf_clone := fun _ => true
    host_big_endian := false
    DPVS_TCP_S_ESTABLISHED := 1
    DPVS_TCP_S_SYN_SENT := 2
    DPVS_UDP_S_NORMAL := 0 }

/-- A direct-routing destination `2.2.2.2:8080` without connection limit, whose
connection flags carry `INACTIVE`. -/
def dest0 : DpVsDest :=
  { addr := 0x02020202, port := 8080, fwdmode := FwdMode.DR
    flags := { available := true, overload := false, other := 0 }
    conn_flags := { ConnFlags.zero with inactive := true }
    weight := 1, refcnt := 0, actconns := 0, inactconns := 0, persistconns := 0
    max_conn := 0 }

/-- The state after initialisation: empty tables, every record zero, a pool of
three free records, two free ACK wrappers, default control variables. -/
def state0 : State :=
  { conns := fun _ => DpVsConn.zero
    dests := fun _ => dest0
    dp_vs_conn_tab := fun _ => []
    dp_vs_ct_tab := fun _ => []
    dp_vs_conn_count := 0
    dp_vs_conn_rnd := 0
    conn_cache := [0, 1, 2]
    ack_mbufpool := 2
    conn_init_timeout := DPVS_CONN_INIT_TIMEOUT_DEF
    conn_expire_quiescent_template := false
    log := [] }

/-- A TCP flow `10.0.0.1:40000 -> 1.1.1.1:80` bound to `2.2.2.2:8080`, held by
its creator only. -/
def conn0 : DpVsConn :=
  { DpVsConn.zero with
    af := 2, proto := 6
    caddr := 0x0a000001, cport := 40000, vaddr := 0x01010101, vport := 80
    laddr := 0x0a000001, lport := 40000, daddr := 0x02020202, dport := 8080
    tuplehash_in := ⟨Dir.INBOUND, 2, 6, 0x0a000001, 40000, 0x01010101, 80⟩
    tuplehash_out := ⟨Dir.OUTBOUND, 2, 6, 0x02020202, 8080, 0x0a000001, 40000⟩
    flags := { ConnFlags.zero with inactive := true }
    refcnt := 1, dest := some 0 }

/-- The state in which record 0 is the flow `conn0`, not yet hashed. -/
def state1 : State :=
  state0.setConn 0 conn0

/-- The state in which the flow `conn0` has been hashed by `conn_hash`. -/
def state2 : State :=
  (conn_hash env0 state1 0).2

/-- A TCP packet from `10.0.0.1:40000` with a complete TCP header. -/
def mbuf0 : Mbuf :=
  { src_addr := 0x0a000001, l4_len := 20, l4_sport := 40000, tcp_ack_seq := 1000 }

/-- The parameters of the flow `10.0.0.1:40000 -> 1.1.1.1:80` over TCP. -/
def param0 : DpVsConnParam :=
  { af := 2, proto := 6, caddr := 0x0a000001, vaddr := 0x01010101
    cport := 40000, vport := 80, ct_dport := 0 }

/-- The state a call leaves behind, whatever it returned; the entry state when
the call does not return. -/
def state_after (s : State) (r : Option (Option Nat × State)) : State :=
  match r with
  | some x => x.2
  | none => s

/-- The state after `dp_vs_conn_new` has created the flow `param0` on the
direct-routing destination from the initial state. -/
def state_new : State :=
  state_after state0 (dp_vs_conn_new env0 state0 mbuf0 param0 0 ConnFlags.zero)

/-- The state after the creator of the flow has released its reference. -/
def state_idle : State :=
  dp_vs_conn_put state_new 0

/-- An environment in which the local-address pool is exhausted, so that
`dp_vs_laddr_bind` fails. -/
def env_nolocal : Env :=
  { env0 with laddr_pick := fun _ => none }

/-- A Full-NAT destination `2.2.2.2:8080` that passes `INACTIVE` down. -/
def dest_fnat : DpVsDest :=
  { dest0 with fwdmode := FwdMode.FNAT }

/-- A direct-routing destination with a limit of one connection that already
counts one inactive connection. -/
def dest_full : DpVsDest :=
  { dest0 with max_conn := 1, inactconns := 1 }

/-- A destination whose forwarding mode is none of Direct-Routing, Full-NAT and
Source-NAT. -/
def dest_unsupported : DpVsDest :=
  { dest0 with fwdmode := FwdMode.OTHER 0 }

/-- A TCP packet whose TCP header is cut short: 8 bytes follow the IP header. -/
def mbuf_short : Mbuf :=
  { mbuf0 with l4_len := 8 }

/-! ## Template lookup and template check -/

/-- Protocol number `IPPROTO_IP`. -/
def IPPROTO_IP : Nat := 0

/-- Address family `AF_UNSPEC`. -/
def AF_UNSPEC : Int := 0

/-- Byte reversal of a 16-bit word. -/
def bswap16 (x : Nat) : Nat :=
  ((x % 256) <<< 8) ||| ((x >>> 8) % 256)

/-- The conversion `htons`: identity on a big-endian host, byte reversal otherwise. -/
def htons (env : Env) (x : Nat) : Nat :=
  if env.host_big_endian then x % 2 ^ 16 else bswap16 x

/-- The match condition of the bucket walk of `dp_vs_ct_in_get`, for the node
`t` of the flow `conn`. The destination address is compared under `AF_UNSPEC`
when the protocol is `IPPROTO_IP`, and the owner must carry `TEMPLATE`. -/
def ct_in_get_match (af : Int) (proto saddr daddr sport dport : Nat)
    (conn : DpVsConn) (t : ConnTupleHash) : Bool :=
  t.sport == sport && t.dport == dport
    && inet_addr_equal af t.saddr saddr
    && inet_addr_equal (if proto = IPPROTO_IP then AF_UNSPEC else af) t.daddr daddr
    && conn.flags.template
    && t.proto == proto && t.af == af

/-- The function `dp_vs_ct_in_get`: look the tuple up in the shared template
table. On a hit the reference count of the owner is incremented and the owner
is returned. -/
def dp_vs_ct_in_get (env : Env) (s : State) (af : Int)
    (proto saddr daddr sport dport : Nat) : Option Nat × State :=
  let hash := conn_hashkey env s af saddr sport daddr dport
  match (s.dp_vs_ct_tab hash).find?
      (fun n => ct_in_get_match af proto saddr daddr sport dport
        (s.conns (tuplehash_to_conn n)) (s.tuple n)) with
  | some n =>
    let conn := tuplehash_to_conn n
    (some conn, conn_refcnt_inc s conn)
  | none => (none, s)

/-- The test of `dp_vs_check_template` on the destination of the template:
there is none, or it lacks `DPVS_DEST_F_AVAILABLE`, or templates of quiescent
destinations expire and its weight is 0. -/
def check_template_unavailable (s : State) (ct : Nat) : Bool :=
  match (s.conns ct).dest with
  | none => true
  | some did =>
    !(s.dests did).flags.available
      || (s.conn_expire_quiescent_template && (s.dests did).weight == 0)

/-- The block "invalidate the connection" of `dp_vs_check_template`. The test
`if (conn_unhash(ct))` is taken when the returned code is non-zero, that is
when it is not `EDPVS_OK`. The four ports are 16-bit fields: the 32-bit value
`htonl(0xffff)` is cut to its low 16 bits when stored. -/
def check_template_invalidate (env : Env) (s : State) (ct : Nat) : State :=
  if (s.conns ct).vport ≠ htons env 0xffff then
    let u := conn_unhash s ct
    if u.1 ≠ Err.OK then
      let s1 := u.2.setConn ct
        { u.2.conns ct with
          dport := htonl env 0xffff % 2 ^ 16,
          vport := htonl env 0xffff % 2 ^ 16,
          lport := 0,
          cport := 0 }
      (conn_hash env s1 ct).2
    else u.2
  else s

/-- The function `dp_vs_check_template(ct)`: 1 when the destination of the
template is usable; otherwise the template is invalidated, its reference count
is decremented and the result is 0. -/
def dp_vs_check_template (env : Env) (s : State) (ct : Nat) : Int × State :=
  if check_template_unavailable s ct then
    (0, conn_refcnt_dec (check_template_invalidate env s ct) ct)
  else (1, s)

/-! ## Concrete templates -/

/-- The parameters of a persistence template for the client `10.0.0.1` on the
virtual service `1.1.1.1:80`, with template port 8080. -/
def param_tmpl : DpVsConnParam :=
  { af := 2, proto := 6, caddr := 0x0a000001, vaddr := 0x01010101
    cport := 0, vport := 80, ct_dport := 8080 }

/-- The state after `dp_vs_conn_new` has created the template `param_tmpl` from
the initial state: record 0 is hashed in the shared table and held by the index
and by its creator. -/
def state_tmpl : State :=
  state_after state0
    (dp_vs_conn_new env0 state0 mbuf0 param_tmpl 0 { ConnFlags.zero with template := true })

/-- The parameters of a persistence template for every protocol (`IPPROTO_IP`)
from `10.0.0.1` towards `1.1.1.1:80`. -/
def param_tmpl_ip : DpVsConnParam :=
  { param_tmpl with proto := 0 }

/-- The state after `dp_vs_conn_new` has created the template `param_tmpl_ip`
from the initial state. -/
def state_tmpl_ip : State :=
  state_after state0
    (dp_vs_conn_new env0 state0 mbuf0 param_tmpl_ip 0 { ConnFlags.zero with template := true })

/-- The template state with the destination switched to unavailable. -/
def state_tmpl_down : State :=
  state_tmpl.setDest 0
    { state_tmpl.dests 0 with flags := { (state_tmpl.dests 0).flags with available := false } }

/-- The template state after one more holder has found the template with
`dp_vs_ct_in_get`: reference count 3. -/
def state_tmpl_shared : State :=
  (dp_vs_ct_in_get env0 state_tmpl 2 6 0x0a000001 0x01010101 0 80).2

/-- The shared template state with an unavailable destination. -/
def state_tmpl_shared_down : State :=
  state_tmpl_shared.setDest 0
    { state_tmpl_shared.dests 0 with
      flags := { (state_tmpl_shared.dests 0).flags with available := false } }

/-- A state with templates of quiescent destinations set to expire. -/
def State.quiescent (s : State) : State :=
  { s with conn_expire_quiescent_template := true }

/-- The shared template state with `expire_quiescent_template` on and the
weight of the destination at 0. -/
def state_tmpl_shared_quiet : State :=
  (state_tmpl_shared.setDest 0 { state_tmpl_shared.dests 0 with weight := 0 }).quiescent

/-- The state after `dp_vs_conn_new` has created the template `param_tmpl`
twice: records 0 and 1 carry the same tuples. `expire_quiescent_template` is
on and the weight of the destination is 0. -/
def state_tmpl_twice_quiet : State :=
  ((state_after state_tmpl
      (dp_vs_conn_new env0 state_tmpl mbuf0 param_tmpl 0
        { ConnFlags.zero with template := true })).setDest 0
    { dest0 with weight := 0, refcnt := 2, persistconns := 2 }).quiescent

/-- The template state with `expire_quiescent_template` on and the weight of the
destination at 0; the template is held by the index and by its creator. -/
def state_tmpl_quiet : State :=
  (state_tmpl.setDest 0 { state_tmpl.dests 0 with weight := 0 }).quiescent

/-! ## Fields of a record that the stages of flow construction carry along -/

/-- The addressing of a flow: family, protocol, the four flow-level addresses
and ports, both tuple nodes, and the controller link with the count of
controlled flows. -/
def DpVsConn.body (c : DpVsConn) :
    Int × Nat × (Nat × Nat × Nat × Nat) × (Nat × Nat × Nat × Nat)
      × ConnTupleHash × ConnTupleHash × Option Nat × Int :=
  (c.af, c.proto, (c.caddr, c.vaddr, c.laddr, c.daddr), (c.cport, c.vport, c.lport, c.dport),
    c.tuplehash_in, c.tuplehash_out, c.control, c.n_control)

/-- A Source-NAT destination `2.2.2.2:8080`. -/
def dest_snat : DpVsDest :=
  { dest0 with fwdmode := FwdMode.SNAT }

/-! ## Flush -/

/-- The size of a pointer to `struct list_head`, the type of `this_conn_tab`
(`RTE_DEFINE_PER_LCORE(struct list_head *, dp_vs_conn_tab)`), on an LP64 host. -/
def sizeof_list_head_ptr : Nat := 8

/-- The size of a `struct list_head`, which holds two pointers. -/
def sizeof_list_head : Nat := 2 * sizeof_list_head_ptr

/-- Modelled from the spec: the macro `NELEMS` is defined in `common.h`, which is
not part of `src/`, and the spec does not describe it. It is read as the usual
element count `sizeof(a) / sizeof((a)[0])`. `conn_flush` applies it to
`this_conn_tab`, which is a pointer and not an array, so the count is the size
of a pointer divided by the size of a list head. -/
def NELEMS_this_conn_tab : Nat := sizeof_list_head_ptr / sizeof_list_head

/-- The block of `conn_flush` guarded by `refcnt == 2`: unhash, release the
source-NAT mapping, unbind the destination and the local address, drop the
reference, give the record back to the pool and count the flow out. The result
is `none` when `conn->dest` is null. -/
def conn_flush_release (s : State) (conn : Nat) : Option State :=
  let s1 := (conn_unhash s conn).2
  match (s1.conns conn).dest with
  | none => none
  | some did =>
    let s2 :=
      if (s1.dests did).fwdmode = FwdMode.SNAT ∧ (s1.conns conn).proto ≠ IPPROTO_ICMP then
        s1.emit (Event.sa_release conn)
      else s1
    match conn_unbind_dest s2 conn with
    | none => none
    | some u =>
      let s3 := u.2.emit (Event.laddr_unbind conn)
      let s4 := conn_refcnt_dec s3 conn
      some { s4 with
        conn_cache := conn :: s4.conn_cache,
        dp_vs_conn_count := s4.dp_vs_conn_count - 1 }

/-- The inner loop of `conn_flush` over the nodes of one bucket. Each node has
the timer of its owner cancelled on the wheel `TEMPLATE` selects and the owner
referenced; when the count then reads 2 the owner is released and the function
returns (`true`), otherwise the reference is dropped and the walk goes on. -/
def conn_flush_bucket (s : State) : List Node → Option (Bool × State)
  | [] => some (false, s)
  | n :: rest =>
    let conn := tuplehash_to_conn n
    let s1 :=
      if (s.conns conn).flags.template then s.emit (Event.timer_cancel conn true)
      else s.emit (Event.timer_cancel conn false)
    let s2 := conn_refcnt_inc s1 conn
    if (s2.conns conn).refcnt = 2 then
      (conn_flush_release s2 conn).map (fun t => (true, t))
    else conn_flush_bucket (conn_refcnt_dec s2 conn) rest

/-- The outer loop of `conn_flush` from bucket `i` on, over `k` more buckets. -/
def conn_flush_from (s : State) (i : Nat) : Nat → Option State
  | 0 => some s
  | k + 1 =>
    match conn_flush_bucket s (s.dp_vs_conn_tab i) with
    | none => none
    | some (true, t) => some t
    | some (false, t) => conn_flush_from t (i + 1) k

/-- The function `conn_flush()`: `for (i = 0; i < NELEMS(this_conn_tab); i++)`
over the buckets of the per-lcore table. -/
def conn_flush (s : State) : Option State :=
  conn_flush_from s 0 NELEMS_this_conn_tab

/-! ## Configuration keywords -/

/-- The handler `conn_init_timeout_handler`, applied to the integer `atoi` has
read from the configuration file. The bounds `IPVS_TIMEOUT_MIN` and
`IPVS_TIMEOUT_MAX` are declared in a header that is not part of `src/`; they
are arguments. -/
def conn_init_timeout_handler (IPVS_TIMEOUT_MIN IPVS_TIMEOUT_MAX : Int) (s : State)
    (init_timeout : Int) : State :=
  if init_timeout > IPVS_TIMEOUT_MIN ∧ init_timeout < IPVS_TIMEOUT_MAX then
    { s with conn_init_timeout := init_timeout }
  else
    { s with conn_init_timeout := DPVS_CONN_INIT_TIMEOUT_DEF }

/-! ## Entry of the expiration callback -/

/-- The deadline `conn_expire` stores on entry: the recomputed seconds with the
jitter applied. -/
def conn_expire_deadline (env : Env) (conn : DpVsConn) : Timeval :=
  env.dpvs_time_rand_delay { conn.timeout with tv_sec := conn_expire_timeout env conn } 1000000

/-- The state of `conn_expire` before the SYN retransmit test: the deadline has
been recomputed and the callback has taken its own reference. -/
def conn_expire_entry (env : Env) (s : State) (cid : Nat) : State :=
  conn_refcnt_inc
    (s.setConn cid { s.conns cid with timeout := conn_expire_deadline env (s.conns cid) }) cid

/-! ## Stages of the terminal branch of the expiration callback -/

/-- The terminal branch of `conn_expire` up to the protocol hook: the timer is
cancelled, the flow is detached from its controller and the hook is called. -/
def conn_expire_terminal_head (env : Env) (s : State) (cid : Nat) : State :=
  let s1 :=
    if (s.conns cid).flags.template then s.emit (Event.timer_cancel cid true)
    else s.emit (Event.timer_cancel cid false)
  let s2 := if (s1.conns cid).control.isSome then dp_vs_control_del s1 cid else s1
  if env.has_conn_expire (s2.conns cid).proto then s2.emit (Event.proto_conn_expire cid)
  else s2

/-- The release of the source-NAT mapping in the terminal branch of
`conn_expire`, for a flow bound to the destination `did`. -/
def conn_expire_terminal_sa (s : State) (cid did : Nat) : State :=
  if (s.dests did).fwdmode = FwdMode.SNAT ∧ (s.conns cid).proto ≠ IPPROTO_ICMP then
    s.emit (Event.sa_release cid)
  else s

/-- The terminal branch of `conn_expire` after `conn_unbind_dest`: the local
address is unbound, the stored packets are freed, the reference of the
callback is dropped, the record goes back to the pool and the flow is counted
out. -/
def conn_expire_terminal_tail (s : State) (cid : Nat) : State :=
  let s5 := s.emit (Event.laddr_unbind cid)
  let s6 := conn_expire_drain_acks s5 cid
  let s7 := s6.setConn cid { s6.conns cid with ack_num := 0 }
  let s8 :=
    match (s7.conns cid).syn_mbuf with
    | some m => s7.emit (Event.pktmbuf_free m)
    | none => s7
  let s9 := conn_refcnt_dec s8 cid
  { s9 with
    conn_cache := cid :: s9.conn_cache,
    dp_vs_conn_count := s9.dp_vs_conn_count - 1 }

/-! ## Successive firings of a timer -/

/-- Firing the timer of a flow `k` times in a row, with nothing in between.
The result is `none` when one of the firings dereferences a null pointer. -/
def conn_expire_times (env : Env) (cid : Nat) : Nat → State → Option State
  | 0, s => some s
  | k + 1, s =>
    match conn_expire env s cid with
    | none => none
    | some s' => conn_expire_times env cid k s'

/-- Whether a logged call hands a packet to the inbound transmitter of the flow. -/
def Event.is_xmit_of (cid : Nat) : Event → Bool
  | Event.packet_xmit c _ _ => c == cid
  | _ => false

/-- The number of packets handed to the inbound transmitter of a flow so far. -/
def syn_clones_sent (s : State) (cid : Nat) : Nat :=
  s.log.countP (Event.is_xmit_of cid)

/-- Whether the retransmit of `conn_expire` gets its clone out at a firing from
the state `s`: a transmitter is installed, `get_mbuf_pool` finds a pool and
`rte_pktmbuf_clone` succeeds. -/
def conn_expire_can_clone (env : Env) (s : State) (cid : Nat) (syn : Mbuf) : Bool :=
  ((conn_expire_entry env s cid).conns cid).packet_xmit.isSome
    && env.mbuf_pool ((conn_expire_entry env s cid).conns cid)
    && env.pktmbuf_clone syn

/-- A flow with a saved SYN and two retransmits left: the flow of `state_idle`
with `syn_mbuf` set and `syn_retry_max = 2`. -/
def state_syn : State :=
  state_idle.setConn 0 { state_idle.conns 0 with syn_mbuf := some mbuf0, syn_retry_max := 2 }

/-- An environment in which `rte_pktmbuf_clone` fails. -/
def env_noclone : Env :=
  { env0 with pktmbuf_clone := fun _ => false }

/-! ## The index as the invariants see it

The invariants of the index read, of each record, the two flags `HASHED` and
`TEMPLATE`, the reference count and the fields the bucket numbers are computed
from; of the state, the hash seed, the two tables and the pool. `State.view`
keeps exactly that, and the operations below are the effects of `conn_hash`,
`conn_unhash`, a reference taken or dropped and a release, on a view. -/

/-- What the index invariants read of a record. -/
structure ConnIndex where
  hashed : Bool
  template : Bool
  refcnt : Int
  af : Int
  tuplehash_in : ConnTupleHash
  tuplehash_out : ConnTupleHash

/-- The part of a record the index invariants read. -/
def DpVsConn.index (c : DpVsConn) : ConnIndex :=
  { hashed := c.flags.hashed, template := c.flags.template, refcnt := c.refcnt
    af := c.af, tuplehash_in := c.tuplehash_in, tuplehash_out := c.tuplehash_out }

/-- What the index invariants read of a state. -/
structure IndexView where
  idx : Nat → ConnIndex
  rnd : Nat
  conn_tab : Nat → List Node
  ct_tab : Nat → List Node
  cache : List Nat

/-- The view of a state. -/
def State.view (s : State) : IndexView :=
  { idx := fun i => (s.conns i).index, rnd := s.dp_vs_conn_rnd
    conn_tab := s.dp_vs_conn_tab, ct_tab := s.dp_vs_ct_tab, cache := s.conn_cache }

/-- Replace what is seen of one record. -/
def IndexView.setIdx (v : IndexView) (c : Nat) (x : ConnIndex) : IndexView :=
  { v with idx := fun i => if i = c then x else v.idx i }

/-- Add `d` to the reference count of a record. -/
def IndexView.ref (v : IndexView) (c : Nat) (d : Int) : IndexView :=
  v.setIdx c { v.idx c with refcnt := (v.idx c).refcnt + d }

/-- The bucket of the inbound node of a record, computed on a view. -/
def IndexView.ihash (env : Env) (v : IndexView) (c : Nat) : Nat :=
  (env.rte_jhash_3words ((v.idx c).tuplehash_in.saddr % 2 ^ 32)
      ((v.idx c).tuplehash_in.daddr % 2 ^ 32)
      ((((v.idx c).tuplehash_in.sport % 2 ^ 16) <<< 16
        ||| ((v.idx c).tuplehash_in.dport % 2 ^ 16)) % 2 ^ 32) v.rnd)
    &&& DPVS_CONN_TAB_MASK

/-- The bucket of the outbound node of a record, computed on a view. -/
def IndexView.ohash (env : Env) (v : IndexView) (c : Nat) : Nat :=
  (env.rte_jhash_3words ((v.idx c).tuplehash_out.saddr % 2 ^ 32)
      ((v.idx c).tuplehash_out.daddr % 2 ^ 32)
      ((((v.idx c).tuplehash_out.sport % 2 ^ 16) <<< 16
        ||| ((v.idx c).tuplehash_out.dport % 2 ^ 16)) % 2 ^ 32) v.rnd)
    &&& DPVS_CONN_TAB_MASK

/-- The effect of `conn_hash` on a view. -/
def IndexView.hash (env : Env) (v : IndexView) (c : Nat) : IndexView :=
  if (v.idx c).hashed then v
  else
    let nin : Node := ⟨c, Dir.INBOUND⟩
    let nout : Node := ⟨c, Dir.OUTBOUND⟩
    let v1 : IndexView :=
      if (v.idx c).template then
        { v with ct_tab := list_add (list_add v.ct_tab (v.ihash env c) nin) (v.ohash env c) nout }
      else
        { v with conn_tab := list_add (list_add v.conn_tab (v.ihash env c) nin) (v.ohash env c) nout }
    v1.setIdx c { v.idx c with hashed := true, refcnt := (v.idx c).refcnt + 1 }

/-- The effect of `conn_unhash` on a view. -/
def IndexView.unhash (v : IndexView) (c : Nat) : IndexView :=
  if (v.idx c).hashed = true ∧ (v.idx c).refcnt = 2 then
    let nin : Node := ⟨c, Dir.INBOUND⟩
    let nout : Node := ⟨c, Dir.OUTBOUND⟩
    let v1 : IndexView :=
      { v with
        conn_tab := list_del (list_del v.conn_tab nin) nout,
        ct_tab := list_del (list_del v.ct_tab nin) nout }
    v1.setIdx c { v.idx c with hashed := false, refcnt := (v.idx c).refcnt - 1 }
  else v

/-- The effect of a release on a view: the last reference is dropped and the
record is pushed on the pool. -/
def IndexView.free (v : IndexView) (c : Nat) : IndexView :=
  { v.ref c (-1) with cache := c :: v.cache }
/-- The table a record with the given `TEMPLATE` flag is hashed into. -/
def IndexView.tab (v : IndexView) (tmpl : Bool) : Nat → List Node :=
  if tmpl then v.ct_tab else v.conn_tab

/-- The index invariant for one record: each of its two nodes is linked in the
table its `TEMPLATE` flag selects exactly when `HASHED` is set, and then in the
bucket of its own tuple and in no other; no node of it is linked in the other
table. -/
def IndexView.indexed_at (env : Env) (v : IndexView) (c : Nat) : Prop :=
  (∀ h, (⟨c, Dir.INBOUND⟩ : Node) ∈ v.tab (v.idx c).template h
      ↔ ((v.idx c).hashed = true ∧ h = v.ihash env c))
  ∧ (∀ h, (⟨c, Dir.OUTBOUND⟩ : Node) ∈ v.tab (v.idx c).template h
      ↔ ((v.idx c).hashed = true ∧ h = v.ohash env c))
  ∧ (∀ h d, (⟨c, d⟩ : Node) ∉ v.tab (!(v.idx c).template) h)

/-- The index invariant: it holds for every record. -/
def IndexView.indexed (env : Env) (v : IndexView) : Prop :=
  ∀ c, v.indexed_at env c
/-! ## Reachable states of the index -/

/-- The table a flow is hashed into: the shared table for a template, the
per-lcore table otherwise. -/
def State.tab_of (s : State) (cid : Nat) : Nat → List Node :=
  if (s.conns cid).flags.template then s.dp_vs_ct_tab else s.dp_vs_conn_tab

/-- The table a flow is not hashed into. -/
def State.other_tab_of (s : State) (cid : Nat) : Nat → List Node :=
  if (s.conns cid).flags.template then s.dp_vs_conn_tab else s.dp_vs_ct_tab

/-- The states the index reaches: from a state with empty tables in which no
record carries `HASHED`, by `conn_hash`, `conn_unhash`, `dp_vs_conn_get`,
`dp_vs_conn_put`, `dp_vs_check_template` and firings of `conn_expire` that
return, on any record and with any arguments. -/
inductive IndexReachable (env : Env) : State → Prop
  | init (s : State) (h1 : ∀ h, s.dp_vs_conn_tab h = []) (h2 : ∀ h, s.dp_vs_ct_tab h = [])
      (h3 : ∀ c, (s.conns c).flags.hashed = false) : IndexReachable env s
  | hash (s : State) (cid : Nat) (h : IndexReachable env s) :
      IndexReachable env (conn_hash env s cid).2
  | unhash (s : State) (cid : Nat) (h : IndexReachable env s) :
      IndexReachable env (conn_unhash s cid).2
  | get (s : State) (af : Int) (proto saddr daddr sport dport : Nat) (reverse : Bool)
      (h : IndexReachable env s) :
      IndexReachable env (dp_vs_conn_get env s af proto saddr daddr sport dport reverse).2
  | put (s : State) (cid : Nat) (h : IndexReachable env s) :
      IndexReachable env (dp_vs_conn_put s cid)
  | check_template (s : State) (ct : Nat) (h : IndexReachable env s) :
      IndexReachable env (dp_vs_check_template env s ct).2
  | expire (s : State) (cid : Nat) (s' : State) (h : IndexReachable env s)
      (he : conn_expire env s cid = some s') : IndexReachable env s'

/-! ## Reachable states of the reference counts -/

/-- The records other than `c` are the same in both states. -/
def conns_off (c : Nat) (s s' : State) : Prop :=
  ∀ j, j ≠ c → s'.conns j = s.conns j
/-- The count of references held by callers after one more reference to the
flow `c` has been handed out. -/
def hold (held : Nat → Nat) (c : Nat) : Nat → Nat :=
  fun i => if i = c then held c + 1 else held i

/-- The count of references held by callers after one reference to the flow `c`
has been given back. -/
def unhold (held : Nat → Nat) (c : Nat) : Nat → Nat :=
  fun i => if i = c then held c - 1 else held i

/-- The states the tracker reaches from empty tables when callers keep to the
reference discipline, together with the number of references callers hold to
each flow. It starts with empty tables, a pool without duplicates and no
record outside the pool carrying `HASHED`. `dp_vs_conn_new` hands one
reference to its caller when it returns a flow; a call that returns `NULL` is
followed when it does not ask for SYN-proxy. A hit of `dp_vs_conn_get` hands
out one reference. `dp_vs_conn_put` and `dp_vs_conn_put_no_reset` are called
by a holder and give one reference back. The timer of a flow fires while the
flow is hashed and not in the pool. -/
inductive RefReachable (env : Env) : State → (Nat → Nat) → Prop
  | init (s : State) (h1 : ∀ h, s.dp_vs_conn_tab h = []) (h2 : ∀ h, s.dp_vs_ct_tab h = [])
      (h3 : ∀ c, c ∉ s.conn_cache → (s.conns c).flags.hashed = false)
      (h4 : s.conn_cache.Nodup) : RefReachable env s (fun _ => 0)
  | new_ok (s : State) (held : Nat → Nat) (mbuf : Mbuf) (param : DpVsConnParam) (did : Nat)
      (flags : ConnFlags) (cid : Nat) (s' : State) (h : RefReachable env s held)
      (hn : dp_vs_conn_new env s mbuf param did flags = some (some cid, s')) :
      RefReachable env s' (hold held cid)
  | new_null (s : State) (held : Nat → Nat) (mbuf : Mbuf) (param : DpVsConnParam) (did : Nat)
      (flags : ConnFlags) (s' : State) (h : RefReachable env s held)
      (hn : dp_vs_conn_new env s mbuf param did flags = some (none, s'))
      (hsyn : (flags.synproxy && !flags.template) = false) :
      RefReachable env s' held
  | get_hit (s : State) (held : Nat → Nat) (af : Int) (proto saddr daddr sport dport : Nat)
      (reverse : Bool) (cid : Nat) (dir : Dir) (h : RefReachable env s held)
      (hg : (dp_vs_conn_get env s af proto saddr daddr sport dport reverse).1
        = some (cid, dir)) :
      RefReachable env (dp_vs_conn_get env s af proto saddr daddr sport dport reverse).2
        (hold held cid)
  | get_miss (s : State) (held : Nat → Nat) (af : Int) (proto saddr daddr sport dport : Nat)
      (reverse : Bool) (h : RefReachable env s held)
      (hg : (dp_vs_conn_get env s af proto saddr daddr sport dport reverse).1 = none) :
      RefReachable env (dp_vs_conn_get env s af proto saddr daddr sport dport reverse).2 held
  | put (s : State) (held : Nat → Nat) (cid : Nat) (h : RefReachable env s held)
      (hp : 0 < held cid) : RefReachable env (dp_vs_conn_put s cid) (unhold held cid)
  | put_no_reset (s : State) (held : Nat → Nat) (cid : Nat) (h : RefReachable env s held)
      (hp : 0 < held cid) : RefReachable env (dp_vs_conn_put_no_reset s cid) (unhold held cid)
  | expire (s : State) (held : Nat → Nat) (cid : Nat) (s' : State)
      (h : RefReachable env s held) (hl : cid ∉ s.conn_cache)
      (hh : (s.conns cid).flags.hashed = true) (he : conn_expire env s cid = some s') :
      RefReachable env s' held

/-- The reference invariant on a view, for the count `held` of references in
the hands of callers: a hashed record outside the pool has one reference more
than callers hold; callers hold no reference to a record that is in the pool
or not hashed; every linked node belongs to a hashed record outside the pool;
the pool has no duplicates. -/
def IndexView.ref_inv (v : IndexView) (held : Nat → Nat) : Prop :=
  (∀ c, c ∉ v.cache → (v.idx c).hashed = true → (v.idx c).refcnt = (held c : Int) + 1)
  ∧ (∀ c, c ∈ v.cache ∨ (v.idx c).hashed = false → held c = 0)
  ∧ (∀ h n, n ∈ v.conn_tab h ∨ n ∈ v.ct_tab h →
      (v.idx n.conn).hashed = true ∧ n.conn ∉ v.cache)
  ∧ v.cache.Nodup

/-! ## Basic facts about the heap primitives -/

@[simp] theorem setConn_conns_same (s : State) (cid : Nat) (c : DpVsConn) :
    (s.setConn cid c).conns cid = c := by
  simp [State.setConn]

theorem setConn_conns_other (s : State) (cid j : Nat) (c : DpVsConn) (h : j ≠ cid) :
    (s.setConn cid c).conns j = s.conns j := by
  simp [State.setConn, h]

@[simp] theorem setDest_dests_same (s : State) (did : Nat) (d : DpVsDest) :
    (s.setDest did d).dests did = d := by
  simp [State.setDest]

theorem setDest_dests_other (s : State) (did j : Nat) (d : DpVsDest) (h : j ≠ did) :
    (s.setDest did d).dests j = s.dests j := by
  simp [State.setDest, h]

theorem find_unique_hit {α : Type} (p : α → Bool) (l : List α) (a : α)
    (hmem : a ∈ l) (hp : p a = true) (hu : ∀ b ∈ l, b ≠ a → p b = false) :
    l.find? p = some a := by
  induction l with
  | nil => cases hmem
  | cons x xs ih =>
    by_cases hx : x = a
    · subst hx
      simp [List.find?, hp]
    · have hpx : p x = false := hu x (List.mem_cons_self x xs) hx
      have hmem2 : a ∈ xs := by
        rcases List.mem_cons.mp hmem with h | h
        · exact absurd h.symm hx
        · exact h
      simp only [List.find?, hpx]
      exact ih hmem2 (fun b hb hne => hu b (List.mem_cons_of_mem x hb) hne)

theorem inet_addr_equal_self (af : Int) (a : Nat) : inet_addr_equal af a a = true := by
  unfold inet_addr_equal
  split <;> exact beq_self_eq_true _

/-- Two addresses are equal under a family exactly when the parts that count
under the family are the same. -/
theorem inet_addr_equal_iff (af : Int) (a b : Nat) :
    inet_addr_equal af a b = true ↔ inet_addr_part af a = inet_addr_part af b := by
  unfold inet_addr_equal inet_addr_part
  split <;> exact beq_iff_eq

/-- Under `AF_UNSPEC` two addresses are equal exactly when the unions are. -/
theorem inet_addr_equal_unspec (a b : Nat) :
    inet_addr_equal AF_UNSPEC a b = true ↔ a = b := by
  unfold inet_addr_equal
  rw [if_neg (by decide)]
  exact beq_iff_eq

theorem conn_get_match_self (t : ConnTupleHash) :
    conn_get_match t.af t.proto t.saddr t.daddr t.sport t.dport t = true := by
  simp [conn_get_match, inet_addr_equal_self]

theorem conn_get_match_key (af : Int) (proto saddr daddr sport dport : Nat)
    (t : ConnTupleHash)
    (h : conn_get_match af proto saddr daddr sport dport t = true) :
    t.key = (af, proto, inet_addr_part af saddr, sport, inet_addr_part af daddr, dport) := by
  simp only [conn_get_match, Bool.and_eq_true, beq_iff_eq, inet_addr_equal_iff] at h
  obtain ⟨⟨⟨⟨⟨h1, h2⟩, h3⟩, h4⟩, h5⟩, h6⟩ := h
  simp only [ConnTupleHash.key, h1, h2, h3, h4, h5, h6]

/-- A non-reversed lookup of the tuple of a linked node returns the owner of
that node and the node's direction tag, and takes one reference, as soon as
no other node of the per-lcore table carries the same six fields. -/
theorem conn_get_hits_node (env : Env) (s : State) (n : Node)
    (hmem : n ∈ s.dp_vs_conn_tab
      (conn_hashkey env s (s.tuple n).af (s.tuple n).saddr (s.tuple n).sport
        (s.tuple n).daddr (s.tuple n).dport))
    (hu : ∀ h m, m ∈ s.dp_vs_conn_tab h → m ≠ n → (s.tuple m).key ≠ (s.tuple n).key) :
    dp_vs_conn_get env s (s.tuple n).af (s.tuple n).proto (s.tuple n).saddr
        (s.tuple n).daddr (s.tuple n).sport (s.tuple n).dport false
      = (some (n.conn, (s.tuple n).direct), conn_refcnt_inc s n.conn) := by
  have hfind := find_unique_hit
    (fun m => conn_get_match (s.tuple n).af (s.tuple n).proto (s.tuple n).saddr
      (s.tuple n).daddr (s.tuple n).sport (s.tuple n).dport (s.tuple m))
    _ n hmem (conn_get_match_self _)
    (fun m hm hne => by
      by_contra hc
      have hk := conn_get_match_key _ _ _ _ _ _ _ (Bool.eq_true_of_not_eq_false hc)
      exact hu _ m hm hne hk)
  simp only [dp_vs_conn_get, Bool.false_eq_true, if_false, hfind, tuplehash_to_conn]

@[simp] theorem conn_refcnt_inc_refcnt (s : State) (cid : Nat) :
    ((conn_refcnt_inc s cid).conns cid).refcnt = (s.conns cid).refcnt + 1 := by
  simp [conn_refcnt_inc]

/-! ## Facts about buckets and lookups -/

theorem mem_list_add (tab : Nat → List Node) (h : Nat) (n : Node) (i : Nat) (m : Node) :
    m ∈ list_add tab h n i ↔ (i = h ∧ m = n) ∨ m ∈ tab i := by
  unfold list_add
  split_ifs with hi <;> simp [hi]

theorem list_add_twice_apply (tab : Nat → List Node) (ih oh : Nat) (nin nout : Node)
    (h : Nat) :
    list_add (list_add tab ih nin) oh nout h
      = (if h = oh then [nout] else []) ++ (if h = ih then [nin] else []) ++ tab h := by
  unfold list_add
  split_ifs <;> simp

theorem list_del_twice_apply (tab : Nat → List Node) (cid : Nat) (h : Nat) :
    list_del (list_del tab ⟨cid, Dir.INBOUND⟩) ⟨cid, Dir.OUTBOUND⟩ h
      = (tab h).filter (fun n => decide (n.conn ≠ cid)) := by
  unfold list_del
  rw [List.filter_filter]
  apply List.filter_congr
  intro m _
  rcases m with ⟨c, d⟩
  by_cases hc : c = cid <;> cases d <;> simp [hc]

theorem state2_nodes (h : Nat) (m : Node) (hm : m ∈ state2.dp_vs_conn_tab h) :
    m = ⟨0, Dir.OUTBOUND⟩ ∨ m = ⟨0, Dir.INBOUND⟩ := by
  have htab : state2.dp_vs_conn_tab
      = list_add (list_add (fun _ => []) (conn_ihash env0 state1 0) ⟨0, Dir.INBOUND⟩)
          (conn_ohash env0 state1 0) ⟨0, Dir.OUTBOUND⟩ := rfl
  rw [htab] at hm
  simp only [mem_list_add, List.not_mem_nil, or_false] at hm
  rcases hm with h1 | h1
  · exact Or.inl h1.2
  · exact Or.inr h1.2

theorem dp_vs_conn_get_hit_state (env : Env) (s : State) (af : Int)
    (proto saddr daddr sport dport : Nat) (reverse : Bool) (hit : Nat × Dir)
    (h : (dp_vs_conn_get env s af proto saddr daddr sport dport reverse).1 = some hit) :
    (dp_vs_conn_get env s af proto saddr daddr sport dport reverse).2
      = conn_refcnt_inc s hit.1 := by
  unfold dp_vs_conn_get at h ⊢
  cases reverse
  · simp only [Bool.false_eq_true, if_false] at h ⊢
    split at h
    · next n hn =>
      simp only [Option.some.injEq] at h
      simp only [hn, ← h]
    · cases h
  · simp only [if_true] at h ⊢
    split at h
    · next n hn =>
      simp only [Option.some.injEq] at h
      simp only [hn, ← h]
    · cases h

theorem run_ref_ops_effect (env : Env) (cid : Nat) (ops : List RefOp) :
    ∀ (s s' : State), run_ref_ops env cid s ops = some s' →
      s'.conns cid
          = { s.conns cid with
              refcnt := (s.conns cid).refcnt + (ops.countP RefOp.isGet : Nat)
                - (ops.countP (fun o => !o.isGet) : Nat) }
        ∧ s'.dp_vs_conn_tab = s.dp_vs_conn_tab ∧ s'.dp_vs_ct_tab = s.dp_vs_ct_tab := by
  induction ops with
  | nil =>
    intro s s' h
    simp only [run_ref_ops, Option.some.injEq] at h
    subst h
    simp
  | cons op ops ih =>
    intro s s' h
    cases op with
    | get af proto saddr daddr sport dport reverse =>
      simp only [run_ref_ops] at h
      split at h
      · next hit hhit =>
        split_ifs at h with hc
        have hst := dp_vs_conn_get_hit_state env s af proto saddr daddr sport dport reverse
          hit hhit
        rw [hst, hc] at h
        obtain ⟨h1, h2, h3⟩ := ih _ _ h
        refine ⟨?_, ?_, ?_⟩
        · rw [h1]
          simp only [conn_refcnt_inc, State.setConn, if_true, List.countP_cons, RefOp.isGet,
            Bool.not_true, Bool.false_eq_true, if_false]
          congr 1
          push_cast
          ring
        · rw [h2]; rfl
        · rw [h3]; rfl
      · cases h
    | put =>
      simp only [run_ref_ops] at h
      obtain ⟨h1, h2, h3⟩ := ih _ _ h
      refine ⟨?_, ?_, ?_⟩
      · rw [h1]
        simp only [dp_vs_conn_put, conn_refcnt_dec, State.setConn, State.emit,
          List.countP_cons, RefOp.isGet, Bool.not_false, Bool.false_eq_true, if_false, if_true]
        split_ifs <;> (simp only [if_true]; congr 1; push_cast; ring)
      · rw [h2]; simp only [dp_vs_conn_put, conn_refcnt_dec, State.setConn, State.emit]
        split_ifs <;> rfl
      · rw [h3]; simp only [dp_vs_conn_put, conn_refcnt_dec, State.setConn, State.emit]
        split_ifs <;> rfl
    | put_no_reset =>
      simp only [run_ref_ops] at h
      obtain ⟨h1, h2, h3⟩ := ih _ _ h
      refine ⟨?_, ?_, ?_⟩
      · rw [h1]
        simp only [dp_vs_conn_put_no_reset, conn_refcnt_dec, State.setConn,
          List.countP_cons, RefOp.isGet, Bool.not_false, Bool.false_eq_true, if_false, if_true]
        congr 1
        push_cast
        ring
      · rw [h2]; rfl
      · rw [h3]; rfl

/-! ## Frame facts -/

theorem setConn_frame (s : State) (cid : Nat) (c : DpVsConn) :
    (s.setConn cid c).dests = s.dests
    ∧ (s.setConn cid c).dp_vs_conn_tab = s.dp_vs_conn_tab
    ∧ (s.setConn cid c).dp_vs_ct_tab = s.dp_vs_ct_tab
    ∧ (s.setConn cid c).dp_vs_conn_count = s.dp_vs_conn_count
    ∧ (s.setConn cid c).dp_vs_conn_rnd = s.dp_vs_conn_rnd
    ∧ (s.setConn cid c).conn_cache = s.conn_cache
    ∧ (s.setConn cid c).ack_mbufpool = s.ack_mbufpool
    ∧ (s.setConn cid c).conn_init_timeout = s.conn_init_timeout
    ∧ (s.setConn cid c).conn_expire_quiescent_template = s.conn_expire_quiescent_template
    ∧ (s.setConn cid c).log = s.log :=
  ⟨rfl, rfl, rfl, rfl, rfl, rfl, rfl, rfl, rfl, rfl⟩

theorem setDest_frame (s : State) (did : Nat) (d : DpVsDest) :
    (s.setDest did d).conns = s.conns
    ∧ (s.setDest did d).dp_vs_conn_tab = s.dp_vs_conn_tab
    ∧ (s.setDest did d).dp_vs_ct_tab = s.dp_vs_ct_tab
    ∧ (s.setDest did d).dp_vs_conn_count = s.dp_vs_conn_count
    ∧ (s.setDest did d).dp_vs_conn_rnd = s.dp_vs_conn_rnd
    ∧ (s.setDest did d).conn_cache = s.conn_cache
    ∧ (s.setDest did d).ack_mbufpool = s.ack_mbufpool
    ∧ (s.setDest did d).conn_init_timeout = s.conn_init_timeout
    ∧ (s.setDest did d).conn_expire_quiescent_template = s.conn_expire_quiescent_template
    ∧ (s.setDest did d).log = s.log :=
  ⟨rfl, rfl, rfl, rfl, rfl, rfl, rfl, rfl, rfl, rfl⟩

theorem emit_frame (s : State) (e : Event) :
    (s.emit e).conns = s.conns
    ∧ (s.emit e).dests = s.dests
    ∧ (s.emit e).dp_vs_conn_tab = s.dp_vs_conn_tab
    ∧ (s.emit e).dp_vs_ct_tab = s.dp_vs_ct_tab
    ∧ (s.emit e).dp_vs_conn_count = s.dp_vs_conn_count
    ∧ (s.emit e).dp_vs_conn_rnd = s.dp_vs_conn_rnd
    ∧ (s.emit e).conn_cache = s.conn_cache
    ∧ (s.emit e).ack_mbufpool = s.ack_mbufpool
    ∧ (s.emit e).conn_init_timeout = s.conn_init_timeout
    ∧ (s.emit e).conn_expire_quiescent_template = s.conn_expire_quiescent_template :=
  ⟨rfl, rfl, rfl, rfl, rfl, rfl, rfl, rfl, rfl, rfl⟩

/-! ## Facts about the binder -/

theorem conn_bind_dest_of_overload (s : State) (cid did : Nat)
    (hov : (s.dests did).max_conn ≠ 0
      ∧ (s.dests did).inactconns + (s.dests did).actconns ≥ ((s.dests did).max_conn : Int)) :
    conn_bind_dest s cid did
      = (Err.OVERLOAD,
          (s.setConn cid
            { s.conns cid with flags := (s.conns cid).flags.lor (s.dests did).conn_flags }).setDest
            did { s.dests did with flags := { (s.dests did).flags with overload := true } }) := by
  unfold conn_bind_dest
  exact if_pos hov

theorem conn_bind_dest_fst (s : State) (cid did : Nat) :
    (conn_bind_dest s cid did).1
      = if (s.dests did).max_conn ≠ 0
            ∧ (s.dests did).inactconns + (s.dests did).actconns ≥ ((s.dests did).max_conn : Int)
        then Err.OVERLOAD
        else match (s.dests did).fwdmode with
          | FwdMode.OTHER _ => Err.NOTSUPP
          | _ => Err.OK := by
  by_cases hov : (s.dests did).max_conn ≠ 0
      ∧ (s.dests did).inactconns + (s.dests did).actconns ≥ ((s.dests did).max_conn : Int)
  · unfold conn_bind_dest
    simp only [setConn_frame]
    rw [if_pos hov, if_pos hov]
  · by_cases ht : ((s.conns cid).flags.lor (s.dests did).conn_flags).template = true <;>
      cases hm : (s.dests did).fwdmode <;>
      · unfold conn_bind_dest
        simp only [setConn_frame]
        rw [if_neg hov]
        simp only [setConn_frame, setDest_frame, setConn_conns_same, setDest_dests_same,
          ht, hm, if_true, if_false, Bool.false_eq_true]
        try rw [if_neg hov]

theorem conn_bind_dest_ok (s : State) (cid did : Nat)
    (h : (conn_bind_dest s cid did).1 = Err.OK) :
    ((conn_bind_dest s cid did).2.dests did).counters
        = ((s.dests did).refcnt + 1, (s.dests did).actconns,
            (s.dests did).inactconns
              + (if ((s.conns cid).flags.lor (s.dests did).conn_flags).template then 0 else 1),
            (s.dests did).persistconns
              + (if ((s.conns cid).flags.lor (s.dests did).conn_flags).template then 1 else 0))
    ∧ ((conn_bind_dest s cid did).2.conns cid).flags
        = (s.conns cid).flags.lor (s.dests did).conn_flags
    ∧ ((conn_bind_dest s cid did).2.conns cid).dest = some did
    ∧ ((conn_bind_dest s cid did).2.dests did).fwdmode = (s.dests did).fwdmode
    ∧ (conn_bind_dest s cid did).2.conn_cache = s.conn_cache
    ∧ (conn_bind_dest s cid did).2.dp_vs_conn_tab = s.dp_vs_conn_tab
    ∧ (conn_bind_dest s cid did).2.dp_vs_ct_tab = s.dp_vs_ct_tab
    ∧ (conn_bind_dest s cid did).2.dp_vs_conn_count = s.dp_vs_conn_count := by
  rw [conn_bind_dest_fst] at h
  by_cases hov : (s.dests did).max_conn ≠ 0
      ∧ (s.dests did).inactconns + (s.dests did).actconns ≥ ((s.dests did).max_conn : Int)
  · rw [if_pos hov] at h
    cases h
  · rw [if_neg hov] at h
    by_cases ht : ((s.conns cid).flags.lor (s.dests did).conn_flags).template = true <;>
      cases hm : (s.dests did).fwdmode <;>
      first
      | (rw [hm] at h; cases h; done)
      | (unfold conn_bind_dest
         simp only [setConn_frame]
         rw [if_neg hov]
         simp only [setConn_frame, setDest_frame, setConn_conns_same, setDest_dests_same,
          ht, hm, if_true, if_false, DpVsDest.counters, Bool.false_eq_true, add_zero, and_self])

/-! ## Facts about expiration -/

theorem conn_refcnt_dec_frame (s : State) (cid : Nat) :
    (conn_refcnt_dec s cid).dests = s.dests
    ∧ (conn_refcnt_dec s cid).dp_vs_conn_tab = s.dp_vs_conn_tab
    ∧ (conn_refcnt_dec s cid).dp_vs_ct_tab = s.dp_vs_ct_tab
    ∧ (conn_refcnt_dec s cid).dp_vs_conn_count = s.dp_vs_conn_count
    ∧ (conn_refcnt_dec s cid).conn_cache = s.conn_cache
    ∧ ((conn_refcnt_dec s cid).conns cid).flags = (s.conns cid).flags
    ∧ ((conn_refcnt_dec s cid).conns cid).dest = (s.conns cid).dest :=
  ⟨rfl, rfl, rfl, rfl, rfl, by simp only [conn_refcnt_dec, setConn_conns_same],
    by simp only [conn_refcnt_dec, setConn_conns_same]⟩

theorem conn_hash_conn_cache (env : Env) (s : State) (cid : Nat) :
    (conn_hash env s cid).2.conn_cache = s.conn_cache := by
  unfold conn_hash __conn_hash
  dsimp only
  split_ifs <;> rfl

theorem conn_unhash_conn_cache (s : State) (cid : Nat) :
    (conn_unhash s cid).2.conn_cache = s.conn_cache := by
  unfold conn_unhash
  dsimp only
  split_ifs <;> rfl

theorem conn_unhash_refcnt (s : State) (cid : Nat) :
    ((conn_unhash s cid).2.conns cid).refcnt
      = if (s.conns cid).flags.hashed = true ∧ (s.conns cid).refcnt = 2 then 1
        else (s.conns cid).refcnt := by
  unfold conn_unhash
  dsimp only
  cases hh : (s.conns cid).flags.hashed
  · simp only [Bool.false_eq_true, if_false, false_and]
  · by_cases hr : (s.conns cid).refcnt = 2
    · simp only [hr, ne_eq, not_true_eq_false, if_false, if_true, and_self, conn_refcnt_dec,
        setConn_conns_same]
      norm_num
    · simp only [hr, ne_eq, not_false_eq_true, if_true, and_false, if_false]

theorem conn_unbind_dest_counters (t : State) (cid did : Nat)
    (hd : (t.conns cid).dest = some did) :
    ∃ u : State, conn_unbind_dest t cid = some (Err.OK, u)
      ∧ (u.dests did).counters
          = ((t.dests did).refcnt - 1,
              (t.dests did).actconns
                - (if (t.conns cid).flags.template = false ∧ (t.conns cid).flags.inactive = false
                    then 1 else 0),
              (t.dests did).inactconns
                - (if (t.conns cid).flags.template = false ∧ (t.conns cid).flags.inactive = true
                    then 1 else 0),
              (t.dests did).persistconns - (if (t.conns cid).flags.template = true then 1 else 0))
      ∧ u.conn_cache = t.conn_cache := by
  unfold conn_unbind_dest
  simp only [hd]
  refine ⟨_, rfl, ?_, ?_⟩
  · cases ht : (t.conns cid).flags.template <;> cases hi : (t.conns cid).flags.inactive <;>
      simp only [Bool.false_eq_true, if_false, if_true, setDest_dests_same, setDest_frame,
        setConn_frame, and_self, and_false, false_and, true_and, and_true, reduceCtorEq] <;>
      split_ifs <;>
      simp only [setDest_dests_same, DpVsDest.counters, sub_zero]
  · simp only [setConn_frame, setDest_frame]
    split_ifs <;> simp only [setDest_frame]

theorem conn_hash_frame (env : Env) (s : State) (cid : Nat) :
    (conn_hash env s cid).2.dests = s.dests
    ∧ ((conn_hash env s cid).2.conns cid).flags.template = (s.conns cid).flags.template
    ∧ ((conn_hash env s cid).2.conns cid).flags.inactive = (s.conns cid).flags.inactive
    ∧ ((conn_hash env s cid).2.conns cid).dest = (s.conns cid).dest := by
  unfold conn_hash __conn_hash
  cases hh : (s.conns cid).flags.hashed
  · cases ht : (s.conns cid).flags.template <;>
      simp only [hh, ht, Bool.false_eq_true, if_false, if_true, conn_refcnt_inc,
        setConn_conns_same, setConn_frame, and_self]
  · simp only [hh, if_true, and_self]

theorem conn_new_unbind_dest_counters (t : State) (new did : Nat) (s' : State)
    (hd : (t.conns new).dest = some did)
    (hret : conn_new_unbind_dest t new = some (none, s')) :
    (s'.dests did).counters
      = ((t.dests did).refcnt - 1,
          (t.dests did).actconns
            - (if (t.conns new).flags.template = false ∧ (t.conns new).flags.inactive = false
                then 1 else 0),
          (t.dests did).inactconns
            - (if (t.conns new).flags.template = false ∧ (t.conns new).flags.inactive = true
                then 1 else 0),
          (t.dests did).persistconns - (if (t.conns new).flags.template = true then 1 else 0)) := by
  obtain ⟨u, hu, hc, _⟩ := conn_unbind_dest_counters t new did hd
  unfold conn_new_unbind_dest at hret
  rw [hu] at hret
  simp only [conn_new_errout, Option.some.injEq, Prod.mk.injEq, true_and] at hret
  rw [← hret]
  exact hc

theorem bound_to_unbind (t : State) (new did : Nat) (f : ConnFlags)
    (c : Int × Int × Int × Int) (s' : State) (hb : bound_to t new did f c)
    (hf : f.template = true ∨ f.inactive = true)
    (hret : conn_new_unbind_dest t new = some (none, s')) :
    (s'.dests did).counters = c := by
  obtain ⟨hd, ht, hi, hc⟩ := hb
  have h := conn_new_unbind_dest_counters t new did s' hd hret
  rw [h, ht, hi]
  simp only [DpVsDest.counters, Prod.mk.injEq] at hc
  obtain ⟨h1, h2, h3, h4⟩ := hc
  rw [h1, h2, h3, h4]
  rcases c with ⟨c1, c2, c3, c4⟩
  cases hft : f.template <;> cases hfi : f.inactive <;>
    simp [hft, hfi] at hf ⊢

theorem bound_to_emit (t : State) (new did : Nat) (f : ConnFlags)
    (c : Int × Int × Int × Int) (e : Event) (hb : bound_to t new did f c) :
    bound_to (t.emit e) new did f c := hb

theorem bound_to_setConn (t : State) (new did : Nat) (f : ConnFlags)
    (c : Int × Int × Int × Int) (conn : DpVsConn) (hb : bound_to t new did f c)
    (hd : conn.dest = (t.conns new).dest)
    (ht : conn.flags.template = (t.conns new).flags.template)
    (hi : conn.flags.inactive = (t.conns new).flags.inactive) :
    bound_to (t.setConn new conn) new did f c := by
  obtain ⟨h1, h2, h3, h4⟩ := hb
  refine ⟨?_, ?_, ?_, h4⟩
  · rw [setConn_conns_same, hd, h1]
  · rw [setConn_conns_same, ht, h2]
  · rw [setConn_conns_same, hi, h3]

theorem conn_new_finish_not_null (env : Env) (s : State) (new : Nat) (s' : State) :
    conn_new_finish env s new ≠ some (none, s') := by
  unfold conn_new_finish
  dsimp only
  split_ifs <;> simp

theorem conn_new_after_hash_null (env : Env) (t : State) (mbuf : Mbuf)
    (param : DpVsConnParam) (flags : ConnFlags) (new did : Nat) (f : ConnFlags)
    (c : Int × Int × Int × Int) (s' : State) (hb : bound_to t new did f c)
    (hret : conn_new_after_hash env t mbuf param flags new = some (none, s')) :
    ∃ t', bound_to t' new did f c ∧ conn_new_unbind_dest t' new = some (none, s') := by
  have hb1 : bound_to (t.setConn new
      { t.conns new with
        timeout := ⟨t.conn_init_timeout, 0⟩,
        ack_mbuf := [],
        syn_retry_max := 0,
        dup_ack_cnt := 0 }) new did f c :=
    bound_to_setConn t new did f c _ hb rfl rfl rfl
  unfold conn_new_after_hash at hret
  dsimp only at hret
  split_ifs at hret with h1 h2 h3
  · exact ⟨_, bound_to_emit _ new did f c _ hb1, hret⟩
  · exact ⟨_, bound_to_emit _ new did f c _ hb1, hret⟩
  · split at hret
    · cases hret
    · exact absurd hret (conn_new_finish_not_null _ _ _ _)
  · exact absurd hret (conn_new_finish_not_null _ _ _ _)

theorem conn_new_laddr_bound (env : Env) (t : State) (did new : Nat) (f : ConnFlags)
    (c : Int × Int × Int × Int) (s3 : State) (hb : bound_to t new did f c)
    (h : conn_new_laddr env t did new = some s3) :
    bound_to s3 new did f c := by
  unfold conn_new_laddr at h
  split_ifs at h
  · unfold dp_vs_laddr_bind at h
    split at h
    · cases h
    · simp only [Option.some.injEq] at h
      rw [← h]
      exact bound_to_setConn t new did f c _ hb rfl rfl rfl
  · simp only [Option.some.injEq] at h
    rw [← h]
    exact hb

theorem conn_hash_bound (env : Env) (t : State) (new did : Nat) (f : ConnFlags)
    (c : Int × Int × Int × Int) (hb : bound_to t new did f c) :
    bound_to (conn_hash env t new).2 new did f c := by
  obtain ⟨h1, h2, h3, h4⟩ := hb
  obtain ⟨g1, g2, g3, g4⟩ := conn_hash_frame env t new
  exact ⟨by rw [g4, h1], by rw [g2, h2], by rw [g3, h3], by rw [g1, h4]⟩

theorem conn_new_bound_null_counters (env : Env) (t : State) (mbuf : Mbuf)
    (param : DpVsConnParam) (did : Nat) (flags : ConnFlags) (new : Nat) (s' : State)
    (hcond : ((t.dests did).max_conn ≠ 0
        ∧ (t.dests did).inactconns + (t.dests did).actconns ≥ ((t.dests did).max_conn : Int))
      ∨ (((t.dests did).fwdmode = FwdMode.DR ∨ (t.dests did).fwdmode = FwdMode.FNAT
            ∨ (t.dests did).fwdmode = FwdMode.SNAT)
          ∧ (((t.conns new).flags.lor (t.dests did).conn_flags).template = true
            ∨ ((t.conns new).flags.lor (t.dests did).conn_flags).inactive = true)))
    (hret : conn_new_bound env t mbuf param did flags new = some (none, s')) :
    (s'.dests did).counters = (t.dests did).counters := by
  have hfst := conn_bind_dest_fst t new did
  unfold conn_new_bound at hret
  dsimp only at hret
  by_cases hov : (t.dests did).max_conn ≠ 0
      ∧ (t.dests did).inactconns + (t.dests did).actconns ≥ ((t.dests did).max_conn : Int)
  · rw [if_pos hov] at hfst
    rw [if_pos (by rw [hfst]; decide)] at hret
    simp only [conn_new_errout, Option.some.injEq, Prod.mk.injEq, true_and] at hret
    rw [← hret, conn_bind_dest_of_overload t new did hov]
    simp only [setDest_dests_same, DpVsDest.counters]
  · rw [if_neg hov] at hfst
    rcases hcond with hc | ⟨hmode, hflag⟩
    · exact absurd hc hov
    · have hok : (conn_bind_dest t new did).1 = Err.OK := by
        rw [hfst]
        rcases hmode with hm | hm | hm <;> rw [hm]
      rw [if_neg (by rw [hok]; decide)] at hret
      obtain ⟨k1, k2, k3, _⟩ := conn_bind_dest_ok t new did hok
      have hb : bound_to (conn_bind_dest t new did).2 new did
          ((t.conns new).flags.lor (t.dests did).conn_flags) (t.dests did).counters :=
        ⟨k3, by rw [k2], by rw [k2], by rw [k1]; rfl⟩
      split at hret
      · exact bound_to_unbind _ new did _ _ s' hb hflag hret
      · next s3 hl =>
        have hb3 := conn_new_laddr_bound env _ did new _ _ s3 hb hl
        have hb4 := conn_hash_bound env s3 new did _ _ hb3
        split_ifs at hret
        · exact bound_to_unbind _ new did _ _ s' (bound_to_emit _ new did _ _ _ hb4) hflag hret
        · obtain ⟨t', hb5, h5⟩ := conn_new_after_hash_null env _ mbuf param flags new did _ _ s'
            hb4 hret
          exact bound_to_unbind _ new did _ _ s' hb5 hflag h5

theorem conn_bind_dest_index (s : State) (cid did : Nat) :
    (conn_bind_dest s cid did).2.dp_vs_conn_tab = s.dp_vs_conn_tab
    ∧ (conn_bind_dest s cid did).2.dp_vs_ct_tab = s.dp_vs_ct_tab
    ∧ (conn_bind_dest s cid did).2.dp_vs_conn_count = s.dp_vs_conn_count := by
  by_cases hov : (s.dests did).max_conn ≠ 0
      ∧ (s.dests did).inactconns + (s.dests did).actconns ≥ ((s.dests did).max_conn : Int)
  · rw [conn_bind_dest_of_overload s cid did hov]
    exact ⟨rfl, rfl, rfl⟩
  · cases ht : ((s.conns cid).flags.lor (s.dests did).conn_flags).template <;>
      cases hm : (s.dests did).fwdmode <;>
      · unfold conn_bind_dest
        simp only [setConn_frame]
        rw [if_neg hov]
        simp only [setConn_frame, setDest_frame, setConn_conns_same, setDest_dests_same,
          ht, hm, if_true, if_false, Bool.false_eq_true, and_self]

theorem conn_new_unbind_dest_index (t : State) (new : Nat) (s' : State)
    (hret : conn_new_unbind_dest t new = some (none, s')) :
    s'.dp_vs_conn_tab = t.dp_vs_conn_tab
    ∧ s'.dp_vs_ct_tab = t.dp_vs_ct_tab
    ∧ s'.dp_vs_conn_count = t.dp_vs_conn_count := by
  unfold conn_new_unbind_dest at hret
  split at hret
  · cases hret
  · next r hr =>
    simp only [conn_new_errout, Option.some.injEq, Prod.mk.injEq, true_and] at hret
    rw [← hret]
    unfold conn_unbind_dest at hr
    split at hr
    · cases hr
    · simp only [Option.some.injEq] at hr
      rw [← hr]
      simp only [setConn_frame, setDest_frame]
      split_ifs <;> simp only [setDest_frame, and_self]

theorem conn_new_laddr_index (env : Env) (t : State) (did new : Nat) (s3 : State)
    (h : conn_new_laddr env t did new = some s3) :
    s3.dp_vs_conn_tab = t.dp_vs_conn_tab
    ∧ s3.dp_vs_ct_tab = t.dp_vs_ct_tab
    ∧ s3.dp_vs_conn_count = t.dp_vs_conn_count := by
  unfold conn_new_laddr at h
  split_ifs at h
  · unfold dp_vs_laddr_bind at h
    split at h
    · cases h
    · simp only [Option.some.injEq] at h
      rw [← h]
      exact ⟨rfl, rfl, rfl⟩
  · simp only [Option.some.injEq] at h
    rw [← h]
    exact ⟨rfl, rfl, rfl⟩

theorem conn_hash_of_not_ok (env : Env) (s : State) (cid : Nat)
    (h : (conn_hash env s cid).1 ≠ Err.OK) : (conn_hash env s cid).2 = s := by
  unfold conn_hash __conn_hash at h ⊢
  cases hh : (s.conns cid).flags.hashed
  · simp only [hh, Bool.false_eq_true, if_false, ne_eq, not_true_eq_false] at h
  · simp only [hh, if_true]

/-- Every `NULL` return of `dp_vs_conn_new` outside the SYN-proxy block leaves
both tables and the flow count as they were. -/
theorem dp_vs_conn_new_failure_index (env : Env) (s : State) (mbuf : Mbuf)
    (param : DpVsConnParam) (did : Nat) (flags : ConnFlags) (s' : State)
    (hret : dp_vs_conn_new env s mbuf param did flags = some (none, s'))
    (hsyn : (flags.synproxy && !flags.template) = false) :
    s'.dp_vs_conn_tab = s.dp_vs_conn_tab
    ∧ s'.dp_vs_ct_tab = s.dp_vs_ct_tab
    ∧ s'.dp_vs_conn_count = s.dp_vs_conn_count := by
  unfold dp_vs_conn_new at hret
  split at hret
  · simp only [Option.some.injEq, Prod.mk.injEq, true_and] at hret
    rw [← hret]
    exact ⟨rfl, rfl, rfl⟩
  · next new rest hcache =>
    dsimp only at hret
    split at hret
    · simp only [Option.some.injEq, Prod.mk.injEq, true_and] at hret
      rw [← hret]
      exact ⟨rfl, rfl, rfl⟩
    · next rport hrp =>
      unfold conn_new_bound at hret
      dsimp only at hret
      obtain ⟨b1, b2, b3⟩ := conn_bind_dest_index
        ((({ s with conn_cache := rest } : State).setConn new DpVsConn.zero).setConn new
          (conn_new_fill (({ s with conn_cache := rest } : State).setConn new DpVsConn.zero)
            mbuf param did flags rport)) new did
      split_ifs at hret
      · simp only [conn_new_errout, Option.some.injEq, Prod.mk.injEq, true_and] at hret
        rw [← hret]
        exact ⟨b1, b2, b3⟩
      · split at hret
        · obtain ⟨u1, u2, u3⟩ := conn_new_unbind_dest_index _ new s' hret
          exact ⟨u1.trans b1, u2.trans b2, u3.trans b3⟩
        · next s3 hl =>
          obtain ⟨l1, l2, l3⟩ := conn_new_laddr_index env _ did new s3 hl
          split_ifs at hret with hh
          · rw [conn_hash_of_not_ok env s3 new hh] at hret
            obtain ⟨u1, u2, u3⟩ := conn_new_unbind_dest_index _ new s' hret
            exact ⟨u1.trans (l1.trans b1), u2.trans (l2.trans b2), u3.trans (l3.trans b3)⟩
          · unfold conn_new_after_hash at hret
            dsimp only at hret
            rw [hsyn] at hret
            simp only [Bool.false_eq_true, if_false] at hret
            exact absurd hret (conn_new_finish_not_null _ _ _ _)

/-- When `dp_vs_conn_new` returns `NULL` for a destination that is overloaded,
or whose forwarding mode is one of Direct-Routing, Full-NAT and Source-NAT
while the flow carries `TEMPLATE` or `INACTIVE` (from the supplied flags or
passed down from the destination), the destination's `refcnt`, `actconns`,
`inactconns` and `persistconns` are what they were before the call. This
covers the failures of allocation, of the port read, of `conn_bind_dest` with
`OVERLOAD`, of the local-address bind, of `conn_hash` and of the SYN-proxy
setup; it leaves out `conn_bind_dest` failing with `NOTSUPP`. -/
theorem dp_vs_conn_new_failure_restores (env : Env) (s : State) (mbuf : Mbuf)
    (param : DpVsConnParam) (did : Nat) (flags : ConnFlags) (s' : State)
    (hret : dp_vs_conn_new env s mbuf param did flags = some (none, s'))
    (hcond : ((s.dests did).max_conn ≠ 0
        ∧ (s.dests did).inactconns + (s.dests did).actconns ≥ ((s.dests did).max_conn : Int))
      ∨ (((s.dests did).fwdmode = FwdMode.DR ∨ (s.dests did).fwdmode = FwdMode.FNAT
            ∨ (s.dests did).fwdmode = FwdMode.SNAT)
          ∧ ((flags.lor (s.dests did).conn_flags).template = true
            ∨ (flags.lor (s.dests did).conn_flags).inactive = true))) :
    ((s'.dests did).refcnt = (s.dests did).refcnt
      ∧ (s'.dests did).actconns = (s.dests did).actconns
      ∧ (s'.dests did).inactconns = (s.dests did).inactconns
      ∧ (s'.dests did).persistconns = (s.dests did).persistconns) := by
  have key : (s'.dests did).counters = (s.dests did).counters := by
    unfold dp_vs_conn_new at hret
    split at hret
    · simp only [Option.some.injEq, Prod.mk.injEq, true_and] at hret
      rw [← hret]
    · next new rest hcache =>
      dsimp only at hret
      split at hret
      · simp only [Option.some.injEq, Prod.mk.injEq, true_and] at hret
        rw [← hret]
        rfl
      · next rport hrp =>
        have h := fun hc =>
          conn_new_bound_null_counters env _ mbuf param did flags new s' hc hret
        simp only [setConn_conns_same, setConn_frame, conn_new_fill] at h
        exact h hcond
  simp only [DpVsDest.counters, Prod.mk.injEq] at key
  exact key


/-! ## Facts about the success paths of the binder -/

theorem conn_bind_dest_xmit (s : State) (cid did : Nat)
    (h : (conn_bind_dest s cid did).1 = Err.OK) :
    ((s.dests did).fwdmode = FwdMode.DR →
        ((conn_bind_dest s cid did).2.conns cid).packet_xmit = some Xmit.dp_vs_xmit_dr
        ∧ ((conn_bind_dest s cid did).2.conns cid).packet_out_xmit
            = (s.conns cid).packet_out_xmit)
    ∧ ((s.dests did).fwdmode = FwdMode.FNAT →
        ((conn_bind_dest s cid did).2.conns cid).packet_xmit = some Xmit.dp_vs_xmit_fnat
        ∧ ((conn_bind_dest s cid did).2.conns cid).packet_out_xmit
            = some Xmit.dp_vs_out_xmit_fnat)
    ∧ ((s.dests did).fwdmode = FwdMode.SNAT →
        ((conn_bind_dest s cid did).2.conns cid).packet_xmit = some Xmit.dp_vs_xmit_snat
        ∧ ((conn_bind_dest s cid did).2.conns cid).packet_out_xmit
            = some Xmit.dp_vs_out_xmit_snat) := by
  rw [conn_bind_dest_fst] at h
  by_cases hov : (s.dests did).max_conn ≠ 0
      ∧ (s.dests did).inactconns + (s.dests did).actconns ≥ ((s.dests did).max_conn : Int)
  · rw [if_pos hov] at h
    cases h
  · rw [if_neg hov] at h
    cases ht : ((s.conns cid).flags.lor (s.dests did).conn_flags).template <;>
      cases hm : (s.dests did).fwdmode <;>
      first
      | (rw [hm] at h; cases h; done)
      | (unfold conn_bind_dest
         simp only [setConn_frame]
         rw [if_neg hov]
         simp only [setConn_frame, setDest_frame, setConn_conns_same, setDest_dests_same,
          ht, hm, if_true, if_false, Bool.false_eq_true, and_self, reduceCtorEq,
          false_implies, true_implies, implies_true])

theorem conn_unbind_dest_dest (t : State) (cid : Nat) (r : Err × State)
    (h : conn_unbind_dest t cid = some r) :
    r.1 = Err.OK ∧ (r.2.conns cid).dest = none := by
  unfold conn_unbind_dest at h
  split at h
  · cases h
  · simp only [Option.some.injEq] at h
    rw [← h]
    exact ⟨rfl, by simp only [setConn_conns_same]⟩

/-! ## Facts about the template lookup and the template check -/

theorem check_template_unavailable_false (s : State) (ct : Nat) :
    check_template_unavailable s ct = false
      ↔ ∃ did, (s.conns ct).dest = some did ∧ (s.dests did).flags.available = true
          ∧ ¬ (s.conn_expire_quiescent_template = true ∧ (s.dests did).weight = 0) := by
  unfold check_template_unavailable
  cases hd : (s.conns ct).dest with
  | none => simp
  | some did =>
    cases ha : (s.dests did).flags.available <;>
      cases hq : s.conn_expire_quiescent_template <;>
      simp [ha, hq]

theorem dp_vs_ct_in_get_hit (env : Env) (s : State) (af : Int)
    (proto saddr daddr sport dport : Nat) (c : Nat)
    (h : (dp_vs_ct_in_get env s af proto saddr daddr sport dport).1 = some c) :
    ∃ n : Node, n ∈ s.dp_vs_ct_tab (conn_hashkey env s af saddr sport daddr dport)
      ∧ n.conn = c
      ∧ ct_in_get_match af proto saddr daddr sport dport (s.conns n.conn) (s.tuple n) = true
      ∧ (dp_vs_ct_in_get env s af proto saddr daddr sport dport).2 = conn_refcnt_inc s c := by
  unfold dp_vs_ct_in_get at h ⊢
  dsimp only at h ⊢
  split at h
  · next n hn =>
    simp only [Option.some.injEq, tuplehash_to_conn] at h
    refine ⟨n, List.mem_of_find?_eq_some hn, h, ?_, ?_⟩
    · have := List.find?_some hn
      simpa only [tuplehash_to_conn] using this
    · simp only [hn, tuplehash_to_conn, h]
  · cases h

theorem dp_vs_ct_in_get_miss (env : Env) (s : State) (af : Int)
    (proto saddr daddr sport dport : Nat)
    (h : (dp_vs_ct_in_get env s af proto saddr daddr sport dport).1 = none) :
    (dp_vs_ct_in_get env s af proto saddr daddr sport dport).2 = s := by
  unfold dp_vs_ct_in_get at h ⊢
  dsimp only at h ⊢
  split at h
  · cases h
  · next hn => simp only [hn]

theorem dp_vs_ct_in_get_miss_nodes (env : Env) (s : State) (af : Int)
    (proto saddr daddr sport dport : Nat)
    (h : (dp_vs_ct_in_get env s af proto saddr daddr sport dport).1 = none) (n : Node)
    (hn : n ∈ s.dp_vs_ct_tab (conn_hashkey env s af saddr sport daddr dport)) :
    ct_in_get_match af proto saddr daddr sport dport (s.conns n.conn) (s.tuple n) = false := by
  unfold dp_vs_ct_in_get at h
  dsimp only at h
  split at h
  · cases h
  · next hf =>
    have := List.find?_eq_none.mp hf n hn
    simpa only [tuplehash_to_conn, Bool.not_eq_true] using this

theorem ct_in_get_match_of_fields (af : Int) (proto saddr daddr sport dport : Nat)
    (conn : DpVsConn) (t : ConnTupleHash)
    (h : t.sport = sport ∧ t.dport = dport
      ∧ inet_addr_equal af t.saddr saddr = true
      ∧ inet_addr_equal (if proto = IPPROTO_IP then AF_UNSPEC else af) t.daddr daddr = true
      ∧ conn.flags.template = true ∧ t.proto = proto ∧ t.af = af) :
    ct_in_get_match af proto saddr daddr sport dport conn t = true := by
  obtain ⟨h1, h2, h3, h4, h5, h6, h7⟩ := h
  simp only [ct_in_get_match, Bool.and_eq_true, beq_iff_eq]
  exact ⟨⟨⟨⟨⟨⟨h1, h2⟩, h3⟩, h4⟩, h5⟩, h6⟩, h7⟩

theorem ct_in_get_match_fields (af : Int) (proto saddr daddr sport dport : Nat)
    (conn : DpVsConn) (t : ConnTupleHash)
    (h : ct_in_get_match af proto saddr daddr sport dport conn t = true) :
    t.sport = sport ∧ t.dport = dport
      ∧ inet_addr_equal af t.saddr saddr = true
      ∧ inet_addr_equal (if proto = IPPROTO_IP then AF_UNSPEC else af) t.daddr daddr = true
      ∧ conn.flags.template = true ∧ t.proto = proto ∧ t.af = af := by
  simp only [ct_in_get_match, Bool.and_eq_true, beq_iff_eq] at h
  obtain ⟨⟨⟨⟨⟨⟨h1, h2⟩, h3⟩, h4⟩, h5⟩, h6⟩, h7⟩ := h
  exact ⟨h1, h2, h3, h4, h5, h6, h7⟩

theorem conn_unhash_of_ok (s : State) (cid : Nat)
    (hh : (s.conns cid).flags.hashed = true) (hr : (s.conns cid).refcnt = 2) :
    (conn_unhash s cid).1 = Err.OK
    ∧ (∀ h, (conn_unhash s cid).2.dp_vs_ct_tab h
        = (s.dp_vs_ct_tab h).filter (fun n => decide (n.conn ≠ cid)))
    ∧ (∀ h, (conn_unhash s cid).2.dp_vs_conn_tab h
        = (s.dp_vs_conn_tab h).filter (fun n => decide (n.conn ≠ cid)))
    ∧ (conn_unhash s cid).2.conns cid
        = { s.conns cid with
            flags := { (s.conns cid).flags with hashed := false },
            refcnt := 1 }
    ∧ (∀ j, j ≠ cid → (conn_unhash s cid).2.conns j = s.conns j)
    ∧ (conn_unhash s cid).2.dp_vs_conn_rnd = s.dp_vs_conn_rnd := by
  refine ⟨?_, fun h => ?_, fun h => ?_, ?_, ?_, ?_⟩
  · simp [conn_unhash, hh, hr]
  · simp only [conn_unhash, hh, hr, conn_refcnt_dec, State.setConn, if_true, ne_eq,
      not_true_eq_false, if_false]
    exact list_del_twice_apply _ _ h
  · simp only [conn_unhash, hh, hr, conn_refcnt_dec, State.setConn, if_true, ne_eq,
      not_true_eq_false, if_false]
    exact list_del_twice_apply _ _ h
  · simp [conn_unhash, hh, hr, conn_refcnt_dec, State.setConn]
  · intro j hj
    simp [conn_unhash, hh, hr, conn_refcnt_dec, State.setConn, hj]
  · simp [conn_unhash, hh, hr, conn_refcnt_dec, State.setConn]

theorem conn_unhash_of_not_ok (s : State) (cid : Nat)
    (h : ¬ ((s.conns cid).flags.hashed = true ∧ (s.conns cid).refcnt = 2)) :
    (conn_unhash s cid).1 ≠ Err.OK ∧ (conn_unhash s cid).2 = s := by
  unfold conn_unhash
  cases hh : (s.conns cid).flags.hashed
  · simp only [hh, Bool.false_eq_true, if_false, ne_eq, reduceCtorEq, not_false_eq_true,
      and_self]
  · have hr : (s.conns cid).refcnt ≠ 2 := fun hr => h ⟨hh, hr⟩
    simp only [hh, hr, if_true, ne_eq, not_false_eq_true, reduceCtorEq, and_self]

theorem check_template_invalidate_of_ok (env : Env) (s : State) (ct : Nat)
    (hv : (s.conns ct).vport ≠ htons env 0xffff)
    (hh : (s.conns ct).flags.hashed = true) (hr : (s.conns ct).refcnt = 2) :
    check_template_invalidate env s ct = (conn_unhash s ct).2 := by
  unfold check_template_invalidate
  rw [if_pos hv]
  dsimp only
  rw [if_neg (not_not.mpr (conn_unhash_of_ok s ct hh hr).1)]

theorem check_template_invalidate_of_not_ok (env : Env) (s : State) (ct : Nat)
    (hv : (s.conns ct).vport ≠ htons env 0xffff)
    (h : ¬ ((s.conns ct).flags.hashed = true ∧ (s.conns ct).refcnt = 2)) :
    check_template_invalidate env s ct
      = (conn_hash env (s.setConn ct
          { s.conns ct with
            dport := htonl env 0xffff % 2 ^ 16,
            vport := htonl env 0xffff % 2 ^ 16,
            lport := 0,
            cport := 0 }) ct).2 := by
  unfold check_template_invalidate
  rw [if_pos hv]
  dsimp only
  rw [if_pos (conn_unhash_of_not_ok s ct h).1, (conn_unhash_of_not_ok s ct h).2]

/-- After `dp_vs_check_template` on a template that is hashed, held by the index
and one caller, not yet carrying the sentinel port and whose destination is
not usable: the result is 0, the ports are untouched, the template has left
the shared table, `HASHED` is clear and the reference count is 0. -/
theorem dp_vs_check_template_sole_holder (env : Env) (s : State) (ct : Nat)
    (hu : check_template_unavailable s ct = true)
    (hv : (s.conns ct).vport ≠ htons env 0xffff)
    (hh : (s.conns ct).flags.hashed = true) (hr : (s.conns ct).refcnt = 2) :
    (dp_vs_check_template env s ct).1 = 0
    ∧ (dp_vs_check_template env s ct).2.conns ct
        = { s.conns ct with
            flags := { (s.conns ct).flags with hashed := false },
            refcnt := 0 }
    ∧ (∀ j, j ≠ ct → (dp_vs_check_template env s ct).2.conns j = s.conns j)
    ∧ (∀ h, (dp_vs_check_template env s ct).2.dp_vs_ct_tab h
        = (s.dp_vs_ct_tab h).filter (fun n => decide (n.conn ≠ ct)))
    ∧ (dp_vs_check_template env s ct).2.dp_vs_conn_rnd = s.dp_vs_conn_rnd := by
  obtain ⟨_, u2, _, u4, u5, u6⟩ := conn_unhash_of_ok s ct hh hr
  unfold dp_vs_check_template
  rw [if_pos hu, check_template_invalidate_of_ok env s ct hv hh hr]
  refine ⟨rfl, ?_, fun j hj => ?_, fun h => ?_, ?_⟩
  · simp only [conn_refcnt_dec, setConn_conns_same, u4]
    norm_num
  · simp only [conn_refcnt_dec]
    rw [setConn_conns_other _ _ _ _ hj]
    exact u5 j hj
  · simp only [conn_refcnt_dec, setConn_frame]
    exact u2 h
  · simp only [conn_refcnt_dec, setConn_frame]
    exact u6

theorem ct_in_get_match_key (af : Int) (proto saddr daddr sport dport : Nat)
    (conn : DpVsConn) (t : ConnTupleHash)
    (h : ct_in_get_match af proto saddr daddr sport dport conn t = true) :
    t.key = (af, proto, inet_addr_part af saddr, sport, inet_addr_part af daddr, dport) := by
  obtain ⟨h1, h2, h3, h4, _, h6, h7⟩ := ct_in_get_match_fields _ _ _ _ _ _ _ _ h
  rw [inet_addr_equal_iff] at h3
  have h4' : inet_addr_part af t.daddr = inet_addr_part af daddr := by
    by_cases hp : proto = IPPROTO_IP
    · rw [if_pos hp, inet_addr_equal_unspec] at h4
      rw [h4]
    · rw [if_neg hp, inet_addr_equal_iff] at h4
      exact h4
  simp only [ConnTupleHash.key, h1, h2, h3, h4', h6, h7]

theorem state_tmpl_quiet_nodes (h : Nat) (n : Node)
    (hn : n ∈ state_tmpl_quiet.dp_vs_ct_tab h) : n.conn = 0 := by
  have htab : state_tmpl_quiet.dp_vs_ct_tab
      = list_add (list_add (fun _ => []) 65874 ⟨0, Dir.INBOUND⟩) 131587 ⟨0, Dir.OUTBOUND⟩ :=
    rfl
  rw [htab] at hn
  simp only [mem_list_add, List.not_mem_nil, or_false] at hn
  rcases hn with h1 | h1
  · rw [h1.2]
  · rw [h1.2]

/-! ## Facts about the success path of flow construction -/

theorem conn_bind_dest_body (s : State) (cid did : Nat) :
    ((conn_bind_dest s cid did).2.conns cid).body = (s.conns cid).body
    ∧ ((conn_bind_dest s cid did).2.conns cid).refcnt = (s.conns cid).refcnt
    ∧ ((conn_bind_dest s cid did).2.conns cid).state = (s.conns cid).state
    ∧ (conn_bind_dest s cid did).2.dp_vs_conn_rnd = s.dp_vs_conn_rnd
    ∧ (conn_bind_dest s cid did).2.conn_init_timeout = s.conn_init_timeout
    ∧ (conn_bind_dest s cid did).2.log = s.log := by
  by_cases hov : (s.dests did).max_conn ≠ 0
      ∧ (s.dests did).inactconns + (s.dests did).actconns ≥ ((s.dests did).max_conn : Int)
  · rw [conn_bind_dest_of_overload s cid did hov]
    simp only [setDest_frame, setConn_frame, setConn_conns_same, DpVsConn.body, and_self]
  · cases ht : ((s.conns cid).flags.lor (s.dests did).conn_flags).template <;>
      cases hm : (s.dests did).fwdmode <;>
      · unfold conn_bind_dest
        simp only [setConn_frame]
        rw [if_neg hov]
        simp only [setConn_frame, setDest_frame, setConn_conns_same, setDest_dests_same,
          ht, hm, if_true, if_false, Bool.false_eq_true, DpVsConn.body, and_self]

theorem conn_new_laddr_some (env : Env) (t : State) (did new : Nat) (s3 : State)
    (h : conn_new_laddr env t did new = some s3) :
    s3.dests = t.dests
    ∧ s3.dp_vs_conn_rnd = t.dp_vs_conn_rnd
    ∧ s3.conn_init_timeout = t.conn_init_timeout
    ∧ s3.log = t.log
    ∧ (s3.conns new).refcnt = (t.conns new).refcnt
    ∧ (s3.conns new).state = (t.conns new).state
    ∧ (s3.conns new).flags = (t.conns new).flags
    ∧ (s3.conns new).tuplehash_in = (t.conns new).tuplehash_in
    ∧ ((s3.conns new).tuplehash_out.direct, (s3.conns new).tuplehash_out.af,
        (s3.conns new).tuplehash_out.proto, (s3.conns new).tuplehash_out.saddr,
        (s3.conns new).tuplehash_out.sport)
        = ((t.conns new).tuplehash_out.direct, (t.conns new).tuplehash_out.af,
            (t.conns new).tuplehash_out.proto, (t.conns new).tuplehash_out.saddr,
            (t.conns new).tuplehash_out.sport)
    ∧ ((s3.conns new).af, (s3.conns new).proto, (s3.conns new).caddr, (s3.conns new).vaddr,
        (s3.conns new).daddr, (s3.conns new).cport, (s3.conns new).vport,
        (s3.conns new).dport, (s3.conns new).control, (s3.conns new).n_control)
        = ((t.conns new).af, (t.conns new).proto, (t.conns new).caddr, (t.conns new).vaddr,
            (t.conns new).daddr, (t.conns new).cport, (t.conns new).vport,
            (t.conns new).dport, (t.conns new).control, (t.conns new).n_control)
    ∧ ((t.dests did).fwdmode ≠ FwdMode.FNAT → s3 = t) := by
  unfold conn_new_laddr at h
  split_ifs at h with hm
  · unfold dp_vs_laddr_bind at h
    split at h
    · cases h
    · simp only [Option.some.injEq] at h
      rw [← h]
      simp only [setConn_frame, setConn_conns_same, true_and]
      exact fun hne => absurd hm hne
  · simp only [Option.some.injEq] at h
    rw [← h]
    simp only [true_and, implies_true]

theorem conn_hash_ok (env : Env) (s : State) (cid : Nat)
    (h : (conn_hash env s cid).1 = Err.OK) :
    (s.conns cid).flags.hashed = false
    ∧ ((conn_hash env s cid).2.conns cid).body = (s.conns cid).body
    ∧ ((conn_hash env s cid).2.conns cid).state = (s.conns cid).state
    ∧ ((conn_hash env s cid).2.conns cid).refcnt = (s.conns cid).refcnt + 1
    ∧ ((conn_hash env s cid).2.conns cid).flags
        = { (s.conns cid).flags with hashed := true }
    ∧ (conn_hash env s cid).2.dests = s.dests
    ∧ (conn_hash env s cid).2.dp_vs_conn_rnd = s.dp_vs_conn_rnd
    ∧ (conn_hash env s cid).2.dp_vs_conn_count = s.dp_vs_conn_count
    ∧ (conn_hash env s cid).2.conn_init_timeout = s.conn_init_timeout
    ∧ (conn_hash env s cid).2.log = s.log
    ∧ ((s.conns cid).flags.template = false →
        (conn_hash env s cid).2.dp_vs_conn_tab
          = list_add (list_add s.dp_vs_conn_tab (conn_ihash env s cid) ⟨cid, Dir.INBOUND⟩)
              (conn_ohash env s cid) ⟨cid, Dir.OUTBOUND⟩) := by
  unfold conn_hash __conn_hash at h ⊢
  cases hh : (s.conns cid).flags.hashed
  · cases ht : (s.conns cid).flags.template <;>
      simp only [hh, ht, Bool.false_eq_true, if_false, if_true, conn_refcnt_inc,
        setConn_conns_same, setConn_frame, DpVsConn.body, and_self, implies_true,
        false_implies, reduceCtorEq]
  · simp only [hh, if_true, reduceCtorEq] at h

theorem conn_new_finish_some (env : Env) (t : State) (new cid : Nat) (s' : State)
    (h : conn_new_finish env t new = some (some cid, s')) :
    cid = new
    ∧ (s'.conns new).body = (t.conns new).body
    ∧ (s'.conns new).state = (t.conns new).state
    ∧ (s'.conns new).refcnt = (t.conns new).refcnt
    ∧ (s'.conns new).flags = (t.conns new).flags
    ∧ (s'.conns new).timeout = env.dpvs_time_rand_delay (t.conns new).timeout 1000000
    ∧ s'.dests = t.dests
    ∧ s'.dp_vs_conn_tab = t.dp_vs_conn_tab
    ∧ s'.dp_vs_ct_tab = t.dp_vs_ct_tab
    ∧ s'.dp_vs_conn_rnd = t.dp_vs_conn_rnd
    ∧ s'.dp_vs_conn_count = t.dp_vs_conn_count + 1
    ∧ s'.log
        = Event.timer_sched new (env.dpvs_time_rand_delay (t.conns new).timeout 1000000)
            (t.conns new).flags.template :: t.log := by
  unfold conn_new_finish at h
  dsimp only at h
  cases ht : (t.conns new).flags.template <;>
    · simp only [setConn_conns_same, ht, Bool.false_eq_true, if_false, if_true,
        Option.some.injEq, Prod.mk.injEq] at h
      obtain ⟨h1, h2⟩ := h
      rw [← h2]
      simp only [emit_frame, setConn_frame, setConn_conns_same, DpVsConn.body, State.emit,
        h1, and_self]
theorem conn_new_after_hash_some (env : Env) (t : State) (mbuf : Mbuf)
    (param : DpVsConnParam) (flags : ConnFlags) (new cid : Nat) (s' : State)
    (h : conn_new_after_hash env t mbuf param flags new = some (some cid, s')) :
    cid = new
    ∧ (s'.conns new).body = (t.conns new).body
    ∧ (s'.conns new).refcnt = (t.conns new).refcnt
    ∧ (s'.conns new).flags = (t.conns new).flags
    ∧ s'.dests = t.dests
    ∧ s'.dp_vs_conn_tab = t.dp_vs_conn_tab
    ∧ s'.dp_vs_ct_tab = t.dp_vs_ct_tab
    ∧ s'.dp_vs_conn_rnd = t.dp_vs_conn_rnd
    ∧ s'.dp_vs_conn_count = t.dp_vs_conn_count + 1
    ∧ ((flags.synproxy && !flags.template) = false →
        (s'.conns new).state = (t.conns new).state
        ∧ (s'.conns new).timeout
            = env.dpvs_time_rand_delay ⟨t.conn_init_timeout, 0⟩ 1000000
        ∧ s'.log
            = Event.timer_sched new
                (env.dpvs_time_rand_delay ⟨t.conn_init_timeout, 0⟩ 1000000)
                (t.conns new).flags.template :: t.log) := by
  unfold conn_new_after_hash at h
  dsimp only at h
  cases hsyn : (flags.synproxy && !flags.template)
  · rw [hsyn] at h
    simp only [Bool.false_eq_true, if_false] at h
    obtain ⟨f1, f2, f3, f4, f5, f6, f7, f8, f9, f10, f11, f12⟩ :=
      conn_new_finish_some env _ new cid s' h
    simp only [setConn_conns_same, setConn_frame, DpVsConn.body] at f2 f3 f4 f5 f6 f7
    simp only [setConn_conns_same, setConn_frame] at f8 f9 f10 f11 f12
    exact ⟨f1, f2, f4, f5, f7, f8, f9, f10, f11, fun _ => ⟨f3, f6, f12⟩⟩
  · rw [hsyn] at h
    simp only [if_true] at h
    split_ifs at h with h1 h2
    · unfold conn_new_unbind_laddr conn_new_unbind_dest at h
      split at h
      · cases h
      · simp only [conn_new_errout, Option.some.injEq, Prod.mk.injEq, reduceCtorEq,
          false_and] at h
    · unfold conn_new_unbind_laddr conn_new_unbind_dest at h
      split at h
      · cases h
      · simp only [conn_new_errout, Option.some.injEq, Prod.mk.injEq, reduceCtorEq,
          false_and] at h
    · split at h
      · cases h
      · obtain ⟨f1, f2, _, f4, f5, _, f7, f8, f9, f10, f11, _⟩ :=
          conn_new_finish_some env _ new cid s' h
        simp only [setConn_conns_same, setConn_frame, DpVsConn.body] at f2 f4 f5 f7
        simp only [setConn_conns_same, setConn_frame] at f8 f9 f10 f11
        exact ⟨f1, f2, f4, f5, f7, f8, f9, f10, f11, fun hc => by cases hc⟩

theorem conn_new_bound_some (env : Env) (t : State) (mbuf : Mbuf) (param : DpVsConnParam)
    (did : Nat) (flags : ConnFlags) (new cid : Nat) (s' : State)
    (h : conn_new_bound env t mbuf param did flags new = some (some cid, s')) :
    (conn_bind_dest t new did).1 = Err.OK
    ∧ ∃ s3, conn_new_laddr env (conn_bind_dest t new did).2 did new = some s3
        ∧ (conn_hash env s3 new).1 = Err.OK
        ∧ conn_new_after_hash env (conn_hash env s3 new).2 mbuf param flags new
            = some (some cid, s') := by
  unfold conn_new_bound at h
  dsimp only at h
  split_ifs at h with hb
  · simp only [conn_new_errout, Option.some.injEq, Prod.mk.injEq, reduceCtorEq,
      false_and] at h
  · refine ⟨not_not.mp hb, ?_⟩
    split at h
    · unfold conn_new_unbind_dest at h
      split at h
      · cases h
      · simp only [conn_new_errout, Option.some.injEq, Prod.mk.injEq, reduceCtorEq,
          false_and] at h
    · next s3 hl =>
      refine ⟨s3, hl, ?_⟩
      split_ifs at h with hh
      · unfold conn_new_unbind_laddr conn_new_unbind_dest at h
        split at h
        · cases h
        · simp only [conn_new_errout, Option.some.injEq, Prod.mk.injEq, reduceCtorEq,
            false_and] at h
      · exact ⟨not_not.mp hh, h⟩

theorem dp_vs_conn_new_some (env : Env) (s : State) (mbuf : Mbuf) (param : DpVsConnParam)
    (did : Nat) (flags : ConnFlags) (cid : Nat) (s' : State)
    (h : dp_vs_conn_new env s mbuf param did flags = some (some cid, s')) :
    ∃ new rest rport, s.conn_cache = new :: rest
      ∧ conn_new_rport (({ s with conn_cache := rest } : State).setConn new DpVsConn.zero)
          mbuf param did flags = some rport
      ∧ conn_new_bound env
          ((({ s with conn_cache := rest } : State).setConn new DpVsConn.zero).setConn new
            (conn_new_fill (({ s with conn_cache := rest } : State).setConn new DpVsConn.zero)
              mbuf param did flags rport))
          mbuf param did flags new = some (some cid, s') := by
  unfold dp_vs_conn_new at h
  split at h
  · simp only [Option.some.injEq, Prod.mk.injEq, reduceCtorEq, false_and] at h
  · next new rest hc =>
    dsimp only at h
    split at h
    · simp only [Option.some.injEq, Prod.mk.injEq, reduceCtorEq, false_and] at h
    · next rport hr => exact ⟨new, rest, rport, hc, hr, h⟩
theorem conn_hash_buckets_congr (env : Env) (s1 s2 : State) (cid : Nat)
    (hb : (s1.conns cid).body = (s2.conns cid).body)
    (hr : s1.dp_vs_conn_rnd = s2.dp_vs_conn_rnd) :
    conn_ihash env s1 cid = conn_ihash env s2 cid
    ∧ conn_ohash env s1 cid = conn_ohash env s2 cid := by
  simp only [DpVsConn.body, Prod.mk.injEq] at hb
  obtain ⟨_, _, _, _, hin, hout, _, _⟩ := hb
  unfold conn_ihash conn_ohash conn_hashkey
  simp only [hin, hout, hr, and_self]

/-- What a successful `dp_vs_conn_new` leaves behind, in terms of the record
`conn_new_fill` builds: the returned record is the head of the pool; its
addressing is the filled one (up to the local side, which a Full-NAT bind
rewrites); its reference count is 2; its flags are the supplied flags or-ed
with the connection flags of the destination, plus `HASHED`; the destination
counters are those of a successful bind; the flow count is one higher. -/
theorem dp_vs_conn_new_success_facts (env : Env) (s : State) (mbuf : Mbuf)
    (param : DpVsConnParam) (did : Nat) (flags : ConnFlags) (cid : Nat) (s' : State)
    (h : dp_vs_conn_new env s mbuf param did flags = some (some cid, s')) :
    ∃ rest rport, s.conn_cache = cid :: rest
      ∧ conn_new_rport s mbuf param did flags = some rport
      ∧ (s'.conns cid).tuplehash_in
          = (conn_new_fill s mbuf param did flags rport).tuplehash_in
      ∧ ((s'.conns cid).tuplehash_out.direct, (s'.conns cid).tuplehash_out.af,
          (s'.conns cid).tuplehash_out.proto, (s'.conns cid).tuplehash_out.saddr,
          (s'.conns cid).tuplehash_out.sport)
          = ((conn_new_fill s mbuf param did flags rport).tuplehash_out.direct,
              (conn_new_fill s mbuf param did flags rport).tuplehash_out.af,
              (conn_new_fill s mbuf param did flags rport).tuplehash_out.proto,
              (conn_new_fill s mbuf param did flags rport).tuplehash_out.saddr,
              (conn_new_fill s mbuf param did flags rport).tuplehash_out.sport)
      ∧ ((s'.conns cid).af, (s'.conns cid).proto, (s'.conns cid).caddr, (s'.conns cid).vaddr,
          (s'.conns cid).daddr, (s'.conns cid).cport, (s'.conns cid).vport,
          (s'.conns cid).dport, (s'.conns cid).control, (s'.conns cid).n_control)
          = ((conn_new_fill s mbuf param did flags rport).af,
              (conn_new_fill s mbuf param did flags rport).proto,
              (conn_new_fill s mbuf param did flags rport).caddr,
              (conn_new_fill s mbuf param did flags rport).vaddr,
              (conn_new_fill s mbuf param did flags rport).daddr,
              (conn_new_fill s mbuf param did flags rport).cport,
              (conn_new_fill s mbuf param did flags rport).vport,
              (conn_new_fill s mbuf param did flags rport).dport,
              (conn_new_fill s mbuf param did flags rport).control,
              (conn_new_fill s mbuf param did flags rport).n_control)
      ∧ ((s.dests did).fwdmode ≠ FwdMode.FNAT →
          (s'.conns cid).body = (conn_new_fill s mbuf param did flags rport).body)
      ∧ (s'.conns cid).refcnt = 2
      ∧ (s'.conns cid).flags
          = { flags.lor (s.dests did).conn_flags with hashed := true }
      ∧ (s'.dests did).counters
          = ((s.dests did).refcnt + 1, (s.dests did).actconns,
              (s.dests did).inactconns
                + (if (flags.lor (s.dests did).conn_flags).template then 0 else 1),
              (s.dests did).persistconns
                + (if (flags.lor (s.dests did).conn_flags).template then 1 else 0))
      ∧ s'.dp_vs_conn_count = s.dp_vs_conn_count + 1
      ∧ ((flags.lor (s.dests did).conn_flags).template = false →
          (⟨cid, Dir.INBOUND⟩ : Node) ∈ s'.dp_vs_conn_tab (conn_ihash env s' cid)
          ∧ (⟨cid, Dir.OUTBOUND⟩ : Node) ∈ s'.dp_vs_conn_tab (conn_ohash env s' cid))
      ∧ ((flags.synproxy && !flags.template) = false →
          (s'.conns cid).state = 0
          ∧ (s'.conns cid).timeout
              = env.dpvs_time_rand_delay ⟨s.conn_init_timeout, 0⟩ 1000000
          ∧ s'.log
              = Event.timer_sched cid
                  (env.dpvs_time_rand_delay ⟨s.conn_init_timeout, 0⟩ 1000000)
                  (flags.lor (s.dests did).conn_flags).template :: s.log) := by
  obtain ⟨new, rest, rport, hc, hr, hb⟩ := dp_vs_conn_new_some env s mbuf param did flags cid s' h
  obtain ⟨bok, s3, hl, hok, ha⟩ := conn_new_bound_some env _ mbuf param did flags new cid s' hb
  obtain ⟨a1, a2, a3, a4, a5, a6, _, a8, a9, a10⟩ :=
    conn_new_after_hash_some env _ mbuf param flags new cid s' ha
  obtain ⟨g1, g2, g3, g4, g5, g6, g7, g8, g9, g10, g11⟩ := conn_hash_ok env s3 new hok
  obtain ⟨l1, l2, l3, l4, l5, l6, l7, l8, l9, l10, l11⟩ :=
    conn_new_laddr_some env _ did new s3 hl
  obtain ⟨i1, _, i3⟩ := conn_new_laddr_index env _ did new s3 hl
  obtain ⟨b1, b2, b3, b4, b5, b6⟩ := conn_bind_dest_body
    ((({ s with conn_cache := rest } : State).setConn new DpVsConn.zero).setConn new
      (conn_new_fill (({ s with conn_cache := rest } : State).setConn new DpVsConn.zero)
        mbuf param did flags rport)) new did
  obtain ⟨k1, k2, _, k4, _, k6, _, k8⟩ := conn_bind_dest_ok _ new did bok
  simp only [setConn_conns_same, setConn_frame] at b1 b2 b3 b4 b5 b6 k1 k2 k4 k6 k8
  subst a1
  have hbody3 : (s'.conns cid).body = (s3.conns cid).body := by rw [a2, g2]
  have hflags : (s3.conns cid).flags = flags.lor (s.dests did).conn_flags := by
    rw [l7, k2]
    rfl
  refine ⟨rest, rport, hc, hr, ?_, ?_, ?_, ?_, ?_, ?_, ?_, ?_, ?_, ?_⟩
  · have e1 : (s'.conns cid).tuplehash_in = (s3.conns cid).tuplehash_in := by
      have := hbody3
      simp only [DpVsConn.body, Prod.mk.injEq] at this
      exact this.2.2.2.2.1
    have e2 := b1
    simp only [DpVsConn.body, Prod.mk.injEq] at e2
    rw [e1, l8, e2.2.2.2.2.1]
    rfl
  · have e1 : (s'.conns cid).tuplehash_out = (s3.conns cid).tuplehash_out := by
      have := hbody3
      simp only [DpVsConn.body, Prod.mk.injEq] at this
      exact this.2.2.2.2.2.1
    have e2 := b1
    simp only [DpVsConn.body, Prod.mk.injEq] at e2
    rw [e1, l9, e2.2.2.2.2.2.1]
    rfl
  · have e1 := hbody3
    have e2 := b1
    simp only [DpVsConn.body, Prod.mk.injEq] at e1 e2
    simp only [Prod.mk.injEq] at l10 ⊢
    obtain ⟨p1, p2, ⟨p3, p4, _, p6⟩, ⟨p7, p8, _, p10⟩, _, _, p13, p14⟩ := e1
    obtain ⟨q1, q2, ⟨q3, q4, _, q6⟩, ⟨q7, q8, _, q10⟩, _, _, q13, q14⟩ := e2
    obtain ⟨r1, r2, r3, r4, r5, r6, r7, r8, r9, r10⟩ := l10
    exact ⟨by rw [p1, r1, q1]; rfl, by rw [p2, r2, q2]; rfl, by rw [p3, r3, q3]; rfl,
      by rw [p4, r4, q4]; rfl, by rw [p6, r5, q6]; rfl, by rw [p7, r6, q7]; rfl,
      by rw [p8, r7, q8]; rfl, by rw [p10, r8, q10]; rfl, by rw [p13, r9, q13]; rfl,
      by rw [p14, r10, q14]; rfl⟩
  · intro hm
    have hs3 := l11 (by rw [k4]; exact hm)
    rw [hbody3, hs3, b1]
    rfl
  · rw [a3, g4, l5, b2]
    rfl
  · rw [a4, g5, hflags]
  · rw [a5, g6, l1, k1]
    rfl
  · rw [a9, g8, i3, k8]
  · intro ht
    have ht3 : (s3.conns cid).flags.template = false := by rw [hflags]; exact ht
    have hrnd : s'.dp_vs_conn_rnd = s3.dp_vs_conn_rnd := by rw [a8, g7]
    obtain ⟨c1, c2⟩ := conn_hash_buckets_congr env s' s3 cid hbody3 hrnd
    rw [c1, c2, a6, g11 ht3]
    constructor
    · rw [mem_list_add, mem_list_add]
      by_cases hi : conn_ihash env s3 cid = conn_ohash env s3 cid
      · right; left; exact ⟨rfl, rfl⟩
      · right; left; exact ⟨rfl, rfl⟩
    · rw [mem_list_add]
      left; exact ⟨rfl, rfl⟩
  · intro hsyn
    obtain ⟨t1, t2, t3⟩ := a10 hsyn
    refine ⟨?_, ?_, ?_⟩
    · rw [t1, g3, l6, b3]
      rfl
    · rw [t2, g9, l3, b5]
    · rw [t3, g9, l3, b5, g10, l4, b6, g5, hflags]

/-! ## Facts about the phases of the expiration callback -/

theorem conn_expire_entry_conn (env : Env) (s : State) (cid : Nat) :
    (conn_expire_entry env s cid).conns cid
      = { s.conns cid with
          timeout := conn_expire_deadline env (s.conns cid),
          refcnt := (s.conns cid).refcnt + 1 } := by
  simp only [conn_expire_entry, conn_refcnt_inc, setConn_conns_same]

theorem conn_expire_entry_other (env : Env) (s : State) (cid j : Nat) (h : j ≠ cid) :
    (conn_expire_entry env s cid).conns j = s.conns j := by
  simp only [conn_expire_entry, conn_refcnt_inc]
  rw [setConn_conns_other _ _ _ _ h, setConn_conns_other _ _ _ _ h]

theorem conn_expire_entry_frame (env : Env) (s : State) (cid : Nat) :
    (conn_expire_entry env s cid).dests = s.dests
    ∧ (conn_expire_entry env s cid).dp_vs_conn_tab = s.dp_vs_conn_tab
    ∧ (conn_expire_entry env s cid).dp_vs_ct_tab = s.dp_vs_ct_tab
    ∧ (conn_expire_entry env s cid).dp_vs_conn_count = s.dp_vs_conn_count
    ∧ (conn_expire_entry env s cid).dp_vs_conn_rnd = s.dp_vs_conn_rnd
    ∧ (conn_expire_entry env s cid).conn_cache = s.conn_cache
    ∧ (conn_expire_entry env s cid).ack_mbufpool = s.ack_mbufpool
    ∧ (conn_expire_entry env s cid).log = s.log :=
  ⟨rfl, rfl, rfl, rfl, rfl, rfl, rfl, rfl⟩

/-- The callback in terms of its entry state. -/
theorem conn_expire_eq (env : Env) (s : State) (cid : Nat) :
    conn_expire env s cid
      = match ((conn_expire_entry env s cid).conns cid).syn_mbuf with
        | some syn =>
          if ((conn_expire_entry env s cid).conns cid).syn_retry_max > 0 then
            some (dp_vs_conn_put
              (((conn_expire_retransmit env (conn_expire_entry env s cid) cid syn).setConn cid
                { (conn_expire_retransmit env (conn_expire_entry env s cid) cid syn).conns cid with
                  syn_retry_max :=
                    ((conn_expire_retransmit env (conn_expire_entry env s cid) cid syn).conns
                      cid).syn_retry_max - 1 }).emit Event.estats_inc_synproxy_rs_error) cid)
          else conn_expire_rest env (conn_expire_entry env s cid) cid
        | none => conn_expire_rest env (conn_expire_entry env s cid) cid := rfl

/-- Without a pending SYN retransmit the callback goes on to the controller
check. -/
theorem conn_expire_past_retransmit (env : Env) (s : State) (cid : Nat)
    (h : (s.conns cid).syn_mbuf = none ∨ (s.conns cid).syn_retry_max ≤ 0) :
    conn_expire env s cid = conn_expire_rest env (conn_expire_entry env s cid) cid := by
  rw [conn_expire_eq]
  have e1 : ((conn_expire_entry env s cid).conns cid).syn_mbuf = (s.conns cid).syn_mbuf := by
    rw [conn_expire_entry_conn]
  have e2 : ((conn_expire_entry env s cid).conns cid).syn_retry_max
      = (s.conns cid).syn_retry_max := by
    rw [conn_expire_entry_conn]
  rw [e1, e2]
  cases hs : (s.conns cid).syn_mbuf with
  | none => rfl
  | some syn =>
    rcases h with h | h
    · rw [hs] at h
      exact Option.noConfusion h
    · simp only
      rw [if_neg (not_lt.mpr h)]

/-- The reprieve: with no controlled flow, `HASHED` set and a count that reads
neither 2 nor 1, `conn_unhash` reports `BUSY`, `conn_hash` reports `EXIST`, the
timer is updated and the reference of the callback is dropped. -/
theorem conn_expire_rest_reprieve (env : Env) (s2 : State) (cid : Nat)
    (hn : (s2.conns cid).n_control = 0) (hh : (s2.conns cid).flags.hashed = true)
    (h2 : (s2.conns cid).refcnt ≠ 2) (h1 : (s2.conns cid).refcnt ≠ 1) :
    conn_unhash s2 cid = (Err.BUSY, s2)
    ∧ conn_hash env s2 cid = (Err.EXIST, s2)
    ∧ conn_expire_rest env s2 cid
        = some (conn_refcnt_dec
            (s2.emit (Event.timer_update cid (s2.conns cid).timeout false)) cid) := by
  have hu : conn_unhash s2 cid = (Err.BUSY, s2) := by
    unfold conn_unhash
    simp only [hh, if_true, h2, ne_eq, not_false_eq_true]
  have hc : conn_hash env s2 cid = (Err.EXIST, s2) := by
    unfold conn_hash __conn_hash
    simp only [hh, if_true]
  refine ⟨hu, hc, ?_⟩
  unfold conn_expire_rest
  simp only [hn, ne_eq, not_true_eq_false, if_false, hu, h1, hc]

/-- The terminal branch as the sequence of its stages. -/
theorem conn_expire_terminal_eq (env : Env) (s : State) (cid : Nat) :
    conn_expire_terminal env s cid
      = match ((conn_expire_terminal_head env s cid).conns cid).dest with
        | none => none
        | some did =>
          match conn_unbind_dest
              (conn_expire_terminal_sa (conn_expire_terminal_head env s cid) cid did) cid with
          | none => none
          | some u => some (conn_expire_terminal_tail u.2 cid) := rfl

theorem dp_vs_control_del_frame (s : State) (cid : Nat) :
    (dp_vs_control_del s cid).dests = s.dests
    ∧ (dp_vs_control_del s cid).dp_vs_conn_tab = s.dp_vs_conn_tab
    ∧ (dp_vs_control_del s cid).dp_vs_ct_tab = s.dp_vs_ct_tab
    ∧ (dp_vs_control_del s cid).dp_vs_conn_count = s.dp_vs_conn_count
    ∧ (dp_vs_control_del s cid).dp_vs_conn_rnd = s.dp_vs_conn_rnd
    ∧ (dp_vs_control_del s cid).conn_cache = s.conn_cache
    ∧ (dp_vs_control_del s cid).ack_mbufpool = s.ack_mbufpool
    ∧ (dp_vs_control_del s cid).log = s.log := by
  unfold dp_vs_control_del
  cases (s.conns cid).control
  · exact ⟨rfl, rfl, rfl, rfl, rfl, rfl, rfl, rfl⟩
  · exact ⟨rfl, rfl, rfl, rfl, rfl, rfl, rfl, rfl⟩

/-- Detaching a flow from its controller changes only the two control fields of
the records it touches. -/
theorem dp_vs_control_del_conns (s : State) (cid j : Nat) :
    ∃ c n, (dp_vs_control_del s cid).conns j = { s.conns j with control := c, n_control := n } := by
  unfold dp_vs_control_del
  cases (s.conns cid).control with
  | none => exact ⟨_, _, rfl⟩
  | some ctl =>
    by_cases h1 : j = ctl
    · subst h1
      by_cases h2 : j = cid
      · subst h2
        simp only [setConn_conns_same]
        exact ⟨_, _, rfl⟩
      · simp only [setConn_conns_same]
        rw [setConn_conns_other _ _ _ _ h2]
        exact ⟨_, _, rfl⟩
    · simp only []
      rw [setConn_conns_other _ _ _ _ h1]
      by_cases h2 : j = cid
      · subst h2
        simp only [setConn_conns_same]
        exact ⟨_, _, rfl⟩
      · rw [setConn_conns_other _ _ _ _ h2]
        exact ⟨_, _, rfl⟩

theorem conn_expire_terminal_head_frame (env : Env) (s : State) (cid : Nat) :
    (conn_expire_terminal_head env s cid).dests = s.dests
    ∧ (conn_expire_terminal_head env s cid).dp_vs_conn_tab = s.dp_vs_conn_tab
    ∧ (conn_expire_terminal_head env s cid).dp_vs_ct_tab = s.dp_vs_ct_tab
    ∧ (conn_expire_terminal_head env s cid).dp_vs_conn_count = s.dp_vs_conn_count
    ∧ (conn_expire_terminal_head env s cid).dp_vs_conn_rnd = s.dp_vs_conn_rnd
    ∧ (conn_expire_terminal_head env s cid).conn_cache = s.conn_cache
    ∧ (conn_expire_terminal_head env s cid).ack_mbufpool = s.ack_mbufpool := by
  unfold conn_expire_terminal_head
  dsimp only
  split_ifs <;>
    simp only [dp_vs_control_del_frame, emit_frame, and_self]

theorem conn_expire_terminal_head_log (env : Env) (s : State) (cid : Nat) :
    Event.timer_cancel cid (s.conns cid).flags.template
        ∈ (conn_expire_terminal_head env s cid).log
    ∧ ∀ e, e ∈ s.log → e ∈ (conn_expire_terminal_head env s cid).log := by
  unfold conn_expire_terminal_head
  dsimp only
  cases ht : (s.conns cid).flags.template <;>
    simp only [Bool.false_eq_true, if_false, if_true] <;>
    split_ifs <;>
    simp only [dp_vs_control_del_frame, State.emit, List.mem_cons, true_or, or_true, true_and,
      reduceCtorEq, false_or] <;>
    intro e he <;>
    simp only [he, or_true]

theorem conn_expire_terminal_head_conns (env : Env) (s : State) (cid j : Nat) :
    ∃ c n, (conn_expire_terminal_head env s cid).conns j
      = { s.conns j with control := c, n_control := n } := by
  unfold conn_expire_terminal_head
  dsimp only
  split_ifs <;>
    first
    | exact ⟨_, _, rfl⟩
    | exact dp_vs_control_del_conns (s.emit _) cid j
theorem conn_expire_terminal_sa_frame (s : State) (cid did : Nat) :
    (conn_expire_terminal_sa s cid did).conns = s.conns
    ∧ (conn_expire_terminal_sa s cid did).dests = s.dests
    ∧ (conn_expire_terminal_sa s cid did).dp_vs_conn_tab = s.dp_vs_conn_tab
    ∧ (conn_expire_terminal_sa s cid did).dp_vs_ct_tab = s.dp_vs_ct_tab
    ∧ (conn_expire_terminal_sa s cid did).dp_vs_conn_count = s.dp_vs_conn_count
    ∧ (conn_expire_terminal_sa s cid did).dp_vs_conn_rnd = s.dp_vs_conn_rnd
    ∧ (conn_expire_terminal_sa s cid did).conn_cache = s.conn_cache
    ∧ (conn_expire_terminal_sa s cid did).ack_mbufpool = s.ack_mbufpool
    ∧ ∀ e, e ∈ s.log → e ∈ (conn_expire_terminal_sa s cid did).log := by
  unfold conn_expire_terminal_sa
  split_ifs
  · exact ⟨rfl, rfl, rfl, rfl, rfl, rfl, rfl, rfl, fun e he => List.mem_cons_of_mem _ he⟩
  · exact ⟨rfl, rfl, rfl, rfl, rfl, rfl, rfl, rfl, fun e he => he⟩

/-- What `conn_unbind_dest` leaves alone: every record but the `dest` pointer of
the flow, both tables, the counts, the pool and the log. -/
theorem conn_unbind_dest_frame (t : State) (cid did : Nat)
    (hd : (t.conns cid).dest = some did) :
    ∃ u : State, conn_unbind_dest t cid = some (Err.OK, u)
      ∧ u.conns cid = { t.conns cid with dest := none }
      ∧ (∀ j, j ≠ cid → u.conns j = t.conns j)
      ∧ (∀ j, j ≠ did → u.dests j = t.dests j)
      ∧ u.dp_vs_conn_tab = t.dp_vs_conn_tab
      ∧ u.dp_vs_ct_tab = t.dp_vs_ct_tab
      ∧ u.dp_vs_conn_count = t.dp_vs_conn_count
      ∧ u.dp_vs_conn_rnd = t.dp_vs_conn_rnd
      ∧ u.conn_cache = t.conn_cache
      ∧ u.ack_mbufpool = t.ack_mbufpool
      ∧ u.log = t.log := by
  unfold conn_unbind_dest
  simp only [hd]
  refine ⟨_, rfl, ?_, ?_, ?_, ?_, ?_, ?_, ?_, ?_, ?_, ?_⟩
  · simp only [setConn_conns_same, setDest_frame]
    split_ifs <;> simp only [setDest_frame]
  · intro j hj
    rw [setConn_conns_other _ _ _ _ hj]
    simp only [setDest_frame]
    split_ifs <;> simp only [setDest_frame]
  · intro j hj
    simp only [setConn_frame]
    rw [setDest_dests_other _ _ _ _ hj]
    split_ifs <;>
      simp only [setDest_dests_other _ _ _ _ hj]
  · simp only [setConn_frame, setDest_frame]
    split_ifs <;> simp only [setDest_frame]
  · simp only [setConn_frame, setDest_frame]
    split_ifs <;> simp only [setDest_frame]
  · simp only [setConn_frame, setDest_frame]
    split_ifs <;> simp only [setDest_frame]
  · simp only [setConn_frame, setDest_frame]
    split_ifs <;> simp only [setDest_frame]
  · simp only [setConn_frame, setDest_frame]
    split_ifs <;> simp only [setDest_frame]
  · simp only [setConn_frame, setDest_frame]
    split_ifs <;> simp only [setDest_frame]
  · simp only [setConn_frame, setDest_frame]
    split_ifs <;> simp only [setDest_frame]

theorem drain_acks_fold_frame (l : List Mbuf) :
    ∀ a : State,
      (l.foldl (fun (a : State) m =>
          ({ a.emit (Event.pktmbuf_free m) with ack_mbufpool := a.ack_mbufpool + 1 } : State))
        a).conns = a.conns
      ∧ (l.foldl (fun (a : State) m =>
          ({ a.emit (Event.pktmbuf_free m) with ack_mbufpool := a.ack_mbufpool + 1 } : State))
        a).dests = a.dests
      ∧ (l.foldl (fun (a : State) m =>
          ({ a.emit (Event.pktmbuf_free m) with ack_mbufpool := a.ack_mbufpool + 1 } : State))
        a).dp_vs_conn_tab = a.dp_vs_conn_tab
      ∧ (l.foldl (fun (a : State) m =>
          ({ a.emit (Event.pktmbuf_free m) with ack_mbufpool := a.ack_mbufpool + 1 } : State))
        a).dp_vs_ct_tab = a.dp_vs_ct_tab
      ∧ (l.foldl (fun (a : State) m =>
          ({ a.emit (Event.pktmbuf_free m) with ack_mbufpool := a.ack_mbufpool + 1 } : State))
        a).dp_vs_conn_count = a.dp_vs_conn_count
      ∧ (l.foldl (fun (a : State) m =>
          ({ a.emit (Event.pktmbuf_free m) with ack_mbufpool := a.ack_mbufpool + 1 } : State))
        a).dp_vs_conn_rnd = a.dp_vs_conn_rnd
      ∧ (l.foldl (fun (a : State) m =>
          ({ a.emit (Event.pktmbuf_free m) with ack_mbufpool := a.ack_mbufpool + 1 } : State))
        a).conn_cache = a.conn_cache
      ∧ ∀ e, e ∈ a.log → e ∈ (l.foldl (fun (a : State) m =>
          ({ a.emit (Event.pktmbuf_free m) with ack_mbufpool := a.ack_mbufpool + 1 } : State))
        a).log := by
  induction l with
  | nil => intro a; exact ⟨rfl, rfl, rfl, rfl, rfl, rfl, rfl, fun e he => he⟩
  | cons m ms ih =>
    intro a
    simp only [List.foldl_cons]
    obtain ⟨h1, h2, h3, h4, h5, h6, h7, h8⟩ :=
      ih ({ a.emit (Event.pktmbuf_free m) with ack_mbufpool := a.ack_mbufpool + 1 } : State)
    exact ⟨h1, h2, h3, h4, h5, h6, h7, fun e he => h8 e (List.mem_cons_of_mem _ he)⟩

theorem conn_expire_drain_acks_frame (s : State) (cid : Nat) :
    (conn_expire_drain_acks s cid).conns cid = { s.conns cid with ack_mbuf := [] }
    ∧ (∀ j, j ≠ cid → (conn_expire_drain_acks s cid).conns j = s.conns j)
    ∧ (conn_expire_drain_acks s cid).dests = s.dests
    ∧ (conn_expire_drain_acks s cid).dp_vs_conn_tab = s.dp_vs_conn_tab
    ∧ (conn_expire_drain_acks s cid).dp_vs_ct_tab = s.dp_vs_ct_tab
    ∧ (conn_expire_drain_acks s cid).dp_vs_conn_count = s.dp_vs_conn_count
    ∧ (conn_expire_drain_acks s cid).dp_vs_conn_rnd = s.dp_vs_conn_rnd
    ∧ (conn_expire_drain_acks s cid).conn_cache = s.conn_cache
    ∧ ∀ e, e ∈ s.log → e ∈ (conn_expire_drain_acks s cid).log := by
  obtain ⟨h1, h2, h3, h4, h5, h6, h7, h8⟩ := drain_acks_fold_frame (s.conns cid).ack_mbuf s
  unfold conn_expire_drain_acks
  dsimp only
  refine ⟨?_, ?_, ?_, ?_, ?_, ?_, ?_, ?_, ?_⟩
  · rw [setConn_conns_same, h1]
  · intro j hj
    rw [setConn_conns_other _ _ _ _ hj, h1]
  · simp only [setConn_frame, h2]
  · simp only [setConn_frame, h3]
  · simp only [setConn_frame, h4]
  · simp only [setConn_frame, h5]
  · simp only [setConn_frame, h6]
  · simp only [setConn_frame, h7]
  · simp only [setConn_frame]
    exact h8

theorem conn_expire_terminal_tail_frame (s : State) (cid : Nat) :
    (conn_expire_terminal_tail s cid).conns cid
        = { s.conns cid with ack_mbuf := [], ack_num := 0, refcnt := (s.conns cid).refcnt - 1 }
    ∧ (∀ j, j ≠ cid → (conn_expire_terminal_tail s cid).conns j = s.conns j)
    ∧ (conn_expire_terminal_tail s cid).dests = s.dests
    ∧ (conn_expire_terminal_tail s cid).dp_vs_conn_tab = s.dp_vs_conn_tab
    ∧ (conn_expire_terminal_tail s cid).dp_vs_ct_tab = s.dp_vs_ct_tab
    ∧ (conn_expire_terminal_tail s cid).dp_vs_conn_count = s.dp_vs_conn_count - 1
    ∧ (conn_expire_terminal_tail s cid).dp_vs_conn_rnd = s.dp_vs_conn_rnd
    ∧ (conn_expire_terminal_tail s cid).conn_cache = cid :: s.conn_cache
    ∧ ∀ e, e ∈ s.log → e ∈ (conn_expire_terminal_tail s cid).log := by
  obtain ⟨h1, h2, h3, h4, h5, h6, h7, h8, h9⟩ :=
    conn_expire_drain_acks_frame (s.emit (Event.laddr_unbind cid)) cid
  unfold conn_expire_terminal_tail
  dsimp only
  generalize conn_expire_drain_acks (s.emit (Event.laddr_unbind cid)) cid = s6 at h1 h2 h3 h4 h5 h6 h7 h8 h9 ⊢
  split
  · simp only [conn_refcnt_dec, setConn_conns_same, setConn_frame, emit_frame]
    refine ⟨?_, ?_, h3, h4, h5, ?_, h7, ?_, ?_⟩
    · rw [h1]
      rfl
    · intro j hj
      rw [setConn_conns_other _ _ _ _ hj]
      simp only [emit_frame]
      rw [setConn_conns_other _ _ _ _ hj, h2 j hj]
      rfl
    · rw [h6]
      rfl
    · rw [h8]
      rfl
    · intro e he
      simp only [State.emit, setConn_frame, List.mem_cons]
      right
      exact h9 e (List.mem_cons_of_mem _ he)
  · simp only [conn_refcnt_dec, setConn_conns_same, setConn_frame]
    refine ⟨?_, ?_, h3, h4, h5, ?_, h7, ?_, ?_⟩
    · rw [h1]
      rfl
    · intro j hj
      rw [setConn_conns_other _ _ _ _ hj, setConn_conns_other _ _ _ _ hj, h2 j hj]
      rfl
    · rw [h6]
      rfl
    · rw [h8]
      rfl
    · intro e he
      exact h9 e (List.mem_cons_of_mem _ he)
/-- The terminal branch of `conn_expire` returns exactly when the flow has a
destination. -/
theorem conn_expire_terminal_dest (env : Env) (t : State) (cid : Nat) (s' : State)
    (h : conn_expire_terminal env t cid = some s') :
    ∃ did, (t.conns cid).dest = some did := by
  rw [conn_expire_terminal_eq] at h
  obtain ⟨c, n, hc⟩ := conn_expire_terminal_head_conns env t cid cid
  cases hd : (t.conns cid).dest with
  | some did => exact ⟨did, rfl⟩
  | none =>
    have : ((conn_expire_terminal_head env t cid).conns cid).dest = none := by
      rw [hc]
      exact hd
    rw [this] at h
    exact Option.noConfusion h

/-- The terminal branch of `conn_expire` for a flow bound to `did`. -/
theorem conn_expire_terminal_some (env : Env) (t : State) (cid did : Nat)
    (hd : (t.conns cid).dest = some did) :
    ∃ s', conn_expire_terminal env t cid = some s'
      ∧ (∃ c n, s'.conns cid
          = { t.conns cid with
              control := c, n_control := n, dest := none, ack_mbuf := [], ack_num := 0,
              refcnt := (t.conns cid).refcnt - 1 })
      ∧ (∀ j, j ≠ cid → ∃ c n, s'.conns j = { t.conns j with control := c, n_control := n })
      ∧ (s'.dests did).counters
          = ((t.dests did).refcnt - 1,
              (t.dests did).actconns
                - (if (t.conns cid).flags.template = false ∧ (t.conns cid).flags.inactive = false
                    then 1 else 0),
              (t.dests did).inactconns
                - (if (t.conns cid).flags.template = false ∧ (t.conns cid).flags.inactive = true
                    then 1 else 0),
              (t.dests did).persistconns - (if (t.conns cid).flags.template = true then 1 else 0))
      ∧ (∀ j, j ≠ did → s'.dests j = t.dests j)
      ∧ s'.dp_vs_conn_tab = t.dp_vs_conn_tab
      ∧ s'.dp_vs_ct_tab = t.dp_vs_ct_tab
      ∧ s'.dp_vs_conn_count = t.dp_vs_conn_count - 1
      ∧ s'.dp_vs_conn_rnd = t.dp_vs_conn_rnd
      ∧ s'.conn_cache = cid :: t.conn_cache
      ∧ Event.timer_cancel cid (t.conns cid).flags.template ∈ s'.log
      ∧ (∀ e, e ∈ t.log → e ∈ s'.log) := by
  rw [conn_expire_terminal_eq]
  obtain ⟨a1, a2, a3, a4, a5, a6, _⟩ := conn_expire_terminal_head_frame env t cid
  obtain ⟨l1, l2⟩ := conn_expire_terminal_head_log env t cid
  have hc := conn_expire_terminal_head_conns env t cid
  generalize conn_expire_terminal_head env t cid = th at a1 a2 a3 a4 a5 a6 l1 l2 hc ⊢
  obtain ⟨c0, n0, hcid⟩ := hc cid
  have hd1 : (th.conns cid).dest = some did := by rw [hcid]; exact hd
  have hf1 : (th.conns cid).flags = (t.conns cid).flags := by rw [hcid]
  rw [hd1]
  dsimp only
  obtain ⟨b0, b1, b2, b3, b4, b5, b6, b7, b8⟩ := conn_expire_terminal_sa_frame th cid did
  generalize conn_expire_terminal_sa th cid did = ts at b0 b1 b2 b3 b4 b5 b6 b7 b8 ⊢
  have hd2 : (ts.conns cid).dest = some did := by rw [b0]; exact hd1
  obtain ⟨u, hu, u1, u2, u3, u4, u5, u6, u7, u8, _, u10⟩ := conn_unbind_dest_frame ts cid did hd2
  obtain ⟨u', hu', ucnt, _⟩ := conn_unbind_dest_counters ts cid did hd2
  have huu : u' = u := by
    have := hu'.symm.trans hu
    simp only [Option.some.injEq, Prod.mk.injEq, true_and] at this
    exact this
  subst huu
  rw [hu]
  dsimp only
  obtain ⟨f1, f2, f3, f4, f5, f6, f7, f8, f9⟩ := conn_expire_terminal_tail_frame u' cid
  refine ⟨_, rfl, ⟨c0, n0, ?_⟩, ?_, ?_, ?_, ?_, ?_, ?_, ?_, ?_, ?_, ?_⟩
  · rw [f1, u1, b0, hcid]
  · intro j hj
    obtain ⟨c, n, hj'⟩ := hc j
    exact ⟨c, n, by rw [f2 j hj, u2 j hj, b0, hj']⟩
  · rw [f3, ucnt, b0, b1, hf1, a1]
  · intro j hj
    rw [f3, u3 j hj, b1, a1]
  · rw [f4, u4, b2, a2]
  · rw [f5, u5, b3, a3]
  · rw [f6, u6, b4, a4]
  · rw [f7, u7, b5, a5]
  · rw [f8, u8, b6, a6]
  · apply f9
    rw [u10]
    exact b8 _ l1
  · intro e he
    apply f9
    rw [u10]
    exact b8 _ (l2 e he)
/-- With no controlled flow, `HASHED` set and a count that reads 2, the unhash
succeeds and the callback enters its terminal branch. -/
theorem conn_expire_rest_terminal (env : Env) (s2 : State) (cid : Nat)
    (hn : (s2.conns cid).n_control = 0) (hh : (s2.conns cid).flags.hashed = true)
    (h2 : (s2.conns cid).refcnt = 2) :
    conn_expire_rest env s2 cid = conn_expire_terminal env (conn_unhash s2 cid).2 cid := by
  have hr := conn_unhash_refcnt s2 cid
  rw [if_pos ⟨hh, h2⟩] at hr
  unfold conn_expire_rest
  simp only [hn, ne_eq, not_true_eq_false, if_false, hr, if_true]

/-! ## Facts about the SYN retransmit phase -/

theorem conn_expire_retransmit_state (env : Env) (s : State) (cid : Nat) (syn : Mbuf) :
    (conn_expire_retransmit env s cid syn).conns = s.conns
    ∧ (conn_expire_retransmit env s cid syn).dests = s.dests
    ∧ (conn_expire_retransmit env s cid syn).dp_vs_conn_tab = s.dp_vs_conn_tab
    ∧ (conn_expire_retransmit env s cid syn).dp_vs_ct_tab = s.dp_vs_ct_tab
    ∧ (conn_expire_retransmit env s cid syn).dp_vs_conn_count = s.dp_vs_conn_count
    ∧ (conn_expire_retransmit env s cid syn).dp_vs_conn_rnd = s.dp_vs_conn_rnd
    ∧ (conn_expire_retransmit env s cid syn).conn_cache = s.conn_cache
    ∧ syn_clones_sent (conn_expire_retransmit env s cid syn) cid
        = syn_clones_sent s cid
          + (if ((s.conns cid).packet_xmit.isSome && env.mbuf_pool (s.conns cid)
                && env.pktmbuf_clone syn) = true then 1 else 0) := by
  unfold conn_expire_retransmit
  cases hx : (s.conns cid).packet_xmit with
  | none => exact ⟨rfl, rfl, rfl, rfl, rfl, rfl, rfl, rfl⟩
  | some f =>
    cases hp : env.mbuf_pool (s.conns cid) with
    | false => exact ⟨rfl, rfl, rfl, rfl, rfl, rfl, rfl, rfl⟩
    | true =>
      cases hc : env.pktmbuf_clone syn with
      | false => exact ⟨rfl, rfl, rfl, rfl, rfl, rfl, rfl, rfl⟩
      | true =>
        refine ⟨rfl, rfl, rfl, rfl, rfl, rfl, rfl, ?_⟩
        simp only [Bool.not_true, Bool.false_eq_true, if_false, syn_clones_sent, State.emit,
          Option.isSome_some, Bool.and_self, if_true]
        rw [List.countP_cons_of_pos]
        simp only [Event.is_xmit_of, beq_self_eq_true]

/-- One firing in the retransmit phase: the budget goes down by one, the
reference taken on entry is given back, and one clone is sent when it can be. -/
theorem conn_expire_retransmit_step (env : Env) (s : State) (cid : Nat) (syn : Mbuf)
    (hs : (s.conns cid).syn_mbuf = some syn) (hr : (s.conns cid).syn_retry_max > 0) :
    ∃ s', conn_expire env s cid = some s'
      ∧ (s'.conns cid).syn_retry_max = (s.conns cid).syn_retry_max - 1
      ∧ (s'.conns cid).syn_mbuf = (s.conns cid).syn_mbuf
      ∧ (s'.conns cid).refcnt = (s.conns cid).refcnt
      ∧ (s'.conns cid).flags = (s.conns cid).flags
      ∧ (s'.conns cid).packet_xmit = (s.conns cid).packet_xmit
      ∧ s'.dp_vs_conn_tab = s.dp_vs_conn_tab
      ∧ s'.dp_vs_ct_tab = s.dp_vs_ct_tab
      ∧ s'.dp_vs_conn_count = s.dp_vs_conn_count
      ∧ s'.conn_cache = s.conn_cache
      ∧ syn_clones_sent s' cid
          = syn_clones_sent s cid + (if conn_expire_can_clone env s cid syn = true then 1 else 0) := by
  have hc := conn_expire_entry_conn env s cid
  have e1 : ((conn_expire_entry env s cid).conns cid).syn_mbuf = some syn := by
    rw [hc]; exact hs
  have e2 : ((conn_expire_entry env s cid).conns cid).syn_retry_max > 0 := by
    rw [hc]; exact hr
  obtain ⟨r1, r2, r3, r4, r5, r6, r7, r8⟩ :=
    conn_expire_retransmit_state env (conn_expire_entry env s cid) cid syn
  obtain ⟨_, f2, f3, f4, _, f6, _, f8⟩ := conn_expire_entry_frame env s cid
  rw [conn_expire_eq, e1]
  dsimp only
  rw [if_pos e2]
  generalize conn_expire_retransmit env (conn_expire_entry env s cid) cid syn
    = t at r1 r2 r3 r4 r5 r6 r7 r8 ⊢
  refine ⟨_, rfl, ?_, ?_, ?_, ?_, ?_, ?_, ?_, ?_, ?_, ?_⟩
  · simp only [dp_vs_conn_put, conn_refcnt_dec, setConn_conns_same, emit_frame, apply_ite,
      ite_self, r1, hc]
  · simp only [dp_vs_conn_put, conn_refcnt_dec, setConn_conns_same, emit_frame, apply_ite,
      ite_self, r1, hc]
  · simp only [dp_vs_conn_put, conn_refcnt_dec, setConn_conns_same, emit_frame, apply_ite,
      ite_self, r1, hc]
    omega
  · simp only [dp_vs_conn_put, conn_refcnt_dec, setConn_conns_same, emit_frame, apply_ite,
      ite_self, r1, hc]
  · simp only [dp_vs_conn_put, conn_refcnt_dec, setConn_conns_same, emit_frame, apply_ite,
      ite_self, r1, hc]
  · simp only [dp_vs_conn_put, conn_refcnt_dec_frame, emit_frame, apply_ite, ite_self,
      setConn_frame, r3, f2]
  · simp only [dp_vs_conn_put, conn_refcnt_dec_frame, emit_frame, apply_ite, ite_self,
      setConn_frame, r4, f3]
  · simp only [dp_vs_conn_put, conn_refcnt_dec_frame, emit_frame, apply_ite, ite_self,
      setConn_frame, r5, f4]
  · simp only [dp_vs_conn_put, conn_refcnt_dec_frame, emit_frame, apply_ite, ite_self,
      setConn_frame, r7, f6]
  · have hlog : syn_clones_sent t cid
        = syn_clones_sent s cid
          + (if conn_expire_can_clone env s cid syn = true then 1 else 0) := by
      rw [r8]
      rfl
    rw [← hlog]
    unfold dp_vs_conn_put
    dsimp only
    split_ifs <;>
      simp only [syn_clones_sent, conn_refcnt_dec, setConn_frame, State.emit,
        List.countP_cons, Event.is_xmit_of, Bool.false_eq_true, if_false, add_zero]
/-- A flow with a transmitter, in an environment where the pool lookup and the
clone never fail, gets its clone out. -/
theorem conn_expire_can_clone_of (env : Env) (s : State) (cid : Nat) (syn : Mbuf)
    (hx : (s.conns cid).packet_xmit ≠ none) (hp : ∀ c, env.mbuf_pool c = true)
    (hc : env.pktmbuf_clone syn = true) :
    conn_expire_can_clone env s cid syn = true := by
  unfold conn_expire_can_clone
  rw [hp, hc, conn_expire_entry_conn]
  cases h : (s.conns cid).packet_xmit with
  | none => exact absurd h hx
  | some f => rfl

/-- The first `k` firings of a flow with a saved SYN and at least `k`
retransmits left. -/
theorem conn_expire_times_retransmit (env : Env) (cid : Nat) (syn : Mbuf) :
    ∀ (k : Nat) (s : State), (s.conns cid).syn_mbuf = some syn →
      (s.conns cid).syn_retry_max ≥ k →
      ∃ sk, conn_expire_times env cid k s = some sk
        ∧ (sk.conns cid).syn_retry_max = (s.conns cid).syn_retry_max - k
        ∧ (sk.conns cid).syn_mbuf = some syn
        ∧ (sk.conns cid).refcnt = (s.conns cid).refcnt
        ∧ (sk.conns cid).flags = (s.conns cid).flags
        ∧ (sk.conns cid).packet_xmit = (s.conns cid).packet_xmit
        ∧ sk.dp_vs_conn_tab = s.dp_vs_conn_tab
        ∧ sk.dp_vs_ct_tab = s.dp_vs_ct_tab
        ∧ sk.dp_vs_conn_count = s.dp_vs_conn_count
        ∧ sk.conn_cache = s.conn_cache
        ∧ syn_clones_sent sk cid ≤ syn_clones_sent s cid + k
        ∧ ((s.conns cid).packet_xmit ≠ none → (∀ c, env.mbuf_pool c = true) →
            env.pktmbuf_clone syn = true →
            syn_clones_sent sk cid = syn_clones_sent s cid + k) := by
  intro k
  induction k with
  | zero =>
    intro s hs _
    refine ⟨s, rfl, ?_, hs, rfl, rfl, rfl, rfl, rfl, rfl, rfl, le_refl _, fun _ _ _ => rfl⟩
    simp only [Nat.cast_zero, sub_zero]
  | succ k ih =>
    intro s hs hr
    have hpos : (s.conns cid).syn_retry_max > 0 := by
      have : ((k + 1 : Nat) : Int) > 0 := by omega
      omega
    obtain ⟨s1, h1, a1, a2, a3, a4, a5, a6, a7, a8, a9, a10⟩ :=
      conn_expire_retransmit_step env s cid syn hs hpos
    have hs1 : (s1.conns cid).syn_mbuf = some syn := by rw [a2]; exact hs
    have hr1 : (s1.conns cid).syn_retry_max ≥ k := by
      rw [a1]
      have : ((k + 1 : Nat) : Int) = (k : Int) + 1 := by push_cast; rfl
      omega
    obtain ⟨sk, g0, g1, g2, g3, g4, g5, g6, g7, g8, g9, g10, g11⟩ := ih s1 hs1 hr1
    refine ⟨sk, ?_, ?_, g2, ?_, ?_, ?_, ?_, ?_, ?_, ?_, ?_, ?_⟩
    · simp only [conn_expire_times, h1]
      exact g0
    · rw [g1, a1]
      push_cast
      omega
    · rw [g3, a3]
    · rw [g4, a4]
    · rw [g5, a5]
    · rw [g6, a6]
    · rw [g7, a7]
    · rw [g8, a8]
    · rw [g9, a9]
    · rw [a10] at g10
      split_ifs at g10 <;> omega
    · intro hx hp hc
      have hx1 : (s1.conns cid).packet_xmit ≠ none := by rw [a5]; exact hx
      rw [g11 hx1 hp hc, a10, conn_expire_can_clone_of env s cid syn hx hp hc]
      simp only [if_true]
      omega

/-! ## Views of the primitives -/

theorem IndexView.setIdx_self (v : IndexView) (c : Nat) : v.setIdx c (v.idx c) = v := by
  unfold IndexView.setIdx
  have : (fun i => if i = c then v.idx c else v.idx i) = v.idx := by
    funext i
    by_cases h : i = c
    · rw [if_pos h, h]
    · rw [if_neg h]
  rw [this]

theorem IndexView.setIdx_setIdx (v : IndexView) (c : Nat) (x y : ConnIndex) :
    (v.setIdx c x).setIdx c y = v.setIdx c y := by
  unfold IndexView.setIdx
  have : (fun i => if i = c then y else (fun i => if i = c then x else v.idx i) i)
      = (fun i => if i = c then y else v.idx i) := by
    funext i
    by_cases h : i = c
    · simp only [if_pos h]
    · simp only [if_neg h]
  simp only [this]

theorem IndexView.setIdx_idx_same (v : IndexView) (c : Nat) (x : ConnIndex) :
    (v.setIdx c x).idx c = x := by
  simp only [IndexView.setIdx, if_true]

theorem IndexView.setIdx_idx_other (v : IndexView) (c j : Nat) (x : ConnIndex) (h : j ≠ c) :
    (v.setIdx c x).idx j = v.idx j := by
  simp only [IndexView.setIdx, if_neg h]

theorem IndexView.ref_ref (v : IndexView) (c : Nat) (a b : Int) :
    (v.ref c a).ref c b = v.ref c (a + b) := by
  unfold IndexView.ref
  rw [IndexView.setIdx_idx_same, IndexView.setIdx_setIdx]
  simp only [add_assoc]

theorem IndexView.ref_zero (v : IndexView) (c : Nat) : v.ref c 0 = v := by
  unfold IndexView.ref
  simp only [add_zero]
  exact IndexView.setIdx_self v c

theorem view_setConn (s : State) (c : Nat) (x : DpVsConn) :
    (s.setConn c x).view = s.view.setIdx c x.index := by
  unfold State.view State.setConn IndexView.setIdx
  have : (fun i => (if i = c then x else s.conns i).index)
      = (fun i => if i = c then x.index else (s.conns i).index) := by
    funext i
    by_cases h : i = c
    · simp only [if_pos h]
    · simp only [if_neg h]
  simp only [this]

theorem view_setConn_same (s : State) (c : Nat) (x : DpVsConn)
    (h : x.index = (s.conns c).index) : (s.setConn c x).view = s.view := by
  rw [view_setConn, h]
  exact IndexView.setIdx_self s.view c

theorem view_emit (s : State) (e : Event) : (s.emit e).view = s.view := rfl

theorem view_setDest (s : State) (d : Nat) (x : DpVsDest) : (s.setDest d x).view = s.view := rfl

theorem view_conn_refcnt_inc (s : State) (c : Nat) :
    (conn_refcnt_inc s c).view = s.view.ref c 1 := by
  unfold conn_refcnt_inc
  rw [view_setConn]
  rfl

theorem view_conn_refcnt_dec (s : State) (c : Nat) :
    (conn_refcnt_dec s c).view = s.view.ref c (-1) := by
  unfold conn_refcnt_dec
  rw [view_setConn]
  rfl

theorem view_conn_hash (env : Env) (s : State) (c : Nat) :
    (conn_hash env s c).2.view = s.view.hash env c := by
  unfold conn_hash __conn_hash IndexView.hash
  cases hh : (s.conns c).flags.hashed with
  | true =>
    have : (s.view.idx c).hashed = true := hh
    simp only [this, hh, if_true]
  | false =>
    have h1 : (s.view.idx c).hashed = false := hh
    simp only [h1, hh, Bool.false_eq_true, if_false]
    cases ht : (s.conns c).flags.template with
    | true =>
      have h2 : (s.view.idx c).template = true := ht
      simp only [h2, if_true]
      rw [view_conn_refcnt_inc, view_setConn]
      unfold IndexView.ref
      rw [IndexView.setIdx_idx_same, IndexView.setIdx_setIdx]
      rfl
    | false =>
      have h2 : (s.view.idx c).template = false := ht
      simp only [h2, Bool.false_eq_true, if_false]
      rw [view_conn_refcnt_inc, view_setConn]
      unfold IndexView.ref
      rw [IndexView.setIdx_idx_same, IndexView.setIdx_setIdx]
      rfl

theorem view_conn_unhash (s : State) (c : Nat) :
    (conn_unhash s c).2.view = s.view.unhash c := by
  unfold conn_unhash IndexView.unhash
  cases hh : (s.conns c).flags.hashed with
  | false =>
    have h1 : (s.view.idx c).hashed = false := hh
    simp only [h1, hh, Bool.false_eq_true, if_false, false_and]
  | true =>
    have h1 : (s.view.idx c).hashed = true := hh
    by_cases hr : (s.conns c).refcnt = 2
    · have h2 : (s.view.idx c).refcnt = 2 := hr
      simp only [h1, h2, hh, if_true, hr, ne_eq, not_true_eq_false, if_false, and_self]
      rw [view_conn_refcnt_dec, view_setConn]
      unfold IndexView.ref
      rw [IndexView.setIdx_idx_same, IndexView.setIdx_setIdx]
      rfl
    · have h2 : ¬ (s.view.idx c).refcnt = 2 := hr
      simp only [h1, h2, hh, if_true, hr, ne_eq, not_false_eq_true, and_false, if_false]
/-! ## The index invariant is kept by every effect on a view -/

theorem mem_list_del (tab : Nat → List Node) (n : Node) (i : Nat) (m : Node) :
    m ∈ list_del tab n i ↔ m ∈ tab i ∧ m ≠ n := by
  unfold list_del
  simp only [List.mem_filter, Bool.not_eq_true', beq_eq_false_iff_ne, ne_eq]

/-- The invariant for a record reads only its flags, its tuples, the seed and
the membership of its own nodes. -/
theorem IndexView.indexed_at_congr (env : Env) (v v' : IndexView) (c : Nat)
    (hh : (v'.idx c).hashed = (v.idx c).hashed)
    (ht : (v'.idx c).template = (v.idx c).template)
    (hi : (v'.idx c).tuplehash_in = (v.idx c).tuplehash_in)
    (ho : (v'.idx c).tuplehash_out = (v.idx c).tuplehash_out)
    (hr : v'.rnd = v.rnd)
    (h1 : ∀ h d, (⟨c, d⟩ : Node) ∈ v'.conn_tab h ↔ (⟨c, d⟩ : Node) ∈ v.conn_tab h)
    (h2 : ∀ h d, (⟨c, d⟩ : Node) ∈ v'.ct_tab h ↔ (⟨c, d⟩ : Node) ∈ v.ct_tab h)
    (h : v.indexed_at env c) : v'.indexed_at env c := by
  have hih : v'.ihash env c = v.ihash env c := by
    unfold IndexView.ihash
    rw [hi, hr]
  have hoh : v'.ohash env c = v.ohash env c := by
    unfold IndexView.ohash
    rw [ho, hr]
  have htab : ∀ (b : Bool) h d, (⟨c, d⟩ : Node) ∈ v'.tab b h ↔ (⟨c, d⟩ : Node) ∈ v.tab b h := by
    intro b h d
    cases b
    · exact h1 h d
    · exact h2 h d
  obtain ⟨a1, a2, a3⟩ := h
  refine ⟨fun h => ?_, fun h => ?_, fun h d => ?_⟩
  · rw [ht, htab, hh, hih]
    exact a1 h
  · rw [ht, htab, hh, hoh]
    exact a2 h
  · rw [ht, htab]
    exact a3 h d

theorem IndexView.indexed_setIdx (env : Env) (v : IndexView) (c : Nat) (x : ConnIndex)
    (hh : x.hashed = (v.idx c).hashed) (ht : x.template = (v.idx c).template)
    (hi : x.tuplehash_in = (v.idx c).tuplehash_in)
    (ho : x.tuplehash_out = (v.idx c).tuplehash_out)
    (h : v.indexed env) : (v.setIdx c x).indexed env := by
  intro j
  by_cases hj : j = c
  · subst hj
    refine IndexView.indexed_at_congr env v _ j ?_ ?_ ?_ ?_ rfl (fun _ _ => Iff.rfl)
      (fun _ _ => Iff.rfl) (h j)
    · rw [IndexView.setIdx_idx_same]; exact hh
    · rw [IndexView.setIdx_idx_same]; exact ht
    · rw [IndexView.setIdx_idx_same]; exact hi
    · rw [IndexView.setIdx_idx_same]; exact ho
  · refine IndexView.indexed_at_congr env v _ j ?_ ?_ ?_ ?_ rfl (fun _ _ => Iff.rfl)
      (fun _ _ => Iff.rfl) (h j)
    · rw [IndexView.setIdx_idx_other _ _ _ _ hj]
    · rw [IndexView.setIdx_idx_other _ _ _ _ hj]
    · rw [IndexView.setIdx_idx_other _ _ _ _ hj]
    · rw [IndexView.setIdx_idx_other _ _ _ _ hj]

theorem IndexView.indexed_ref (env : Env) (v : IndexView) (c : Nat) (d : Int)
    (h : v.indexed env) : (v.ref c d).indexed env :=
  IndexView.indexed_setIdx env v c _ rfl rfl rfl rfl h

theorem IndexView.indexed_free (env : Env) (v : IndexView) (c : Nat)
    (h : v.indexed env) : (v.free c).indexed env := by
  intro j
  exact IndexView.indexed_at_congr env (v.ref c (-1)) _ j rfl rfl rfl rfl rfl
    (fun _ _ => Iff.rfl) (fun _ _ => Iff.rfl) (IndexView.indexed_ref env v c (-1) h j)

theorem IndexView.indexed_unhash (env : Env) (v : IndexView) (c : Nat)
    (h : v.indexed env) : (v.unhash c).indexed env := by
  unfold IndexView.unhash
  split_ifs with hc
  · intro j
    by_cases hj : j = c
    · subst hj
      have hn : ∀ (b : Bool) h d, (⟨j, d⟩ : Node)
          ∉ (({ v with
                conn_tab := list_del (list_del v.conn_tab ⟨j, Dir.INBOUND⟩) ⟨j, Dir.OUTBOUND⟩,
                ct_tab := list_del (list_del v.ct_tab ⟨j, Dir.INBOUND⟩) ⟨j, Dir.OUTBOUND⟩ }
              : IndexView).setIdx j
                { v.idx j with hashed := false, refcnt := (v.idx j).refcnt - 1 }).tab b h := by
        intro b h d hmem
        cases b <;> cases d <;>
          simp only [IndexView.tab, IndexView.setIdx, Bool.false_eq_true, if_false, if_true,
            mem_list_del, ne_eq, not_true_eq_false, and_false, false_and] at hmem
      refine ⟨fun h => ⟨fun hm => absurd hm (hn _ h _), fun hm => ?_⟩,
        fun h => ⟨fun hm => absurd hm (hn _ h _), fun hm => ?_⟩, fun h d => hn _ h d⟩
      · rw [IndexView.setIdx_idx_same] at hm
        exact Bool.noConfusion hm.1
      · rw [IndexView.setIdx_idx_same] at hm
        exact Bool.noConfusion hm.1
    · refine IndexView.indexed_at_congr env v _ j ?_ ?_ ?_ ?_ rfl ?_ ?_ (h j)
      · rw [IndexView.setIdx_idx_other _ _ _ _ hj]
      · rw [IndexView.setIdx_idx_other _ _ _ _ hj]
      · rw [IndexView.setIdx_idx_other _ _ _ _ hj]
      · rw [IndexView.setIdx_idx_other _ _ _ _ hj]
      · intro h d
        simp only [IndexView.setIdx, mem_list_del, ne_eq, Node.mk.injEq, hj, false_and,
          not_false_eq_true, and_true]
      · intro h d
        simp only [IndexView.setIdx, mem_list_del, ne_eq, Node.mk.injEq, hj, false_and,
          not_false_eq_true, and_true]
  · exact h
theorem IndexView.indexed_hash (env : Env) (v : IndexView) (c : Nat)
    (h : v.indexed env) : (v.hash env c).indexed env := by
  unfold IndexView.hash
  cases hh : (v.idx c).hashed with
  | true =>
    simp only [if_true]
    exact h
  | false =>
    simp only [Bool.false_eq_true, if_false]
    obtain ⟨a1, a2, a3⟩ := h c
    have nin : ∀ h, (⟨c, Dir.INBOUND⟩ : Node) ∉ v.tab (v.idx c).template h := by
      intro h hm
      have := ((a1 h).mp hm).1
      rw [hh] at this
      exact Bool.noConfusion this
    have nout : ∀ h, (⟨c, Dir.OUTBOUND⟩ : Node) ∉ v.tab (v.idx c).template h := by
      intro h hm
      have := ((a2 h).mp hm).1
      rw [hh] at this
      exact Bool.noConfusion this
    intro j
    by_cases hj : j = c
    · subst hj
      cases ht : (v.idx j).template with
      | true =>
        rw [ht] at nin nout a3
        simp only [IndexView.tab, if_true, Bool.not_true, Bool.false_eq_true, if_false]
          at nin nout a3
        refine ⟨fun h => ?_, fun h => ?_, fun h d => ?_⟩
        · simp only [IndexView.setIdx_idx_same, ht, IndexView.tab, if_true, IndexView.setIdx,
            mem_list_add, Node.mk.injEq, reduceCtorEq, and_false, and_true, true_and, false_or,
            nin h, or_false]
          simp only [IndexView.ihash, IndexView.ohash, eq_self_iff_true, if_true]
        · simp only [IndexView.setIdx_idx_same, ht, IndexView.tab, if_true, IndexView.setIdx,
            mem_list_add, Node.mk.injEq, reduceCtorEq, and_false, and_true, true_and, false_or,
            nout h, or_false]
          simp only [IndexView.ihash, IndexView.ohash, eq_self_iff_true, if_true]
        · simp only [IndexView.setIdx_idx_same, ht, IndexView.tab, if_true, IndexView.setIdx,
            Bool.not_true, Bool.false_eq_true, if_false]
          exact a3 h d
      | false =>
        rw [ht] at nin nout a3
        simp only [IndexView.tab, if_true, Bool.not_false, Bool.false_eq_true, if_false]
          at nin nout a3
        refine ⟨fun h => ?_, fun h => ?_, fun h d => ?_⟩
        · simp only [IndexView.setIdx_idx_same, ht, IndexView.tab, if_true, IndexView.setIdx,
            mem_list_add, Node.mk.injEq, reduceCtorEq, and_false, and_true, true_and, false_or,
            nin h, or_false, Bool.false_eq_true, if_false]
          simp only [IndexView.ihash, IndexView.ohash, eq_self_iff_true, if_true]
        · simp only [IndexView.setIdx_idx_same, ht, IndexView.tab, if_true, IndexView.setIdx,
            mem_list_add, Node.mk.injEq, reduceCtorEq, and_false, and_true, true_and, false_or,
            nout h, or_false, Bool.false_eq_true, if_false]
          simp only [IndexView.ihash, IndexView.ohash, eq_self_iff_true, if_true]
        · simp only [IndexView.setIdx_idx_same, ht, IndexView.tab, if_true, IndexView.setIdx,
            Bool.not_false, Bool.false_eq_true, if_false]
          exact a3 h d
    · refine IndexView.indexed_at_congr env v _ j ?_ ?_ ?_ ?_ ?_ ?_ ?_ (h j)
      · rw [IndexView.setIdx_idx_other _ _ _ _ hj]
        split_ifs <;> rfl
      · rw [IndexView.setIdx_idx_other _ _ _ _ hj]
        split_ifs <;> rfl
      · rw [IndexView.setIdx_idx_other _ _ _ _ hj]
        split_ifs <;> rfl
      · rw [IndexView.setIdx_idx_other _ _ _ _ hj]
        split_ifs <;> rfl
      · split_ifs <;> rfl
      · intro h d
        split_ifs <;>
          simp only [IndexView.setIdx, mem_list_add, Node.mk.injEq, hj, false_and, and_false,
            false_or]
      · intro h d
        split_ifs <;>
          simp only [IndexView.setIdx, mem_list_add, Node.mk.injEq, hj, false_and, and_false,
            false_or]
/-! ## Views of the operations -/

theorem IndexView.ext_fields (v v' : IndexView) (h1 : v.idx = v'.idx) (h2 : v.rnd = v'.rnd)
    (h3 : v.conn_tab = v'.conn_tab) (h4 : v.ct_tab = v'.ct_tab) (h5 : v.cache = v'.cache) :
    v = v' := by
  cases v
  cases v'
  simp only at h1 h2 h3 h4 h5
  simp only [h1, h2, h3, h4, h5]

theorem view_dp_vs_conn_put (s : State) (c : Nat) :
    (dp_vs_conn_put s c).view = s.view.ref c (-1) := by
  unfold dp_vs_conn_put
  dsimp only
  rw [view_conn_refcnt_dec]
  split_ifs <;> rfl

theorem view_dp_vs_conn_put_no_reset (s : State) (c : Nat) :
    (dp_vs_conn_put_no_reset s c).view = s.view.ref c (-1) :=
  view_conn_refcnt_dec s c

/-- A lookup either misses and changes nothing, or hits a node linked in the
per-lcore table and takes one reference to its owner. -/
theorem dp_vs_conn_get_cases (env : Env) (s : State) (af : Int)
    (proto saddr daddr sport dport : Nat) (reverse : Bool) :
    ((dp_vs_conn_get env s af proto saddr daddr sport dport reverse).1 = none
      ∧ (dp_vs_conn_get env s af proto saddr daddr sport dport reverse).2 = s)
    ∨ ∃ n h, n ∈ s.dp_vs_conn_tab h
        ∧ (dp_vs_conn_get env s af proto saddr daddr sport dport reverse).1
            = some (n.conn, (s.tuple n).direct)
        ∧ (dp_vs_conn_get env s af proto saddr daddr sport dport reverse).2
            = conn_refcnt_inc s n.conn := by
  unfold dp_vs_conn_get
  cases reverse with
  | true =>
    simp only [if_true]
    split
    · next n hn =>
      right
      exact ⟨n, _, List.mem_of_find?_eq_some hn, rfl, rfl⟩
    · left
      exact ⟨rfl, rfl⟩
  | false =>
    simp only [Bool.false_eq_true, if_false]
    split
    · next n hn =>
      right
      exact ⟨n, _, List.mem_of_find?_eq_some hn, rfl, rfl⟩
    · left
      exact ⟨rfl, rfl⟩

theorem view_conn_expire_entry (env : Env) (s : State) (c : Nat) :
    (conn_expire_entry env s c).view = s.view.ref c 1 := by
  unfold conn_expire_entry
  rw [view_conn_refcnt_inc, view_setConn_same _ _ _ (by rfl)]

theorem view_conn_expire_retransmit (env : Env) (s : State) (c : Nat) (syn : Mbuf) :
    (conn_expire_retransmit env s c syn).view = s.view := by
  obtain ⟨r1, _, r3, r4, _, r6, r7, _⟩ := conn_expire_retransmit_state env s c syn
  apply IndexView.ext_fields
  · show (fun i => ((conn_expire_retransmit env s c syn).conns i).index) = _
    rw [r1]
    rfl
  · exact r6
  · exact r3
  · exact r4
  · exact r7

/-- The view after the terminal branch of `conn_expire`: a release. -/
theorem view_conn_expire_terminal (env : Env) (t : State) (c : Nat) (s' : State)
    (h : conn_expire_terminal env t c = some s') : s'.view = t.view.free c := by
  obtain ⟨did, hd⟩ := conn_expire_terminal_dest env t c s' h
  obtain ⟨s'', hs, ⟨c0, n0, t1⟩, t2, _, _, t5, t6, _, t8, t9, _⟩ :=
    conn_expire_terminal_some env t c did hd
  have he : s'' = s' := Option.some.inj (hs.symm.trans h)
  subst he
  apply IndexView.ext_fields
  · funext j
    by_cases hj : j = c
    · subst hj
      show (s''.conns j).index = _
      rw [t1]
      simp only [IndexView.free, IndexView.ref, IndexView.setIdx, if_true]
      rfl
    · show (s''.conns j).index = _
      obtain ⟨c1, n1, hj1⟩ := t2 j hj
      rw [hj1]
      simp only [IndexView.free, IndexView.ref, IndexView.setIdx, if_neg hj]
      rfl
  · exact t8
  · exact t5
  · exact t6
  · exact t9

/-- The view after a firing of `conn_expire`: nothing changes (SYN retransmit,
or a controlled flow depends on this one), or the flow is released after the
unhash attempt, or it is hashed again and the reference of the callback is
dropped. -/
theorem view_conn_expire (env : Env) (s : State) (c : Nat) (s' : State)
    (h : conn_expire env s c = some s') :
    s'.view = s.view
    ∨ ((((s.view.ref c 1).unhash c).idx c).refcnt = 1
        ∧ s'.view = ((s.view.ref c 1).unhash c).free c)
    ∨ ((((s.view.ref c 1).unhash c).idx c).refcnt ≠ 1
        ∧ s'.view = (((s.view.ref c 1).unhash c).hash env c).ref c (-1)) := by
  have hv := view_conn_expire_entry env s c
  have hback : ∀ t : State, t.view = s.view.ref c 1 → (dp_vs_conn_put t c).view = s.view := by
    intro t ht
    rw [view_dp_vs_conn_put, ht, IndexView.ref_ref]
    exact IndexView.ref_zero _ _
  have hrest : ∀ s', conn_expire_rest env (conn_expire_entry env s c) c = some s' →
      s'.view = s.view
      ∨ ((((s.view.ref c 1).unhash c).idx c).refcnt = 1
          ∧ s'.view = ((s.view.ref c 1).unhash c).free c)
      ∨ ((((s.view.ref c 1).unhash c).idx c).refcnt ≠ 1
          ∧ s'.view = (((s.view.ref c 1).unhash c).hash env c).ref c (-1)) := by
    intro s' h
    unfold conn_expire_rest at h
    dsimp only at h
    have hu : (conn_unhash (conn_expire_entry env s c) c).2.view = (s.view.ref c 1).unhash c := by
      rw [view_conn_unhash, hv]
    split_ifs at h with h1 h2
    · left
      rw [← Option.some.inj h]
      exact hback _ hv
    · right; left
      have h2' : (((s.view.ref c 1).unhash c).idx c).refcnt = 1 := by
        rw [← hu]
        exact h2
      refine ⟨h2', ?_⟩
      rw [view_conn_expire_terminal env _ c s' h, hu]
    · right; right
      have h2' : (((s.view.ref c 1).unhash c).idx c).refcnt ≠ 1 := by
        rw [← hu]
        exact h2
      refine ⟨h2', ?_⟩
      rw [← Option.some.inj h, view_conn_refcnt_dec, view_emit, view_conn_hash, hu]
  rw [conn_expire_eq] at h
  split at h
  · split_ifs at h
    · left
      rw [← Option.some.inj h]
      apply hback
      rw [view_emit, view_setConn_same _ _ _ (by rfl), view_conn_expire_retransmit, hv]
    · exact hrest s' h
  · exact hrest s' h
theorem view_check_template_invalidate (env : Env) (s : State) (ct : Nat) :
    (check_template_invalidate env s ct).view = s.view
    ∨ (check_template_invalidate env s ct).view = s.view.unhash ct
    ∨ (check_template_invalidate env s ct).view = (s.view.unhash ct).hash env ct := by
  unfold check_template_invalidate
  dsimp only
  split_ifs
  · right; right
    rw [view_conn_hash, view_setConn_same _ _ _ (by rfl), view_conn_unhash]
  · right; left
    exact view_conn_unhash s ct
  · left; rfl

theorem view_dp_vs_check_template (env : Env) (s : State) (ct : Nat) :
    (dp_vs_check_template env s ct).2.view = s.view
    ∨ (dp_vs_check_template env s ct).2.view = s.view.ref ct (-1)
    ∨ (dp_vs_check_template env s ct).2.view = (s.view.unhash ct).ref ct (-1)
    ∨ (dp_vs_check_template env s ct).2.view = ((s.view.unhash ct).hash env ct).ref ct (-1) := by
  unfold dp_vs_check_template
  split_ifs
  · rcases view_check_template_invalidate env s ct with h | h | h
    · right; left
      rw [view_conn_refcnt_dec, h]
    · right; right; left
      rw [view_conn_refcnt_dec, h]
    · right; right; right
      rw [view_conn_refcnt_dec, h]
  · left; rfl

/-- Every state the index reaches satisfies the index invariant. -/
theorem IndexReachable.indexed (env : Env) (s : State) (h : IndexReachable env s) :
    s.view.indexed env := by
  induction h with
  | init s h1 h2 h3 =>
    intro c
    have hn : ∀ (b : Bool) h d, (⟨c, d⟩ : Node) ∉ s.view.tab b h := by
      intro b h d hm
      cases b
      · simp only [IndexView.tab, Bool.false_eq_true, if_false, State.view, h1,
          List.not_mem_nil] at hm
      · simp only [IndexView.tab, if_true, State.view, h2, List.not_mem_nil] at hm
    have hf : (s.view.idx c).hashed = false := h3 c
    refine ⟨fun h => ⟨fun hm => absurd hm (hn _ h _), fun hm => ?_⟩,
      fun h => ⟨fun hm => absurd hm (hn _ h _), fun hm => ?_⟩, fun h d => hn _ h d⟩
    · rw [hf] at hm
      exact Bool.noConfusion hm.1
    · rw [hf] at hm
      exact Bool.noConfusion hm.1
  | hash s cid _ ih =>
    rw [view_conn_hash]
    exact IndexView.indexed_hash env _ cid ih
  | unhash s cid _ ih =>
    rw [view_conn_unhash]
    exact IndexView.indexed_unhash env _ cid ih
  | get s af proto saddr daddr sport dport reverse _ ih =>
    rcases dp_vs_conn_get_cases env s af proto saddr daddr sport dport reverse with
      ⟨_, h2⟩ | ⟨n, _, _, _, h2⟩
    · rw [h2]
      exact ih
    · rw [h2, view_conn_refcnt_inc]
      exact IndexView.indexed_ref env _ _ _ ih
  | put s cid _ ih =>
    rw [view_dp_vs_conn_put]
    exact IndexView.indexed_ref env _ _ _ ih
  | check_template s ct _ ih =>
    rcases view_dp_vs_check_template env s ct with h | h | h | h
    · rw [h]
      exact ih
    · rw [h]
      exact IndexView.indexed_ref env _ _ _ ih
    · rw [h]
      exact IndexView.indexed_ref env _ _ _ (IndexView.indexed_unhash env _ _ ih)
    · rw [h]
      exact IndexView.indexed_ref env _ _ _
        (IndexView.indexed_hash env _ _ (IndexView.indexed_unhash env _ _ ih))
  | expire s cid s' _ he ih =>
    rcases view_conn_expire env s cid s' he with h | ⟨_, h⟩ | ⟨_, h⟩
    · rw [h]
      exact ih
    · rw [h]
      exact IndexView.indexed_free env _ _
        (IndexView.indexed_unhash env _ _ (IndexView.indexed_ref env _ _ _ ih))
    · rw [h]
      exact IndexView.indexed_ref env _ _ _
        (IndexView.indexed_hash env _ _
          (IndexView.indexed_unhash env _ _ (IndexView.indexed_ref env _ _ _ ih)))

/-- The index invariant of a view, read on the state. -/
theorem indexed_at_state (env : Env) (s : State) (c : Nat) (h : s.view.indexed_at env c) :
    ((s.conns c).flags.hashed = true
      ↔ ((⟨c, Dir.INBOUND⟩ : Node) ∈ s.tab_of c (conn_ihash env s c)
          ∧ (⟨c, Dir.OUTBOUND⟩ : Node) ∈ s.tab_of c (conn_ohash env s c)))
    ∧ ((s.conns c).flags.hashed = false
      ↔ ∀ h d, (⟨c, d⟩ : Node) ∉ s.dp_vs_conn_tab h ∧ (⟨c, d⟩ : Node) ∉ s.dp_vs_ct_tab h)
    ∧ (∀ h, (⟨c, Dir.INBOUND⟩ : Node) ∈ s.tab_of c h → h = conn_ihash env s c)
    ∧ (∀ h, (⟨c, Dir.OUTBOUND⟩ : Node) ∈ s.tab_of c h → h = conn_ohash env s c)
    ∧ (∀ h d, (⟨c, d⟩ : Node) ∉ s.other_tab_of c h)
    ∧ ((∃ h, (⟨c, Dir.INBOUND⟩ : Node) ∈ s.dp_vs_conn_tab h
          ∨ (⟨c, Dir.INBOUND⟩ : Node) ∈ s.dp_vs_ct_tab h)
      ↔ (∃ h, (⟨c, Dir.OUTBOUND⟩ : Node) ∈ s.dp_vs_conn_tab h
          ∨ (⟨c, Dir.OUTBOUND⟩ : Node) ∈ s.dp_vs_ct_tab h)) := by
  obtain ⟨a1, a2, a3⟩ := h
  have b1 : ∀ h, (⟨c, Dir.INBOUND⟩ : Node) ∈ s.tab_of c h
      ↔ ((s.conns c).flags.hashed = true ∧ h = conn_ihash env s c) := a1
  have b2 : ∀ h, (⟨c, Dir.OUTBOUND⟩ : Node) ∈ s.tab_of c h
      ↔ ((s.conns c).flags.hashed = true ∧ h = conn_ohash env s c) := a2
  have b3 : ∀ h d, (⟨c, d⟩ : Node) ∉ s.other_tab_of c h := by
    intro h d
    have := a3 h d
    unfold State.other_tab_of
    cases ht : (s.conns c).flags.template
    · have e : (s.view.idx c).template = false := ht
      rw [e] at this
      exact this
    · have e : (s.view.idx c).template = true := ht
      rw [e] at this
      exact this
  have split : ∀ h d, ((⟨c, d⟩ : Node) ∈ s.dp_vs_conn_tab h ∨ (⟨c, d⟩ : Node) ∈ s.dp_vs_ct_tab h)
      ↔ (⟨c, d⟩ : Node) ∈ s.tab_of c h := by
    intro h d
    have := b3 h d
    unfold State.other_tab_of at this
    unfold State.tab_of
    cases ht : (s.conns c).flags.template
    · simp only [ht, Bool.false_eq_true, if_false] at this ⊢
      exact ⟨fun hm => hm.elim id (fun x => absurd x this), Or.inl⟩
    · simp only [ht, if_true] at this ⊢
      exact ⟨fun hm => hm.elim (fun x => absurd x this) id, Or.inr⟩
  have linked : ∀ d, (∃ h, (⟨c, d⟩ : Node) ∈ s.dp_vs_conn_tab h ∨ (⟨c, d⟩ : Node) ∈ s.dp_vs_ct_tab h)
      ↔ (s.conns c).flags.hashed = true := by
    intro d
    constructor
    · rintro ⟨h, hm⟩
      have hm' := (split h d).mp hm
      cases d
      · exact ((b1 h).mp hm').1
      · exact ((b2 h).mp hm').1
    · intro hh
      cases d
      · exact ⟨_, (split _ _).mpr ((b1 _).mpr ⟨hh, rfl⟩)⟩
      · exact ⟨_, (split _ _).mpr ((b2 _).mpr ⟨hh, rfl⟩)⟩
  refine ⟨⟨fun hh => ⟨(b1 _).mpr ⟨hh, rfl⟩, (b2 _).mpr ⟨hh, rfl⟩⟩, fun hm => ((b1 _).mp hm.1).1⟩,
    ⟨fun hh h d => ?_, fun hn => ?_⟩, fun h hm => ((b1 h).mp hm).2, fun h hm => ((b2 h).mp hm).2,
    b3, (linked Dir.INBOUND).trans (linked Dir.OUTBOUND).symm⟩
  · have : ¬ ((⟨c, d⟩ : Node) ∈ s.dp_vs_conn_tab h ∨ (⟨c, d⟩ : Node) ∈ s.dp_vs_ct_tab h) := by
      intro hm
      have := (linked d).mp ⟨h, hm⟩
      rw [hh] at this
      exact Bool.noConfusion this
    exact ⟨fun x => this (Or.inl x), fun x => this (Or.inr x)⟩
  · cases hh : (s.conns c).flags.hashed
    · rfl
    · obtain ⟨h, hm⟩ := (linked Dir.INBOUND).mpr hh
      exact absurd hm (fun x => x.elim (hn h _).1 (hn h _).2)

/-! ## What flow construction leaves alone -/

theorem conns_off_refl (c : Nat) (s : State) : conns_off c s s :=
  fun _ _ => rfl

theorem conns_off_trans (c : Nat) (s1 s2 s3 : State) (h1 : conns_off c s1 s2)
    (h2 : conns_off c s2 s3) : conns_off c s1 s3 :=
  fun j hj => (h2 j hj).trans (h1 j hj)

theorem conns_off_setConn (c : Nat) (s : State) (x : DpVsConn) :
    conns_off c s (s.setConn c x) :=
  fun j hj => setConn_conns_other s c j x hj

theorem conns_off_of_conns (c : Nat) (s s' : State) (h : s'.conns = s.conns) :
    conns_off c s s' :=
  fun j _ => by rw [h]

theorem conn_bind_dest_off (s : State) (cid did : Nat) :
    conns_off cid s (conn_bind_dest s cid did).2
    ∧ (conn_bind_dest s cid did).2.conn_cache = s.conn_cache := by
  by_cases hov : (s.dests did).max_conn ≠ 0
      ∧ (s.dests did).inactconns + (s.dests did).actconns ≥ ((s.dests did).max_conn : Int)
  · rw [conn_bind_dest_of_overload s cid did hov]
    exact ⟨fun j hj => setConn_conns_other s cid j _ hj, rfl⟩
  · constructor
    · intro j hj
      cases ht : ((s.conns cid).flags.lor (s.dests did).conn_flags).template <;>
        cases hm : (s.dests did).fwdmode <;>
        · unfold conn_bind_dest
          simp only [setConn_frame]
          rw [if_neg hov]
          simp only [setConn_frame, setDest_frame, setConn_conns_same, setDest_dests_same,
            ht, hm, if_true, if_false, Bool.false_eq_true]
          simp only [State.setConn, State.setDest, if_neg hj]
    · cases ht : ((s.conns cid).flags.lor (s.dests did).conn_flags).template <;>
        cases hm : (s.dests did).fwdmode <;>
        · unfold conn_bind_dest
          simp only [setConn_frame]
          rw [if_neg hov]
          simp only [setConn_frame, setDest_frame, setConn_conns_same, setDest_dests_same,
            ht, hm, if_true, if_false, Bool.false_eq_true]

theorem conn_unbind_dest_off (t : State) (cid : Nat) (r : Err × State)
    (h : conn_unbind_dest t cid = some r) :
    conns_off cid t r.2 ∧ r.2.conn_cache = t.conn_cache
    ∧ r.2.dp_vs_conn_tab = t.dp_vs_conn_tab ∧ r.2.dp_vs_ct_tab = t.dp_vs_ct_tab := by
  cases hd : (t.conns cid).dest with
  | none =>
    unfold conn_unbind_dest at h
    simp only [hd] at h
    exact Option.noConfusion h
  | some did =>
    obtain ⟨u, hu, _, u2, _, u4, u5, _, _, u8, _⟩ := conn_unbind_dest_frame t cid did hd
    have : r = (Err.OK, u) := Option.some.inj (h.symm.trans hu)
    rw [this]
    exact ⟨u2, u8, u4, u5⟩

theorem conn_new_unbind_dest_off (t : State) (new : Nat) (r : Option Nat) (s' : State)
    (h : conn_new_unbind_dest t new = some (r, s')) :
    r = none ∧ conns_off new t s' ∧ s'.conn_cache = new :: t.conn_cache
    ∧ s'.dp_vs_conn_tab = t.dp_vs_conn_tab ∧ s'.dp_vs_ct_tab = t.dp_vs_ct_tab := by
  unfold conn_new_unbind_dest at h
  split at h
  · exact Option.noConfusion h
  · next u hu =>
    obtain ⟨u1, u2, u3, u4⟩ := conn_unbind_dest_off t new u hu
    simp only [conn_new_errout, Option.some.injEq, Prod.mk.injEq] at h
    obtain ⟨h1, h2⟩ := h
    rw [← h2]
    exact ⟨h1.symm, u1, by rw [← u2], u3, u4⟩

theorem conn_new_unbind_laddr_off (t : State) (new : Nat) (r : Option Nat) (s' : State)
    (h : conn_new_unbind_laddr t new = some (r, s')) :
    r = none ∧ conns_off new t s' ∧ s'.conn_cache = new :: t.conn_cache
    ∧ s'.dp_vs_conn_tab = t.dp_vs_conn_tab ∧ s'.dp_vs_ct_tab = t.dp_vs_ct_tab :=
  conn_new_unbind_dest_off (t.emit (Event.laddr_unbind new)) new r s' h

theorem conn_new_finish_off (env : Env) (t : State) (new : Nat) (r : Option Nat) (s' : State)
    (h : conn_new_finish env t new = some (r, s')) :
    r = some new ∧ conns_off new t s' ∧ s'.conn_cache = t.conn_cache
    ∧ s'.dp_vs_conn_tab = t.dp_vs_conn_tab ∧ s'.dp_vs_ct_tab = t.dp_vs_ct_tab := by
  unfold conn_new_finish at h
  dsimp only at h
  split_ifs at h <;>
    (simp only [Option.some.injEq, Prod.mk.injEq] at h
     obtain ⟨h1, h2⟩ := h
     rw [← h2]
     exact ⟨h1.symm, fun j hj => setConn_conns_other _ _ _ _ hj, rfl, rfl, rfl⟩)

theorem conn_new_after_hash_off (env : Env) (t : State) (mbuf : Mbuf)
    (param : DpVsConnParam) (flags : ConnFlags) (new : Nat) (r : Option Nat) (s' : State)
    (h : conn_new_after_hash env t mbuf param flags new = some (r, s')) :
    conns_off new t s'
    ∧ s'.dp_vs_conn_tab = t.dp_vs_conn_tab ∧ s'.dp_vs_ct_tab = t.dp_vs_ct_tab
    ∧ ((r = none ∧ s'.conn_cache = new :: t.conn_cache)
      ∨ (r = some new ∧ s'.conn_cache = t.conn_cache)) := by
  unfold conn_new_after_hash at h
  dsimp only at h
  split_ifs at h with h1 h2 h3
  · obtain ⟨a1, a2, a3, a4, a5⟩ := conn_new_unbind_laddr_off _ new r s' h
    exact ⟨conns_off_trans new _ _ _ (conns_off_setConn new t _) a2, a4, a5, Or.inl ⟨a1, a3⟩⟩
  · obtain ⟨a1, a2, a3, a4, a5⟩ := conn_new_unbind_laddr_off _ new r s' h
    exact ⟨conns_off_trans new _ _ _ (conns_off_setConn new t _) a2, a4, a5, Or.inl ⟨a1, a3⟩⟩
  · split at h
    · exact Option.noConfusion h
    · obtain ⟨a1, a2, a3, a4, a5⟩ := conn_new_finish_off env _ new r s' h
      refine ⟨fun j hj => ?_, a4, a5, Or.inr ⟨a1, a3⟩⟩
      rw [a2 j hj, setConn_conns_other _ _ _ _ hj, setConn_conns_other _ _ _ _ hj]
      show (t.setConn new _).conns j = t.conns j
      exact setConn_conns_other _ _ _ _ hj
  · obtain ⟨a1, a2, a3, a4, a5⟩ := conn_new_finish_off env _ new r s' h
    exact ⟨conns_off_trans new _ _ _ (conns_off_setConn new t _) a2, a4, a5, Or.inr ⟨a1, a3⟩⟩

theorem conn_new_laddr_off (env : Env) (t : State) (did new : Nat) (s3 : State)
    (h : conn_new_laddr env t did new = some s3) :
    conns_off new t s3 ∧ s3.conn_cache = t.conn_cache := by
  unfold conn_new_laddr at h
  split_ifs at h
  · unfold dp_vs_laddr_bind at h
    split at h
    · exact Option.noConfusion h
    · rw [← Option.some.inj h]
      exact ⟨conns_off_setConn new t _, rfl⟩
  · rw [← Option.some.inj h]
    exact ⟨conns_off_refl new t, rfl⟩

theorem conn_hash_off (env : Env) (s : State) (cid : Nat) :
    conns_off cid s (conn_hash env s cid).2 := by
  intro j hj
  unfold conn_hash __conn_hash
  dsimp only
  split_ifs
  · rfl
  · simp only [conn_refcnt_inc]
    rw [setConn_conns_other _ _ _ _ hj, setConn_conns_other _ _ _ _ hj]
  · simp only [conn_refcnt_inc]
    rw [setConn_conns_other _ _ _ _ hj, setConn_conns_other _ _ _ _ hj]
theorem conn_hash_nodes (env : Env) (s : State) (cid : Nat) (h : Nat) (n : Node) :
    (n ∈ (conn_hash env s cid).2.dp_vs_conn_tab h → n.conn = cid ∨ n ∈ s.dp_vs_conn_tab h)
    ∧ (n ∈ (conn_hash env s cid).2.dp_vs_ct_tab h → n.conn = cid ∨ n ∈ s.dp_vs_ct_tab h) := by
  unfold conn_hash __conn_hash
  dsimp only
  split_ifs
  · exact ⟨Or.inr, Or.inr⟩
  · simp only [conn_refcnt_inc, setConn_frame, mem_list_add]
    refine ⟨Or.inr, fun hm => ?_⟩
    rcases hm with ⟨_, hm⟩ | ⟨_, hm⟩ | hm
    · left; rw [hm]
    · left; rw [hm]
    · right; exact hm
  · simp only [conn_refcnt_inc, setConn_frame, mem_list_add]
    refine ⟨fun hm => ?_, Or.inr⟩
    rcases hm with ⟨_, hm⟩ | ⟨_, hm⟩ | hm
    · left; rw [hm]
    · left; rw [hm]
    · right; exact hm

/-- The part of `dp_vs_conn_new` from the bind on touches no record but the new
one, links no node but those of the new one, and either gives the record back
to the pool and returns `NULL` or returns the record. -/
theorem conn_new_bound_off (env : Env) (t : State) (mbuf : Mbuf) (param : DpVsConnParam)
    (did : Nat) (flags : ConnFlags) (new : Nat) (r : Option Nat) (s' : State)
    (h : conn_new_bound env t mbuf param did flags new = some (r, s')) :
    conns_off new t s'
    ∧ (∀ h n, n ∈ s'.dp_vs_conn_tab h → n.conn = new ∨ n ∈ t.dp_vs_conn_tab h)
    ∧ (∀ h n, n ∈ s'.dp_vs_ct_tab h → n.conn = new ∨ n ∈ t.dp_vs_ct_tab h)
    ∧ ((r = none ∧ s'.conn_cache = new :: t.conn_cache)
      ∨ (r = some new ∧ s'.conn_cache = t.conn_cache)) := by
  obtain ⟨b1, b2⟩ := conn_bind_dest_off t new did
  obtain ⟨b3, b4, _⟩ := conn_bind_dest_index t new did
  unfold conn_new_bound at h
  dsimp only at h
  generalize conn_bind_dest t new did = b at h b1 b2 b3 b4
  split_ifs at h
  · simp only [conn_new_errout, Option.some.injEq, Prod.mk.injEq] at h
    obtain ⟨h1, h2⟩ := h
    rw [← h2]
    refine ⟨b1, fun h n hm => Or.inr ?_, fun h n hm => Or.inr ?_, Or.inl ⟨h1.symm, ?_⟩⟩
    · rw [← b3]; exact hm
    · rw [← b4]; exact hm
    · show new :: b.2.conn_cache = _
      rw [b2]
  · split at h
    · obtain ⟨a1, a2, a3, a4, a5⟩ := conn_new_unbind_dest_off b.2 new r s' h
      refine ⟨conns_off_trans new _ _ _ b1 a2, fun h n hm => Or.inr ?_, fun h n hm => Or.inr ?_,
        Or.inl ⟨a1, by rw [a3, b2]⟩⟩
      · rw [← b3, ← a4]; exact hm
      · rw [← b4, ← a5]; exact hm
    · next s3 hl =>
      obtain ⟨l1, l2⟩ := conn_new_laddr_off env b.2 did new s3 hl
      obtain ⟨l3, l4, _⟩ := conn_new_laddr_index env b.2 did new s3 hl
      have hoff := conn_hash_off env s3 new
      have hcache := conn_hash_conn_cache env s3 new
      have hnodes := conn_hash_nodes env s3 new
      have hnok := conn_hash_of_not_ok env s3 new
      generalize conn_hash env s3 new = hs at h hoff hcache hnodes hnok
      have base : conns_off new t hs.2 :=
        conns_off_trans new _ _ _ (conns_off_trans new _ _ _ b1 l1) hoff
      have n1 : ∀ h n, n ∈ hs.2.dp_vs_conn_tab h → n.conn = new ∨ n ∈ t.dp_vs_conn_tab h := by
        intro h n hm
        rcases (hnodes h n).1 hm with hx | hx
        · exact Or.inl hx
        · right
          rw [← b3, ← l3]
          exact hx
      have n2 : ∀ h n, n ∈ hs.2.dp_vs_ct_tab h → n.conn = new ∨ n ∈ t.dp_vs_ct_tab h := by
        intro h n hm
        rcases (hnodes h n).2 hm with hx | hx
        · exact Or.inl hx
        · right
          rw [← b4, ← l4]
          exact hx
      have c1 : hs.2.conn_cache = t.conn_cache := by rw [hcache, l2, b2]
      split_ifs at h with hh
      · obtain ⟨a1, a2, a3, a4, a5⟩ := conn_new_unbind_laddr_off hs.2 new r s' h
        refine ⟨conns_off_trans new _ _ _ base a2, fun h n hm => ?_, fun h n hm => ?_,
          Or.inl ⟨a1, by rw [a3, c1]⟩⟩
        · rw [a4] at hm; exact n1 h n hm
        · rw [a5] at hm; exact n2 h n hm
      · obtain ⟨a1, a2, a3, a4⟩ := conn_new_after_hash_off env hs.2 mbuf param flags new r s' h
        refine ⟨conns_off_trans new _ _ _ base a1, fun h n hm => ?_, fun h n hm => ?_, ?_⟩
        · rw [a2] at hm; exact n1 h n hm
        · rw [a3] at hm; exact n2 h n hm
        · rcases a4 with ⟨x1, x2⟩ | ⟨x1, x2⟩
          · exact Or.inl ⟨x1, by rw [x2, c1]⟩
          · exact Or.inr ⟨x1, by rw [x2, c1]⟩

/-- Every return of `dp_vs_conn_new`. With an empty pool nothing changes.
Otherwise no record but the head of the pool is touched and no node but its
nodes is linked; the pool loses its head on success, keeps it on failure, and
loses it with the record zeroed when the ports of a Source-NAT packet cannot
be read. -/
theorem dp_vs_conn_new_off (env : Env) (s : State) (mbuf : Mbuf) (param : DpVsConnParam)
    (did : Nat) (flags : ConnFlags) (r : Option Nat) (s' : State)
    (h : dp_vs_conn_new env s mbuf param did flags = some (r, s')) :
    (s.conn_cache = [] ∧ r = none ∧ s' = s)
    ∨ ∃ new rest, s.conn_cache = new :: rest
        ∧ conns_off new s s'
        ∧ (∀ h n, n ∈ s'.dp_vs_conn_tab h → n.conn = new ∨ n ∈ s.dp_vs_conn_tab h)
        ∧ (∀ h n, n ∈ s'.dp_vs_ct_tab h → n.conn = new ∨ n ∈ s.dp_vs_ct_tab h)
        ∧ ((r = none ∧ s'.conn_cache = new :: rest)
          ∨ (r = none ∧ s'.conn_cache = rest ∧ s'.conns new = DpVsConn.zero)
          ∨ (r = some new ∧ s'.conn_cache = rest)) := by
  unfold dp_vs_conn_new at h
  split at h
  · next hc =>
    left
    simp only [Option.some.injEq, Prod.mk.injEq] at h
    exact ⟨hc, h.1.symm, h.2.symm⟩
  · next new rest hc =>
    right
    refine ⟨new, rest, hc, ?_⟩
    dsimp only at h
    split at h
    · simp only [Option.some.injEq, Prod.mk.injEq] at h
      obtain ⟨h1, h2⟩ := h
      rw [← h2]
      refine ⟨conns_off_setConn new _ _, fun _ _ hm => Or.inr hm, fun _ _ hm => Or.inr hm,
        Or.inr (Or.inl ⟨h1.symm, rfl, ?_⟩)⟩
      exact setConn_conns_same _ _ _
    · next rport _ =>
      obtain ⟨a1, a2, a3, a4⟩ := conn_new_bound_off env _ mbuf param did flags new r s' h
      refine ⟨fun j hj => ?_, a2, a3, ?_⟩
      · rw [a1 j hj, setConn_conns_other _ _ _ _ hj, setConn_conns_other _ _ _ _ hj]
      · rcases a4 with ⟨x1, x2⟩ | ⟨x1, x2⟩
        · exact Or.inl ⟨x1, x2⟩
        · exact Or.inr (Or.inr ⟨x1, x2⟩)
/-! ## The reference invariant is kept by every step -/

theorem IndexView.ref_inv_hold (v : IndexView) (held : Nat → Nat) (c : Nat)
    (h : v.ref_inv held) (hh : (v.idx c).hashed = true) (hc : c ∉ v.cache) :
    (v.ref c 1).ref_inv (hold held c) := by
  obtain ⟨a, b, d, e⟩ := h
  refine ⟨fun j hj hjh => ?_, fun j hj => ?_, fun h n hn => ?_, e⟩
  · by_cases hjc : j = c
    · subst hjc
      simp only [IndexView.ref, IndexView.setIdx_idx_same, hold, if_true]
      rw [a j hj hh]
      push_cast
      ring
    · simp only [IndexView.ref, IndexView.setIdx_idx_other _ _ _ _ hjc, hold, if_neg hjc]
        at hjh ⊢
      exact a j hj hjh
  · by_cases hjc : j = c
    · subst hjc
      rcases hj with hj | hj
      · exact absurd hj hc
      · simp only [IndexView.ref, IndexView.setIdx_idx_same] at hj
        rw [hh] at hj
        exact Bool.noConfusion hj
    · simp only [IndexView.ref, IndexView.setIdx_idx_other _ _ _ _ hjc, hold, if_neg hjc]
        at hj ⊢
      exact b j hj
  · obtain ⟨d1, d2⟩ := d h n hn
    refine ⟨?_, d2⟩
    by_cases hnc : n.conn = c
    · rw [hnc]
      simp only [IndexView.ref, IndexView.setIdx_idx_same]
      exact hh
    · simp only [IndexView.ref, IndexView.setIdx_idx_other _ _ _ _ hnc]
      exact d1

theorem IndexView.ref_inv_unhold (v : IndexView) (held : Nat → Nat) (c : Nat)
    (h : v.ref_inv held) (hp : 0 < held c) :
    (v.ref c (-1)).ref_inv (unhold held c) := by
  obtain ⟨a, b, d, e⟩ := h
  have hcache : c ∉ v.cache := fun hm => by
    have := b c (Or.inl hm)
    omega
  have hh : (v.idx c).hashed = true := by
    cases hx : (v.idx c).hashed
    · have := b c (Or.inr hx)
      omega
    · rfl
  refine ⟨fun j hj hjh => ?_, fun j hj => ?_, fun h n hn => ?_, e⟩
  · by_cases hjc : j = c
    · subst hjc
      simp only [IndexView.ref, IndexView.setIdx_idx_same, unhold, if_true]
      rw [a j hj hh]
      have : ((held j - 1 : Nat) : Int) = (held j : Int) - 1 := by omega
      rw [this]
      ring
    · simp only [IndexView.ref, IndexView.setIdx_idx_other _ _ _ _ hjc, unhold, if_neg hjc]
        at hjh ⊢
      exact a j hj hjh
  · by_cases hjc : j = c
    · subst hjc
      rcases hj with hj | hj
      · exact absurd hj hcache
      · simp only [IndexView.ref, IndexView.setIdx_idx_same] at hj
        rw [hh] at hj
        exact Bool.noConfusion hj
    · simp only [IndexView.ref, IndexView.setIdx_idx_other _ _ _ _ hjc, unhold, if_neg hjc]
        at hj ⊢
      exact b j hj
  · obtain ⟨d1, d2⟩ := d h n hn
    refine ⟨?_, d2⟩
    by_cases hnc : n.conn = c
    · rw [hnc]
      simp only [IndexView.ref, IndexView.setIdx_idx_same]
      exact hh
    · simp only [IndexView.ref, IndexView.setIdx_idx_other _ _ _ _ hnc]
      exact d1
theorem node_of_conn (n : Node) (c : Nat) (h : n.conn = c) :
    n = ⟨c, Dir.INBOUND⟩ ∨ n = ⟨c, Dir.OUTBOUND⟩ := by
  cases n with
  | mk nc ns =>
    simp only at h
    subst h
    cases ns
    · exact Or.inl rfl
    · exact Or.inr rfl

/-- The invariant after a release of a hashed flow no caller holds. -/
theorem IndexView.ref_inv_of_release (v v' : IndexView) (held : Nat → Nat) (c : Nat)
    (h : v.ref_inv held) (hc : c ∉ v.cache) (h0 : held c = 0)
    (f1 : ∀ j, j ≠ c → v'.idx j = v.idx j)
    (f3 : ∀ h n, n ∈ v'.conn_tab h → n ∈ v.conn_tab h ∧ n.conn ≠ c)
    (f4 : ∀ h n, n ∈ v'.ct_tab h → n ∈ v.ct_tab h ∧ n.conn ≠ c)
    (f5 : v'.cache = c :: v.cache) : v'.ref_inv held := by
  obtain ⟨a, b, d, e⟩ := h
  refine ⟨fun j hj hjh => ?_, fun j hj => ?_, fun h n hn => ?_, ?_⟩
  · rw [f5] at hj
    have hjc : j ≠ c := fun x => hj (by rw [x]; exact List.mem_cons_self _ _)
    have hj' : j ∉ v.cache := fun x => hj (List.mem_cons_of_mem _ x)
    rw [f1 j hjc] at hjh ⊢
    exact a j hj' hjh
  · by_cases hjc : j = c
    · rw [hjc]; exact h0
    · rw [f5, f1 j hjc] at hj
      rcases hj with hj | hj
      · rcases List.mem_cons.mp hj with x | x
        · exact absurd x hjc
        · exact b j (Or.inl x)
      · exact b j (Or.inr hj)
  · have hx : (n ∈ v.conn_tab h ∨ n ∈ v.ct_tab h) ∧ n.conn ≠ c := by
      rcases hn with hn | hn
      · exact ⟨Or.inl (f3 h n hn).1, (f3 h n hn).2⟩
      · exact ⟨Or.inr (f4 h n hn).1, (f4 h n hn).2⟩
    obtain ⟨d1, d2⟩ := d h n hx.1
    rw [f1 _ hx.2, f5]
    refine ⟨d1, fun x => ?_⟩
    rcases List.mem_cons.mp x with y | y
    · exact hx.2 y
    · exact d2 y
  · rw [f5]
    exact List.nodup_cons.mpr ⟨hc, e⟩

/-- The invariant after a successful creation that took the head of the pool. -/
theorem IndexView.ref_inv_of_new_ok (v v' : IndexView) (held : Nat → Nat) (cid : Nat)
    (rest : List Nat) (h : v.ref_inv held) (g0 : v.cache = cid :: rest) (g0' : v'.cache = rest)
    (g1 : ∀ j, j ≠ cid → v'.idx j = v.idx j)
    (g2 : (v'.idx cid).hashed = true) (g2' : (v'.idx cid).refcnt = 2)
    (g3 : ∀ h n, n ∈ v'.conn_tab h → n.conn = cid ∨ n ∈ v.conn_tab h)
    (g4 : ∀ h n, n ∈ v'.ct_tab h → n.conn = cid ∨ n ∈ v.ct_tab h) :
    v'.ref_inv (hold held cid) := by
  obtain ⟨a, b, d, e⟩ := h
  rw [g0] at a b d e
  obtain ⟨e1, e2⟩ := List.nodup_cons.mp e
  have h0 : held cid = 0 := b cid (Or.inl (List.mem_cons_self _ _))
  refine ⟨fun j hj hjh => ?_, fun j hj => ?_, fun h n hn => ?_, ?_⟩
  · by_cases hjc : j = cid
    · rw [hjc, g2']
      simp only [hold, if_true, h0]
      rfl
    · rw [g0'] at hj
      have hj' : j ∉ cid :: rest := fun x => by
        rcases List.mem_cons.mp x with y | y
        · exact hjc y
        · exact hj y
      rw [g1 j hjc] at hjh ⊢
      simp only [hold, if_neg hjc]
      exact a j hj' hjh
  · rw [g0'] at hj
    by_cases hjc : j = cid
    · rw [hjc] at hj
      rcases hj with hj | hj
      · exact absurd hj e1
      · rw [g2] at hj
        exact Bool.noConfusion hj
    · simp only [hold, if_neg hjc]
      rw [g1 j hjc] at hj
      rcases hj with hj | hj
      · exact b j (Or.inl (List.mem_cons_of_mem _ hj))
      · exact b j (Or.inr hj)
  · rw [g0']
    have key : n.conn = cid ∨ (n ∈ v.conn_tab h ∨ n ∈ v.ct_tab h) := by
      rcases hn with hn | hn
      · exact (g3 h n hn).imp id Or.inl
      · exact (g4 h n hn).imp id Or.inr
    rcases key with hk | hk
    · rw [hk]
      exact ⟨g2, e1⟩
    · obtain ⟨d1, d2⟩ := d h n hk
      have hne : n.conn ≠ cid := fun x => d2 (by rw [x]; exact List.mem_cons_self _ _)
      rw [g1 _ hne]
      exact ⟨d1, fun x => d2 (List.mem_cons_of_mem _ x)⟩
  · rw [g0']
    exact e2

/-- The invariant after a creation that failed before anything was linked. -/
theorem IndexView.ref_inv_of_new_null (v v' : IndexView) (held : Nat → Nat) (new : Nat)
    (rest : List Nat) (h : v.ref_inv held) (g0 : v.cache = new :: rest)
    (g1 : ∀ j, j ≠ new → v'.idx j = v.idx j)
    (g3 : v'.conn_tab = v.conn_tab) (g4 : v'.ct_tab = v.ct_tab)
    (g5 : v'.cache = new :: rest ∨ (v'.cache = rest ∧ (v'.idx new).hashed = false)) :
    v'.ref_inv held := by
  obtain ⟨a, b, d, e⟩ := h
  rw [g0] at a b d e
  obtain ⟨e1, e2⟩ := List.nodup_cons.mp e
  have h0 : held new = 0 := b new (Or.inl (List.mem_cons_self _ _))
  have sub : ∀ j, j ∈ v'.cache → j ∈ new :: rest := by
    intro j hj
    rcases g5 with g | g
    · rw [g] at hj; exact hj
    · rw [g.1] at hj; exact List.mem_cons_of_mem _ hj
  refine ⟨fun j hj hjh => ?_, fun j hj => ?_, fun h n hn => ?_, ?_⟩
  · by_cases hjc : j = new
    · rw [hjc] at hj hjh
      rcases g5 with g | g
      · rw [g] at hj
        exact absurd (List.mem_cons_self _ _) hj
      · rw [g.2] at hjh
        exact Bool.noConfusion hjh
    · rw [g1 j hjc] at hjh ⊢
      refine a j (fun x => ?_) hjh
      rcases List.mem_cons.mp x with y | y
      · exact hjc y
      · rcases g5 with g | g
        · exact hj (by rw [g]; exact x)
        · exact hj (by rw [g.1]; exact y)
  · by_cases hjc : j = new
    · rw [hjc]; exact h0
    · rw [g1 j hjc] at hj
      rcases hj with hj | hj
      · exact b j (Or.inl (sub j hj))
      · exact b j (Or.inr hj)
  · rw [g3, g4] at hn
    obtain ⟨d1, d2⟩ := d h n hn
    have hne : n.conn ≠ new := fun x => d2 (by rw [x]; exact List.mem_cons_self _ _)
    rw [g1 _ hne]
    exact ⟨d1, fun x => d2 (sub _ x)⟩
  · rcases g5 with g | g
    · rw [g]; exact e
    · rw [g.1]; exact e2

theorem IndexView.unhash_of_not (v : IndexView) (c : Nat)
    (h : ¬ ((v.idx c).hashed = true ∧ (v.idx c).refcnt = 2)) : v.unhash c = v := by
  unfold IndexView.unhash
  rw [if_neg h]

theorem IndexView.hash_of_hashed (env : Env) (v : IndexView) (c : Nat)
    (h : (v.idx c).hashed = true) : v.hash env c = v := by
  unfold IndexView.hash
  simp only [h, if_true]

/-- The invariant after a firing of the timer of a hashed flow outside the pool. -/
theorem IndexView.ref_inv_expire (env : Env) (v v' : IndexView) (held : Nat → Nat) (c : Nat)
    (h : v.ref_inv held) (hh : (v.idx c).hashed = true) (hc : c ∉ v.cache)
    (hv : v' = v
      ∨ ((((v.ref c 1).unhash c).idx c).refcnt = 1 ∧ v' = ((v.ref c 1).unhash c).free c)
      ∨ ((((v.ref c 1).unhash c).idx c).refcnt ≠ 1
          ∧ v' = (((v.ref c 1).unhash c).hash env c).ref c (-1))) :
    v'.ref_inv held := by
  have hr : (v.idx c).refcnt = (held c : Int) + 1 := h.1 c hc hh
  have hh1 : ((v.ref c 1).idx c).hashed = true := by
    simp only [IndexView.ref, IndexView.setIdx_idx_same]
    exact hh
  have hr1 : ((v.ref c 1).idx c).refcnt = (held c : Int) + 2 := by
    simp only [IndexView.ref, IndexView.setIdx_idx_same]
    rw [hr]
    ring
  by_cases h0 : held c = 0
  · have hcond : ((v.ref c 1).idx c).hashed = true ∧ ((v.ref c 1).idx c).refcnt = 2 := by
      refine ⟨hh1, ?_⟩
      rw [hr1, h0]
      rfl
    have hun : ((v.ref c 1).unhash c)
        = (({ v.ref c 1 with
              conn_tab := list_del (list_del (v.ref c 1).conn_tab ⟨c, Dir.INBOUND⟩)
                ⟨c, Dir.OUTBOUND⟩,
              ct_tab := list_del (list_del (v.ref c 1).ct_tab ⟨c, Dir.INBOUND⟩)
                ⟨c, Dir.OUTBOUND⟩ } : IndexView).setIdx c
            { (v.ref c 1).idx c with
              hashed := false, refcnt := ((v.ref c 1).idx c).refcnt - 1 }) := by
      unfold IndexView.unhash
      rw [if_pos hcond]
    rcases hv with hv | ⟨_, hv⟩ | ⟨hne, _⟩
    · rw [hv]; exact h
    · rw [hv, hun]
      refine IndexView.ref_inv_of_release v _ held c h hc h0 ?_ ?_ ?_ rfl
      · intro j hj
        simp only [IndexView.free, IndexView.ref, IndexView.setIdx, if_neg hj]
      · intro h n hn
        simp only [IndexView.free, IndexView.ref, IndexView.setIdx, mem_list_del] at hn
        refine ⟨hn.1.1, fun x => ?_⟩
        rcases node_of_conn n c x with y | y
        · exact hn.1.2 y
        · exact hn.2 y
      · intro h n hn
        simp only [IndexView.free, IndexView.ref, IndexView.setIdx, mem_list_del] at hn
        refine ⟨hn.1.1, fun x => ?_⟩
        rcases node_of_conn n c x with y | y
        · exact hn.1.2 y
        · exact hn.2 y
    · exfalso
      apply hne
      rw [hun]
      simp only [IndexView.setIdx_idx_same]
      rw [hr1, h0]
      rfl
  · have hncond : ¬ (((v.ref c 1).idx c).hashed = true ∧ ((v.ref c 1).idx c).refcnt = 2) := by
      intro x
      rw [hr1] at x
      have := x.2
      omega
    have hun := IndexView.unhash_of_not (v.ref c 1) c hncond
    rcases hv with hv | ⟨he, _⟩ | ⟨_, hv⟩
    · rw [hv]; exact h
    · exfalso
      rw [hun, hr1] at he
      omega
    · rw [hv, hun, IndexView.hash_of_hashed env _ c hh1, IndexView.ref_ref]
      have : ((1 : Int) + -1) = 0 := by norm_num
      rw [this, IndexView.ref_zero]
      exact h
/-- Every state reached under the reference discipline satisfies the reference
invariant. -/
theorem RefReachable.ref_inv (env : Env) (s : State) (held : Nat → Nat)
    (h : RefReachable env s held) : s.view.ref_inv held := by
  induction h with
  | init s h1 h2 h3 h4 =>
    refine ⟨fun c hc hh => ?_, fun _ _ => rfl, fun h n hn => ?_, h4⟩
    · have : (s.conns c).flags.hashed = true := hh
      rw [h3 c hc] at this
      exact Bool.noConfusion this
    · rcases hn with hn | hn
      · have : n ∈ s.dp_vs_conn_tab h := hn
        rw [h1 h] at this
        exact absurd this (List.not_mem_nil _)
      · have : n ∈ s.dp_vs_ct_tab h := hn
        rw [h2 h] at this
        exact absurd this (List.not_mem_nil _)
  | new_ok s held mbuf param did flags cid s' _ hn ih =>
    obtain ⟨_, _, _, _, _, _, _, _, f5, f6, _⟩ :=
      dp_vs_conn_new_success_facts env s mbuf param did flags cid s' hn
    rcases dp_vs_conn_new_off env s mbuf param did flags (some cid) s' hn with
      ⟨_, hx, _⟩ | ⟨new, rest, hc, o1, o2, o3, o4⟩
    · exact Option.noConfusion hx
    · rcases o4 with ⟨hx, _⟩ | ⟨hx, _⟩ | ⟨hx, hcache⟩
      · exact Option.noConfusion hx
      · exact Option.noConfusion hx
      · have hcid : cid = new := Option.some.inj hx
        subst hcid
        refine IndexView.ref_inv_of_new_ok s.view s'.view held cid rest ih hc hcache
          (fun j hj => ?_) ?_ f5 o2 o3
        · show (s'.conns j).index = (s.conns j).index
          rw [o1 j hj]
        · show (s'.conns cid).flags.hashed = true
          rw [f6]
  | new_null s held mbuf param did flags s' _ hn hsyn ih =>
    obtain ⟨t1, t2, _⟩ := dp_vs_conn_new_failure_index env s mbuf param did flags s' hn hsyn
    rcases dp_vs_conn_new_off env s mbuf param did flags none s' hn with
      ⟨_, _, hx⟩ | ⟨new, rest, hc, o1, _, _, o4⟩
    · rw [hx]
      exact ih
    · refine IndexView.ref_inv_of_new_null s.view s'.view held new rest ih hc
        (fun j hj => ?_) t1 t2 ?_
      · show (s'.conns j).index = (s.conns j).index
        rw [o1 j hj]
      · rcases o4 with ⟨_, hx⟩ | ⟨_, hx, hz⟩ | ⟨hx, _⟩
        · exact Or.inl hx
        · refine Or.inr ⟨hx, ?_⟩
          show (s'.conns new).flags.hashed = false
          rw [hz]
          rfl
        · exact Option.noConfusion hx
  | get_hit s held af proto saddr daddr sport dport reverse cid dir _ hg ih =>
    rcases dp_vs_conn_get_cases env s af proto saddr daddr sport dport reverse with
      ⟨hx, _⟩ | ⟨n, hb, hm, hx, hs⟩
    · rw [hx] at hg
      exact Option.noConfusion hg
    · rw [hx] at hg
      have hcid : n.conn = cid := (Prod.mk.inj (Option.some.inj hg)).1
      rw [hs, view_conn_refcnt_inc, hcid]
      obtain ⟨d1, d2⟩ := ih.2.2.1 hb n (Or.inl hm)
      rw [hcid] at d1 d2
      exact IndexView.ref_inv_hold s.view held cid ih d1 d2
  | get_miss s held af proto saddr daddr sport dport reverse _ hg ih =>
    rcases dp_vs_conn_get_cases env s af proto saddr daddr sport dport reverse with
      ⟨_, hs⟩ | ⟨n, _, _, hx, _⟩
    · rw [hs]
      exact ih
    · rw [hx] at hg
      exact Option.noConfusion hg
  | put s held cid _ hp ih =>
    rw [view_dp_vs_conn_put]
    exact IndexView.ref_inv_unhold s.view held cid ih hp
  | put_no_reset s held cid _ hp ih =>
    rw [view_dp_vs_conn_put_no_reset]
    exact IndexView.ref_inv_unhold s.view held cid ih hp
  | expire s held cid s' _ hl hh he ih =>
    exact IndexView.ref_inv_expire env s.view s'.view held cid ih hh hl
      (view_conn_expire env s cid s' he)

/-- The state `state_new` is reached by one creation, whose caller holds one
reference to flow 0. -/
theorem state_new_reachable : RefReachable env0 state_new (hold (fun _ => 0) 0) :=
  RefReachable.new_ok state0 (fun _ => 0) mbuf0 param0 0 ConnFlags.zero 0 state_new
    (RefReachable.init state0 (fun _ => rfl) (fun _ => rfl) (fun _ _ => rfl) (by decide)) rfl

/-- The state `state_idle` is reached by one creation and the release of its
reference by `dp_vs_conn_put`. -/
theorem state_idle_reachable :
    RefReachable env0 state_idle (unhold (hold (fun _ => 0) 0) 0) :=
  RefReachable.put state_new (hold (fun _ => 0) 0) 0 state_new_reachable (by decide)

/-! ## Theorems for the claims -/

/-- C1. Indexing symmetry: when the two tuple nodes of a flow are linked in the
per-lcore table in the buckets `conn_hash` computes, carry their direction
tags, and no other linked node carries the same
`(af, proto, saddr, sport, daddr, dport)`, then `dp_vs_conn_get` without
reversal on the inbound tuple returns the flow with direction `INBOUND`, on the
outbound tuple it returns the flow with direction `OUTBOUND`, and each hit
raises the reference count of the flow by exactly one. -/
theorem dp_vs_conn_get_indexing_symmetry (env : Env) (s : State) (cid : Nat)
    (hin : (⟨cid, Dir.INBOUND⟩ : Node) ∈ s.dp_vs_conn_tab (conn_ihash env s cid))
    (hout : (⟨cid, Dir.OUTBOUND⟩ : Node) ∈ s.dp_vs_conn_tab (conn_ohash env s cid))
    (hdin : (s.conns cid).tuplehash_in.direct = Dir.INBOUND)
    (hdout : (s.conns cid).tuplehash_out.direct = Dir.OUTBOUND)
    (huin : ∀ h m, m ∈ s.dp_vs_conn_tab h → m ≠ ⟨cid, Dir.INBOUND⟩ →
      (s.tuple m).key ≠ (s.conns cid).tuplehash_in.key)
    (huout : ∀ h m, m ∈ s.dp_vs_conn_tab h → m ≠ ⟨cid, Dir.OUTBOUND⟩ →
      (s.tuple m).key ≠ (s.conns cid).tuplehash_out.key) :
    (dp_vs_conn_get env s (s.conns cid).tuplehash_in.af (s.conns cid).tuplehash_in.proto
        (s.conns cid).tuplehash_in.saddr (s.conns cid).tuplehash_in.daddr
        (s.conns cid).tuplehash_in.sport (s.conns cid).tuplehash_in.dport false).1
      = some (cid, Dir.INBOUND)
    ∧ ((dp_vs_conn_get env s (s.conns cid).tuplehash_in.af
        (s.conns cid).tuplehash_in.proto
        (s.conns cid).tuplehash_in.saddr (s.conns cid).tuplehash_in.daddr
        (s.conns cid).tuplehash_in.sport
        (s.conns cid).tuplehash_in.dport false).2.conns cid).refcnt
      = (s.conns cid).refcnt + 1
    ∧ (dp_vs_conn_get env s (s.conns cid).tuplehash_out.af
        (s.conns cid).tuplehash_out.proto
        (s.conns cid).tuplehash_out.saddr (s.conns cid).tuplehash_out.daddr
        (s.conns cid).tuplehash_out.sport (s.conns cid).tuplehash_out.dport false).1
      = some (cid, Dir.OUTBOUND)
    ∧ ((dp_vs_conn_get env s (s.conns cid).tuplehash_out.af
        (s.conns cid).tuplehash_out.proto
        (s.conns cid).tuplehash_out.saddr (s.conns cid).tuplehash_out.daddr
        (s.conns cid).tuplehash_out.sport
        (s.conns cid).tuplehash_out.dport false).2.conns cid).refcnt
      = (s.conns cid).refcnt + 1 := by
  have h1 := conn_get_hits_node env s ⟨cid, Dir.INBOUND⟩ hin huin
  have h2 := conn_get_hits_node env s ⟨cid, Dir.OUTBOUND⟩ hout huout
  simp only [State.tuple, DpVsConn.tuplehash] at h1 h2
  rw [h1, h2]
  simp [hdin, hdout]

/-- Witness of C1 on the flow `10.0.0.1:40000 -> 1.1.1.1:80` hashed in an empty
table. -/
theorem dp_vs_conn_get_indexing_symmetry_witness :
    (dp_vs_conn_get env0 state2 2 6 0x0a000001 0x01010101 40000 80 false).1
      = some (0, Dir.INBOUND)
    ∧ (dp_vs_conn_get env0 state2 2 6 0x02020202 0x0a000001 8080 40000 false).1
      = some (0, Dir.OUTBOUND) := by
  have h := dp_vs_conn_get_indexing_symmetry env0 state2 0 (by decide) (by decide)
    (by decide) (by decide)
    (fun h m hm hne => by
      rcases state2_nodes h m hm with rfl | rfl
      · decide
      · exact absurd rfl hne)
    (fun h m hm hne => by
      rcases state2_nodes h m hm with rfl | rfl
      · exact absurd rfl hne
      · decide)
  exact ⟨h.1, h.2.2.1⟩

/-- C2. Reverse equivalence: `dp_vs_conn_get` with `reverse = true` on
`(s, sp, d, dp)` returns the same flow and direction tag and leaves the same
state as `dp_vs_conn_get` with `reverse = false` on `(d, dp, s, sp)`. -/
theorem dp_vs_conn_get_reverse_equiv (env : Env) (s : State) (af : Int)
    (proto saddr daddr sport dport : Nat) :
    dp_vs_conn_get env s af proto saddr daddr sport dport true
      = dp_vs_conn_get env s af proto daddr saddr dport sport false := by
  simp only [dp_vs_conn_get, if_true, Bool.false_eq_true, if_false, conn_get_match,
    conn_get_match_reverse]

/-- C3. The function `conn_hash`: on a flow that already has `HASHED` it returns
`EXIST` and changes nothing; otherwise it returns `OK`, puts the inbound node at
the head of bucket `conn_hashkey(inbound tuple)` and the outbound node at the
head of bucket `conn_hashkey(outbound tuple)`, in the shared template table if
`TEMPLATE` is set and in the per-lcore table if not, leaves the other table and
every other record alone, sets `HASHED` and raises the reference count by one. -/
theorem conn_hash_spec (env : Env) (s : State) (cid : Nat) :
    ((s.conns cid).flags.hashed = true → conn_hash env s cid = (Err.EXIST, s))
    ∧ ((s.conns cid).flags.hashed = false →
        (conn_hash env s cid).1 = Err.OK
        ∧ (conn_hash env s cid).2.conns cid
            = { s.conns cid with
                flags := { (s.conns cid).flags with hashed := true },
                refcnt := (s.conns cid).refcnt + 1 }
        ∧ (∀ j, j ≠ cid → (conn_hash env s cid).2.conns j = s.conns j)
        ∧ (conn_hash env s cid).2.dests = s.dests
        ∧ ((s.conns cid).flags.template = true →
            (∀ h, (conn_hash env s cid).2.dp_vs_ct_tab h
              = (if h = conn_ohash env s cid then [⟨cid, Dir.OUTBOUND⟩] else [])
                ++ (if h = conn_ihash env s cid then [⟨cid, Dir.INBOUND⟩] else [])
                ++ s.dp_vs_ct_tab h)
            ∧ (conn_hash env s cid).2.dp_vs_conn_tab = s.dp_vs_conn_tab)
        ∧ ((s.conns cid).flags.template = false →
            (∀ h, (conn_hash env s cid).2.dp_vs_conn_tab h
              = (if h = conn_ohash env s cid then [⟨cid, Dir.OUTBOUND⟩] else [])
                ++ (if h = conn_ihash env s cid then [⟨cid, Dir.INBOUND⟩] else [])
                ++ s.dp_vs_conn_tab h)
            ∧ (conn_hash env s cid).2.dp_vs_ct_tab = s.dp_vs_ct_tab)) := by
  refine ⟨fun hh => ?_, fun hh => ?_⟩
  · simp [conn_hash, __conn_hash, hh]
  · refine ⟨?_, ?_, ?_, ?_, fun ht => ?_, fun ht => ?_⟩
    · simp [conn_hash, __conn_hash, hh]
    · simp [conn_hash, __conn_hash, hh, conn_refcnt_inc, State.setConn]
    · intro j hj
      simp only [conn_hash, __conn_hash, hh, conn_refcnt_inc, State.setConn, hj,
        Bool.false_eq_true, if_false]
      split_ifs <;> rfl
    · simp only [conn_hash, __conn_hash, hh, conn_refcnt_inc, State.setConn]
      split_ifs <;> rfl
    · refine ⟨fun h => ?_, ?_⟩
      · simp only [conn_hash, __conn_hash, hh, ht, conn_refcnt_inc, State.setConn,
          Bool.false_eq_true, if_false, if_true]
        exact list_add_twice_apply _ _ _ _ _ h
      · simp [conn_hash, __conn_hash, hh, ht, conn_refcnt_inc, State.setConn]
    · refine ⟨fun h => ?_, ?_⟩
      · simp only [conn_hash, __conn_hash, hh, ht, conn_refcnt_inc, State.setConn,
          Bool.false_eq_true, if_false]
        exact list_add_twice_apply _ _ _ _ _ h
      · simp [conn_hash, __conn_hash, hh, ht, conn_refcnt_inc, State.setConn]

/-- Witness of C3: hashing the unhashed flow `conn0` returns `OK`, hashing it a
second time returns `EXIST` and changes nothing. -/
theorem conn_hash_spec_witness :
    (conn_hash env0 state1 0).1 = Err.OK
    ∧ ((conn_hash env0 state1 0).2.conns 0).refcnt = 2
    ∧ conn_hash env0 state2 0 = (Err.EXIST, state2) :=
  ⟨((conn_hash_spec env0 state1 0).2 rfl).1,
   by rw [((conn_hash_spec env0 state1 0).2 rfl).2.1]; rfl,
   (conn_hash_spec env0 state2 0).1 rfl⟩

/-- C4. The function `conn_unhash`: it returns `NOTEXIST` exactly when `HASHED`
is clear and `BUSY` exactly when `HASHED` is set and the reference count is not
2, and then the state is unchanged; otherwise, with `HASHED` set and the
reference count 2, it returns `OK`, both tuple nodes of the flow leave their
buckets while every other node stays, `HASHED` is cleared and the reference
count is 1. -/
theorem conn_unhash_spec (s : State) (cid : Nat) :
    ((conn_unhash s cid).1 = Err.NOTEXIST ↔ (s.conns cid).flags.hashed = false)
    ∧ ((conn_unhash s cid).1 = Err.BUSY
        ↔ (s.conns cid).flags.hashed = true ∧ (s.conns cid).refcnt ≠ 2)
    ∧ ((conn_unhash s cid).1 = Err.NOTEXIST ∨ (conn_unhash s cid).1 = Err.BUSY →
        (conn_unhash s cid).2 = s)
    ∧ ((s.conns cid).flags.hashed = true ∧ (s.conns cid).refcnt = 2 →
        (conn_unhash s cid).1 = Err.OK
        ∧ (∀ h, (conn_unhash s cid).2.dp_vs_conn_tab h
            = (s.dp_vs_conn_tab h).filter (fun n => decide (n.conn ≠ cid)))
        ∧ (∀ h, (conn_unhash s cid).2.dp_vs_ct_tab h
            = (s.dp_vs_ct_tab h).filter (fun n => decide (n.conn ≠ cid)))
        ∧ (conn_unhash s cid).2.conns cid
            = { s.conns cid with
                flags := { (s.conns cid).flags with hashed := false },
                refcnt := 1 }
        ∧ (∀ j, j ≠ cid → (conn_unhash s cid).2.conns j = s.conns j)
        ∧ (conn_unhash s cid).2.dests = s.dests) := by
  by_cases hh : (s.conns cid).flags.hashed = true
  · by_cases hr : (s.conns cid).refcnt = 2
    · refine ⟨?_, ?_, ?_, fun _ => ⟨?_, fun h => ?_, fun h => ?_, ?_, ?_, ?_⟩⟩
      · simp [conn_unhash, hh, hr]
      · simp [conn_unhash, hh, hr]
      · simp [conn_unhash, hh, hr]
      · simp [conn_unhash, hh, hr]
      · simp only [conn_unhash, hh, hr, conn_refcnt_dec, State.setConn, if_true, ne_eq,
          not_true_eq_false, if_false]
        exact list_del_twice_apply _ _ h
      · simp only [conn_unhash, hh, hr, conn_refcnt_dec, State.setConn, if_true, ne_eq,
          not_true_eq_false, if_false]
        exact list_del_twice_apply _ _ h
      · simp [conn_unhash, hh, hr, conn_refcnt_dec, State.setConn]
      · intro j hj
        simp [conn_unhash, hh, hr, conn_refcnt_dec, State.setConn, hj]
      · simp [conn_unhash, hh, hr, conn_refcnt_dec, State.setConn]
    · refine ⟨?_, ?_, ?_, fun h => absurd h.2 hr⟩
      · simp [conn_unhash, hh, hr]
      · simp [conn_unhash, hh, hr]
      · simp [conn_unhash, hh, hr]
  · have hf : (s.conns cid).flags.hashed = false := by simpa using hh
    refine ⟨?_, ?_, ?_, fun h => absurd h.1 hh⟩
    · simp [conn_unhash, hf]
    · simp [conn_unhash, hf]
    · simp [conn_unhash, hf]

/-- Witness of C4: the hashed flow of `state2` has reference count 2 and is
unhashed with `OK`; the unhashed flow of `state1` gives `NOTEXIST`. -/
theorem conn_unhash_spec_witness :
    (conn_unhash state2 0).1 = Err.OK
    ∧ ((conn_unhash state2 0).2.conns 0).refcnt = 1
    ∧ (conn_unhash state1 0).2 = state1 :=
  ⟨((conn_unhash_spec state2 0).2.2.2 ⟨rfl, rfl⟩).1,
   by rw [((conn_unhash_spec state2 0).2.2.2 ⟨rfl, rfl⟩).2.2.2.1],
   (conn_unhash_spec state1 0).2.2.1 (Or.inl ((conn_unhash_spec state1 0).1.mpr rfl))⟩

/-- C5. Refcount conservation: after any sequence of lookups with
`dp_vs_conn_get` that each hit the flow and of releases with `dp_vs_conn_put`
or `dp_vs_conn_put_no_reset`, with as many releases as lookups (in whatever
order, in particular when each release follows its lookup), the reference
count of the flow is what it was before, its flags (so `HASHED`) are unchanged
and both tables hold the same nodes in the same buckets. -/
theorem refcount_conservation (env : Env) (cid : Nat) (ops : List RefOp) (s s' : State)
    (hrun : run_ref_ops env cid s ops = some s')
    (hbal : ops.countP RefOp.isGet = ops.countP (fun o => !o.isGet)) :
    (s'.conns cid).refcnt = (s.conns cid).refcnt
    ∧ (s'.conns cid).flags = (s.conns cid).flags
    ∧ s'.dp_vs_conn_tab = s.dp_vs_conn_tab
    ∧ s'.dp_vs_ct_tab = s.dp_vs_ct_tab := by
  obtain ⟨h1, h2, h3⟩ := run_ref_ops_effect env cid ops s s' hrun
  refine ⟨?_, ?_, h2, h3⟩
  · rw [h1, hbal]
    simp
  · rw [h1]

/-- Witness of C5: two lookups of the hashed flow of `state2`, one by each
tuple, followed by one release of each kind. -/
theorem refcount_conservation_witness :
    ∃ s', run_ref_ops env0 0 state2
        [RefOp.get 2 6 0x0a000001 0x01010101 40000 80 false,
         RefOp.get 2 6 0x0a000001 0x02020202 40000 8080 true,
         RefOp.put, RefOp.put_no_reset] = some s'
      ∧ (s'.conns 0).refcnt = 2 := by
  have hsome : (run_ref_ops env0 0 state2
      [RefOp.get 2 6 0x0a000001 0x01010101 40000 80 false,
       RefOp.get 2 6 0x0a000001 0x02020202 40000 8080 true,
       RefOp.put, RefOp.put_no_reset]).isSome = true := by decide
  obtain ⟨s', hs'⟩ := Option.isSome_iff_exists.mp hsome
  exact ⟨s', hs', (refcount_conservation env0 0 _ state2 s' hs' (by decide)).1⟩

/-- C7, the code at the failing input. The destination `dest_unsupported` has a
forwarding mode outside the `switch` of `conn_bind_dest` and passes `INACTIVE`
down. `conn_bind_dest` raises `refcnt` and `inactconns` and then fails with
`NOTSUPP`; `dp_vs_conn_new` returns `NULL` and gives the record back to the
pool without unbinding, so `refcnt` and `inactconns` of the destination end
one higher than before the call. On the sibling paths the counters are
restored: with an overloaded destination `conn_bind_dest` fails before it
counts, and with a Full-NAT destination and an exhausted local-address pool
the destination is unbound again. -/
theorem dp_vs_conn_new_notsupp_leaks_counters :
    ((conn_bind_dest (state1.setDest 0 dest_unsupported) 0 0).1 = Err.NOTSUPP
      ∧ (dp_vs_conn_new env0 (state0.setDest 0 dest_unsupported) mbuf0 param0 0
          ConnFlags.zero).map Prod.fst = some none
      ∧ ((state0.setDest 0 dest_unsupported).dests 0).counters = (0, 0, 0, 0)
      ∧ ((state_after (state0.setDest 0 dest_unsupported)
          (dp_vs_conn_new env0 (state0.setDest 0 dest_unsupported) mbuf0 param0 0
            ConnFlags.zero)).dests 0).counters = (1, 0, 1, 0)
      ∧ (state_after (state0.setDest 0 dest_unsupported)
          (dp_vs_conn_new env0 (state0.setDest 0 dest_unsupported) mbuf0 param0 0
            ConnFlags.zero)).conn_cache = [0, 1, 2])
    ∧ ((dp_vs_conn_new env0 (state0.setDest 0 dest_full) mbuf0 param0 0
          ConnFlags.zero).map Prod.fst = some none
      ∧ ((state0.setDest 0 dest_full).dests 0).counters = (0, 0, 1, 0)
      ∧ ((state_after (state0.setDest 0 dest_full)
          (dp_vs_conn_new env0 (state0.setDest 0 dest_full) mbuf0 param0 0
            ConnFlags.zero)).dests 0).counters = (0, 0, 1, 0))
    ∧ ((dp_vs_conn_new env_nolocal (state0.setDest 0 dest_fnat) mbuf0 param0 0
          ConnFlags.zero).map Prod.fst = some none
      ∧ ((state0.setDest 0 dest_fnat).dests 0).counters = (0, 0, 0, 0)
      ∧ ((state_after (state0.setDest 0 dest_fnat)
          (dp_vs_conn_new env_nolocal (state0.setDest 0 dest_fnat) mbuf0 param0 0
            ConnFlags.zero)).dests 0).counters = (0, 0, 0, 0)) := by
  decide

/-- C8, the code at the failing input. A SYN-proxy creation whose packet has no
complete TCP header fails after `conn_hash` has linked the flow:
`dp_vs_conn_new` returns `NULL` and gives record 0 back to the pool, the flow
count is unchanged, but both tuple nodes of record 0 are still linked in the
per-lcore table, which was empty before the call, and `HASHED` is still set. -/
theorem dp_vs_conn_new_synproxy_failure_leaves_nodes :
    (dp_vs_conn_new env0 state0 mbuf_short param0 0
        { ConnFlags.zero with synproxy := true }).map Prod.fst = some none
    ∧ (state_after state0 (dp_vs_conn_new env0 state0 mbuf_short param0 0
        { ConnFlags.zero with synproxy := true })).conn_cache = [0, 1, 2]
    ∧ (state_after state0 (dp_vs_conn_new env0 state0 mbuf_short param0 0
        { ConnFlags.zero with synproxy := true })).dp_vs_conn_count = state0.dp_vs_conn_count
    ∧ state0.dp_vs_conn_tab 65874 = [] ∧ state0.dp_vs_conn_tab 171587 = []
    ∧ (state_after state0 (dp_vs_conn_new env0 state0 mbuf_short param0 0
        { ConnFlags.zero with synproxy := true })).dp_vs_conn_tab 65874
        = [⟨0, Dir.INBOUND⟩]
    ∧ (state_after state0 (dp_vs_conn_new env0 state0 mbuf_short param0 0
        { ConnFlags.zero with synproxy := true })).dp_vs_conn_tab 171587
        = [⟨0, Dir.OUTBOUND⟩]
    ∧ ((state_after state0 (dp_vs_conn_new env0 state0 mbuf_short param0 0
        { ConnFlags.zero with synproxy := true })).conns 0).flags.hashed = true := by
  decide

/-- C9. No leak on overload: when `conn_bind_dest` returns `OVERLOAD`, the
destination's `refcnt`, `actconns`, `inactconns` and `persistconns` are what
they were before the call and the `dest` pointer of the flow has not been
assigned (it keeps its value, null for a fresh record). -/
theorem conn_bind_dest_overload_no_leak (s : State) (cid did : Nat)
    (h : (conn_bind_dest s cid did).1 = Err.OVERLOAD) :
    ((conn_bind_dest s cid did).2.dests did).refcnt = (s.dests did).refcnt
    ∧ ((conn_bind_dest s cid did).2.dests did).actconns = (s.dests did).actconns
    ∧ ((conn_bind_dest s cid did).2.dests did).inactconns = (s.dests did).inactconns
    ∧ ((conn_bind_dest s cid did).2.dests did).persistconns = (s.dests did).persistconns
    ∧ ((conn_bind_dest s cid did).2.conns cid).dest = (s.conns cid).dest := by
  unfold conn_bind_dest at h ⊢
  simp only [State.setConn] at h ⊢
  split_ifs at h ⊢ with hov
  · simp [State.setDest]
  · split at h <;> simp at h
  · split at h <;> simp at h

/-- Witness of C9: binding to a destination that is at its limit. -/
theorem conn_bind_dest_overload_no_leak_witness :
    ((conn_bind_dest (state1.setDest 0 { dest0 with max_conn := 1, inactconns := 1 })
        0 0).2.dests 0).inactconns = 1
    ∧ ((conn_bind_dest (state1.setDest 0 { dest0 with max_conn := 1, inactconns := 1 })
        0 0).2.dests 0).refcnt = 0 :=
  ⟨(conn_bind_dest_overload_no_leak
      (state1.setDest 0 { dest0 with max_conn := 1, inactconns := 1 }) 0 0 (by decide)).2.2.1,
   (conn_bind_dest_overload_no_leak
      (state1.setDest 0 { dest0 with max_conn := 1, inactconns := 1 }) 0 0 (by decide)).1⟩

/-- C10. Result of `conn_bind_dest`: it returns `OVERLOAD` exactly when
`max_conn != 0` and `inactconns + actconns >= max_conn`, and then the
destination has the `OVERLOAD` flag; otherwise it returns `NOTSUPP` exactly
when the forwarding mode is none of Direct-Routing, Full-NAT and Source-NAT;
otherwise it returns `OK`. With result `OK` the `dest` pointer of the flow is
the destination; with any other result it has not been assigned. -/
theorem conn_bind_dest_result (s : State) (cid did : Nat) :
    ((conn_bind_dest s cid did).1 = Err.OVERLOAD
      ↔ ((s.dests did).max_conn ≠ 0
          ∧ (s.dests did).inactconns + (s.dests did).actconns ≥ ((s.dests did).max_conn : Int)))
    ∧ ((conn_bind_dest s cid did).1 = Err.OVERLOAD →
        ((conn_bind_dest s cid did).2.dests did).flags.overload = true)
    ∧ ((conn_bind_dest s cid did).1 = Err.NOTSUPP
      ↔ (¬ ((s.dests did).max_conn ≠ 0
            ∧ (s.dests did).inactconns + (s.dests did).actconns
                ≥ ((s.dests did).max_conn : Int))
          ∧ (s.dests did).fwdmode ≠ FwdMode.DR ∧ (s.dests did).fwdmode ≠ FwdMode.FNAT
          ∧ (s.dests did).fwdmode ≠ FwdMode.SNAT))
    ∧ ((conn_bind_dest s cid did).1 = Err.OK
      ↔ (¬ ((s.dests did).max_conn ≠ 0
            ∧ (s.dests did).inactconns + (s.dests did).actconns
                ≥ ((s.dests did).max_conn : Int))
          ∧ ((s.dests did).fwdmode = FwdMode.DR ∨ (s.dests did).fwdmode = FwdMode.FNAT
              ∨ (s.dests did).fwdmode = FwdMode.SNAT)))
    ∧ ((conn_bind_dest s cid did).1 = Err.OK →
        ((conn_bind_dest s cid did).2.conns cid).dest = some did)
    ∧ ((conn_bind_dest s cid did).1 ≠ Err.OK →
        ((conn_bind_dest s cid did).2.conns cid).dest = (s.conns cid).dest) := by
  by_cases hov : (s.dests did).max_conn ≠ 0
      ∧ (s.dests did).inactconns + (s.dests did).actconns ≥ ((s.dests did).max_conn : Int)
  · have e := conn_bind_dest_of_overload s cid did hov
    refine ⟨?_, ?_, ?_, ?_, ?_, ?_⟩
    · rw [e]; exact ⟨fun _ => hov, fun _ => rfl⟩
    · intro _; rw [e]; simp only [setDest_dests_same]
    · rw [e]; exact Iff.intro (fun h => Err.noConfusion h) (fun h => absurd hov h.1)
    · rw [e]; exact Iff.intro (fun h => Err.noConfusion h) (fun h => absurd hov h.1)
    · rw [e]; intro h; cases h
    · intro _; rw [e]; simp only [setDest_frame, setConn_conns_same]
  · have hfst := conn_bind_dest_fst s cid did
    rw [if_neg hov] at hfst
    refine ⟨?_, ?_, ?_, ?_, ?_, ?_⟩
    · rw [hfst]
      refine ⟨fun h => ?_, fun h => absurd h hov⟩
      cases hm : (s.dests did).fwdmode <;> rw [hm] at h <;> cases h
    · intro h
      rw [hfst] at h
      cases hm : (s.dests did).fwdmode <;> rw [hm] at h <;> cases h
    · rw [hfst]
      cases hm : (s.dests did).fwdmode <;> simp [hov]
    · rw [hfst]
      cases hm : (s.dests did).fwdmode <;> simp [hov]
    · intro h
      exact (conn_bind_dest_ok s cid did h).2.2.1
    · intro h
      rw [hfst] at h
      cases ht : ((s.conns cid).flags.lor (s.dests did).conn_flags).template <;>
        cases hm : (s.dests did).fwdmode <;>
        first
        | (rw [hm] at h; exact absurd rfl h)
        | (unfold conn_bind_dest
           simp only [setConn_frame]
           rw [if_neg hov]
           simp only [setConn_frame, setDest_frame, setConn_conns_same, setDest_dests_same,
             ht, hm, if_true, if_false, Bool.false_eq_true])

/-- Witness of C10: a destination at its limit gives `OVERLOAD`, the
direct-routing destination `dest0` gives `OK` and the flow points to it. -/
theorem conn_bind_dest_result_witness :
    (conn_bind_dest (state1.setDest 0 { dest0 with max_conn := 1, inactconns := 1 }) 0 0).1
      = Err.OVERLOAD
    ∧ ((conn_bind_dest state1 0 0).2.conns 0).dest = some 0 :=
  ⟨(conn_bind_dest_result (state1.setDest 0 { dest0 with max_conn := 1, inactconns := 1 })
      0 0).1.mpr (by decide),
   (conn_bind_dest_result state1 0 0).2.2.2.2.1
     ((conn_bind_dest_result state1 0 0).2.2.2.1.mpr (by decide))⟩

/-- C11. Success of `conn_bind_dest`: when it returns `OK`, the flags of the flow
are its old flags or-ed with the connection flags of the destination, the
`refcnt` of the destination is one higher, `persistconns` is one higher and
`inactconns` unchanged if the flow then carries `TEMPLATE`, `inactconns` is one
higher and `persistconns` unchanged if not, `actconns` is unchanged, the flow
points to the destination, and the transmitters follow the mode:
Direct-Routing installs the inbound transmitter and does not assign the
outbound one, Full-NAT and Source-NAT install both. -/
theorem conn_bind_dest_success (s : State) (cid did : Nat)
    (h : (conn_bind_dest s cid did).1 = Err.OK) :
    ((conn_bind_dest s cid did).2.conns cid).flags
        = (s.conns cid).flags.lor (s.dests did).conn_flags
    ∧ ((conn_bind_dest s cid did).2.dests did).refcnt = (s.dests did).refcnt + 1
    ∧ (((conn_bind_dest s cid did).2.conns cid).flags.template = true →
        ((conn_bind_dest s cid did).2.dests did).persistconns = (s.dests did).persistconns + 1
        ∧ ((conn_bind_dest s cid did).2.dests did).inactconns = (s.dests did).inactconns)
    ∧ (((conn_bind_dest s cid did).2.conns cid).flags.template = false →
        ((conn_bind_dest s cid did).2.dests did).inactconns = (s.dests did).inactconns + 1
        ∧ ((conn_bind_dest s cid did).2.dests did).persistconns = (s.dests did).persistconns)
    ∧ ((conn_bind_dest s cid did).2.dests did).actconns = (s.dests did).actconns
    ∧ ((conn_bind_dest s cid did).2.conns cid).dest = some did
    ∧ ((s.dests did).fwdmode = FwdMode.DR →
        ((conn_bind_dest s cid did).2.conns cid).packet_xmit = some Xmit.dp_vs_xmit_dr
        ∧ ((conn_bind_dest s cid did).2.conns cid).packet_out_xmit
            = (s.conns cid).packet_out_xmit)
    ∧ ((s.dests did).fwdmode = FwdMode.FNAT →
        ((conn_bind_dest s cid did).2.conns cid).packet_xmit = some Xmit.dp_vs_xmit_fnat
        ∧ ((conn_bind_dest s cid did).2.conns cid).packet_out_xmit
            = some Xmit.dp_vs_out_xmit_fnat)
    ∧ ((s.dests did).fwdmode = FwdMode.SNAT →
        ((conn_bind_dest s cid did).2.conns cid).packet_xmit = some Xmit.dp_vs_xmit_snat
        ∧ ((conn_bind_dest s cid did).2.conns cid).packet_out_xmit
            = some Xmit.dp_vs_out_xmit_snat) := by
  obtain ⟨hc, hf, hd, _⟩ := conn_bind_dest_ok s cid did h
  obtain ⟨x1, x2, x3⟩ := conn_bind_dest_xmit s cid did h
  simp only [DpVsDest.counters, Prod.mk.injEq] at hc
  obtain ⟨c1, c2, c3, c4⟩ := hc
  refine ⟨hf, c1, fun ht => ?_, fun ht => ?_, c2, hd, x1, x2, x3⟩
  · rw [hf] at ht
    rw [c3, c4, ht]
    simp
  · rw [hf] at ht
    rw [c3, c4, ht]
    simp

/-- Witness of C11: binding the flow `conn0` to the direct-routing destination
`dest0`. -/
theorem conn_bind_dest_success_witness :
    ((conn_bind_dest state1 0 0).2.dests 0).refcnt = 1
    ∧ ((conn_bind_dest state1 0 0).2.dests 0).inactconns = 1
    ∧ ((conn_bind_dest state1 0 0).2.conns 0).packet_xmit = some Xmit.dp_vs_xmit_dr
    ∧ ((conn_bind_dest state1 0 0).2.conns 0).packet_out_xmit = none :=
  ⟨(conn_bind_dest_success state1 0 0 (by decide)).2.1,
   ((conn_bind_dest_success state1 0 0 (by decide)).2.2.2.1 (by decide)).1,
   ((conn_bind_dest_success state1 0 0 (by decide)).2.2.2.2.2.2.1 (by decide)).1,
   ((conn_bind_dest_success state1 0 0 (by decide)).2.2.2.2.2.2.1 (by decide)).2⟩

/-- C12. Unbind reverses bind: for every flow and every destination that passes
`INACTIVE` down in its connection flags (as the comment at the head of
`conn_bind_dest` says destinations do: a new flow starts inactive), when
`conn_bind_dest` returns `OK`, `conn_unbind_dest` called right afterwards
returns, brings `refcnt`, `actconns`, `inactconns` and `persistconns` of the
destination back to their values before the bind, and leaves the `dest`
pointer of the flow null. -/
theorem conn_unbind_dest_reverses_bind (s : State) (cid did : Nat)
    (h : (conn_bind_dest s cid did).1 = Err.OK)
    (hi : (s.dests did).conn_flags.inactive = true) :
    ∃ u : State, conn_unbind_dest (conn_bind_dest s cid did).2 cid = some (Err.OK, u)
      ∧ (u.dests did).refcnt = (s.dests did).refcnt
      ∧ (u.dests did).actconns = (s.dests did).actconns
      ∧ (u.dests did).inactconns = (s.dests did).inactconns
      ∧ (u.dests did).persistconns = (s.dests did).persistconns
      ∧ (u.conns cid).dest = none := by
  obtain ⟨hc, hfl, hd, _⟩ := conn_bind_dest_ok s cid did h
  obtain ⟨u, hu, huc, _⟩ := conn_unbind_dest_counters (conn_bind_dest s cid did).2 cid did hd
  have hnone := (conn_unbind_dest_dest _ cid _ hu).2
  have hin : ((s.conns cid).flags.lor (s.dests did).conn_flags).inactive = true := by
    simp only [ConnFlags.lor, hi, Bool.or_true]
  refine ⟨u, hu, ?_⟩
  rw [hfl] at huc
  simp only [DpVsDest.counters, Prod.mk.injEq] at hc huc
  obtain ⟨c1, c2, c3, c4⟩ := hc
  obtain ⟨u1, u2, u3, u4⟩ := huc
  rw [u1, u2, u3, u4, c1, c2, c3, c4]
  refine ⟨by ring, ?_, ?_, ?_, hnone⟩ <;>
    cases ht : ((s.conns cid).flags.lor (s.dests did).conn_flags).template <;>
    simp [ht, hin]

/-- Witness of C12: record 1 of `state0` carries no flag of its own and the
destination `dest0` passes `INACTIVE` down; binding the record to `dest0`
raises `refcnt` and `inactconns`, and unbinding it leaves `refcnt`, `actconns`,
`inactconns` and `persistconns` of `dest0` at zero and the `dest` pointer
null. -/
theorem conn_unbind_dest_reverses_bind_witness :
    (state0.conns 1).flags.inactive = false
    ∧ (conn_bind_dest state0 1 0).1 = Err.OK
    ∧ ((conn_bind_dest state0 1 0).2.dests 0).counters = (1, 0, 1, 0)
    ∧ ∃ u : State, conn_unbind_dest (conn_bind_dest state0 1 0).2 1 = some (Err.OK, u)
      ∧ (u.dests 0).refcnt = 0 ∧ (u.dests 0).actconns = 0 ∧ (u.dests 0).inactconns = 0
      ∧ (u.dests 0).persistconns = 0 ∧ (u.conns 1).dest = none :=
  ⟨by decide, by decide, by decide,
   conn_unbind_dest_reverses_bind state0 1 0 (by decide) (by decide)⟩

/-- C13. Postcondition of a successful creation: when `dp_vs_conn_new` returns
a flow whose flags (the supplied ones or-ed with the connection flags of the
destination) lack `TEMPLATE`, and `SYNPROXY` was not requested, the returned
flow has reference count 2, carries `HASHED` (which the supplied flags lacked)
with both nodes linked in the per-core table, is in state 0, has no controller
and controls no flow; `refcnt` and `inactconns` of the destination are one
higher than before; the flow count is one higher; the deadline handed to the
jitter and then to the timer is `conn_init_timeout` seconds, whose default
`DPVS_CONN_INIT_TIMEOUT_DEF` is 3. -/
theorem dp_vs_conn_new_success_post (env : Env) (s : State) (mbuf : Mbuf)
    (param : DpVsConnParam) (did : Nat) (flags : ConnFlags) (cid : Nat) (s' : State)
    (hret : dp_vs_conn_new env s mbuf param did flags = some (some cid, s'))
    (ht : (flags.lor (s.dests did).conn_flags).template = false)
    (hs : flags.synproxy = false) :
    (s'.conns cid).refcnt = 2
    ∧ flags.hashed = false
    ∧ (s'.conns cid).flags.hashed = true
    ∧ (⟨cid, Dir.INBOUND⟩ : Node) ∈ s'.dp_vs_conn_tab (conn_ihash env s' cid)
    ∧ (⟨cid, Dir.OUTBOUND⟩ : Node) ∈ s'.dp_vs_conn_tab (conn_ohash env s' cid)
    ∧ (s'.conns cid).state = 0
    ∧ (s'.conns cid).control = none
    ∧ (s'.conns cid).n_control = 0
    ∧ (s'.dests did).refcnt = (s.dests did).refcnt + 1
    ∧ (s'.dests did).inactconns = (s.dests did).inactconns + 1
    ∧ s'.dp_vs_conn_count = s.dp_vs_conn_count + 1
    ∧ (s'.conns cid).timeout = env.dpvs_time_rand_delay ⟨s.conn_init_timeout, 0⟩ 1000000
    ∧ s'.log = Event.timer_sched cid
        (env.dpvs_time_rand_delay ⟨s.conn_init_timeout, 0⟩ 1000000) false :: s.log
    ∧ DPVS_CONN_INIT_TIMEOUT_DEF = 3 := by
  obtain ⟨rest, rport, _, _, _, _, f3, _, f5, f6, f7, f8, f9, f10⟩ :=
    dp_vs_conn_new_success_facts env s mbuf param did flags cid s' hret
  obtain ⟨n1, n2⟩ := f9 ht
  obtain ⟨t1, t2, t3⟩ := f10 (by rw [hs]; rfl)
  simp only [Prod.mk.injEq] at f3
  simp only [DpVsDest.counters, Prod.mk.injEq, ht, Bool.false_eq_true, if_false] at f7
  have hh : (flags.lor (s.dests did).conn_flags).hashed = false := by
    obtain ⟨new, rest, rport, _, _, hb⟩ := dp_vs_conn_new_some env s mbuf param did flags cid s' hret
    obtain ⟨bok, s3, hl, hok, _⟩ := conn_new_bound_some env _ mbuf param did flags new cid s' hb
    have g1 := (conn_hash_ok env s3 new hok).1
    have l7 := (conn_new_laddr_some env _ did new s3 hl).2.2.2.2.2.2.1
    have k2 := (conn_bind_dest_ok _ new did bok).2.1
    simp only [setConn_conns_same, setConn_frame] at k2
    rw [l7, k2] at g1
    exact g1
  refine ⟨f5, ?_, ?_, n1, n2, t1, ?_, ?_, f7.1, f7.2.2.1, f8, t2, ?_, rfl⟩
  · cases hf : flags.hashed
    · rfl
    · have : (flags.lor (s.dests did).conn_flags).hashed = true := by
        simp only [ConnFlags.lor, hf, Bool.true_or]
      rw [hh] at this
      exact Bool.noConfusion this
  · rw [f6]
  · rw [f3.2.2.2.2.2.2.2.2.1]
    rfl
  · rw [f3.2.2.2.2.2.2.2.2.2]
    rfl
  · rw [t3, ht]

/-- Witness of C13: the flow `param0` created on the direct-routing destination
from the initial state. -/
theorem dp_vs_conn_new_success_post_witness :
    dp_vs_conn_new env0 state0 mbuf0 param0 0 ConnFlags.zero = some (some 0, state_new)
    ∧ (state_new.conns 0).refcnt = 2
    ∧ (state_new.conns 0).flags.hashed = true
    ∧ (⟨0, Dir.INBOUND⟩ : Node) ∈ state_new.dp_vs_conn_tab (conn_ihash env0 state_new 0)
    ∧ (⟨0, Dir.OUTBOUND⟩ : Node) ∈ state_new.dp_vs_conn_tab (conn_ohash env0 state_new 0)
    ∧ (state_new.dests 0).refcnt = (state0.dests 0).refcnt + 1
    ∧ (state_new.dests 0).inactconns = (state0.dests 0).inactconns + 1
    ∧ state_new.dp_vs_conn_count = state0.dp_vs_conn_count + 1
    ∧ (state_new.conns 0).timeout = ⟨3, 0⟩ :=
  ⟨rfl,
   (dp_vs_conn_new_success_post env0 state0 mbuf0 param0 0 ConnFlags.zero 0 state_new rfl
      (by decide) (by decide)).1,
   (dp_vs_conn_new_success_post env0 state0 mbuf0 param0 0 ConnFlags.zero 0 state_new rfl
      (by decide) (by decide)).2.2.1,
   (dp_vs_conn_new_success_post env0 state0 mbuf0 param0 0 ConnFlags.zero 0 state_new rfl
      (by decide) (by decide)).2.2.2.1,
   (dp_vs_conn_new_success_post env0 state0 mbuf0 param0 0 ConnFlags.zero 0 state_new rfl
      (by decide) (by decide)).2.2.2.2.1,
   (dp_vs_conn_new_success_post env0 state0 mbuf0 param0 0 ConnFlags.zero 0 state_new rfl
      (by decide) (by decide)).2.2.2.2.2.2.2.2.1,
   (dp_vs_conn_new_success_post env0 state0 mbuf0 param0 0 ConnFlags.zero 0 state_new rfl
      (by decide) (by decide)).2.2.2.2.2.2.2.2.2.1,
   (dp_vs_conn_new_success_post env0 state0 mbuf0 param0 0 ConnFlags.zero 0 state_new rfl
      (by decide) (by decide)).2.2.2.2.2.2.2.2.2.2.1,
   (dp_vs_conn_new_success_post env0 state0 mbuf0 param0 0 ConnFlags.zero 0 state_new rfl
      (by decide) (by decide)).2.2.2.2.2.2.2.2.2.2.2.1⟩

/-- C14. Real-server port selection: after a successful `dp_vs_conn_new`, the
`dport` of the flow and the `sport` of the outbound node are `ct_dport` of the
parameters when `TEMPLATE` is among the supplied flags or `ct_dport` is not 0;
otherwise, for a Source-NAT destination, they are the L4 source port read from
the packet, and the `saddr` of the outbound node and the `daddr` of the flow
are the IP source address of the packet; otherwise they are the port of the
destination and the two addresses are the address of the destination. -/
theorem dp_vs_conn_new_rport_selection (env : Env) (s : State) (mbuf : Mbuf)
    (param : DpVsConnParam) (did : Nat) (flags : ConnFlags) (cid : Nat) (s' : State)
    (hret : dp_vs_conn_new env s mbuf param did flags = some (some cid, s')) :
    ((flags.template = true ∨ param.ct_dport ≠ 0) →
        (s'.conns cid).dport = param.ct_dport
        ∧ (s'.conns cid).tuplehash_out.sport = param.ct_dport)
    ∧ (¬ (flags.template = true ∨ param.ct_dport ≠ 0) →
        (s.dests did).fwdmode = FwdMode.SNAT →
        (s'.conns cid).dport = mbuf.l4_sport
        ∧ (s'.conns cid).tuplehash_out.sport = mbuf.l4_sport
        ∧ (s'.conns cid).tuplehash_out.saddr = mbuf.src_addr
        ∧ (s'.conns cid).daddr = mbuf.src_addr)
    ∧ (¬ (flags.template = true ∨ param.ct_dport ≠ 0) →
        (s.dests did).fwdmode ≠ FwdMode.SNAT →
        (s'.conns cid).dport = (s.dests did).port
        ∧ (s'.conns cid).tuplehash_out.sport = (s.dests did).port
        ∧ (s'.conns cid).tuplehash_out.saddr = (s.dests did).addr
        ∧ (s'.conns cid).daddr = (s.dests did).addr) := by
  obtain ⟨rest, rport, _, hr, _, f2, f3, _⟩ :=
    dp_vs_conn_new_success_facts env s mbuf param did flags cid s' hret
  simp only [Prod.mk.injEq] at f2 f3
  obtain ⟨_, _, _, o4, o5⟩ := f2
  obtain ⟨_, _, _, _, p5, _, _, p8, _, _⟩ := f3
  have e1 : (s'.conns cid).dport = rport := by rw [p8]; rfl
  have e2 : (s'.conns cid).tuplehash_out.sport = rport := by rw [o5]; rfl
  have e3 : (s'.conns cid).tuplehash_out.saddr
      = if (s.dests did).fwdmode = FwdMode.SNAT then mbuf.src_addr else (s.dests did).addr := by
    rw [o4]; rfl
  have e4 : (s'.conns cid).daddr
      = if (s.dests did).fwdmode = FwdMode.SNAT then mbuf.src_addr else (s.dests did).addr := by
    rw [p5]; rfl
  unfold conn_new_rport at hr
  refine ⟨fun h => ?_, fun h hm => ?_, fun h hm => ?_⟩
  · have hc : (flags.template || param.ct_dport != 0) = true := by
      rcases h with h | h
      · rw [h]; rfl
      · simp only [Bool.or_eq_true, bne_iff_ne, ne_eq]
        exact Or.inr h
    rw [if_pos hc] at hr
    have := Option.some.inj hr
    rw [e1, e2, ← this]
    exact ⟨rfl, rfl⟩
  · have hc : ¬ (flags.template || param.ct_dport != 0) = true := by
      simp only [Bool.or_eq_true, bne_iff_ne, ne_eq]
      exact h
    rw [if_neg hc, if_pos hm] at hr
    by_cases hp : mbuf_header_pointer mbuf 4 = true
    · rw [if_pos hp] at hr
      have := Option.some.inj hr
      rw [e1, e2, e3, e4, if_pos hm, ← this]
      exact ⟨rfl, rfl, rfl, rfl⟩
    · rw [if_neg hp] at hr
      exact Option.noConfusion hr
  · have hc : ¬ (flags.template || param.ct_dport != 0) = true := by
      simp only [Bool.or_eq_true, bne_iff_ne, ne_eq]
      exact h
    rw [if_neg hc, if_neg hm] at hr
    have := Option.some.inj hr
    rw [e1, e2, e3, e4, if_neg hm, ← this]
    exact ⟨rfl, rfl, rfl, rfl⟩

/-- Witness of C14: the flow `param0`, which names no template port, created on
a Source-NAT destination takes port 40000 and address `10.0.0.1` from the
packet. -/
theorem dp_vs_conn_new_rport_selection_witness :
    ∃ s', dp_vs_conn_new env0 (state0.setDest 0 dest_snat) mbuf0 param0 0 ConnFlags.zero
        = some (some 0, s')
      ∧ (s'.conns 0).dport = 40000
      ∧ (s'.conns 0).tuplehash_out.sport = 40000
      ∧ (s'.conns 0).tuplehash_out.saddr = 0x0a000001
      ∧ (s'.conns 0).daddr = 0x0a000001 :=
  ⟨state_after (state0.setDest 0 dest_snat)
      (dp_vs_conn_new env0 (state0.setDest 0 dest_snat) mbuf0 param0 0 ConnFlags.zero),
    rfl,
    (dp_vs_conn_new_rport_selection env0 (state0.setDest 0 dest_snat) mbuf0 param0 0
      ConnFlags.zero 0 _ rfl).2.1 (by decide) (by decide)⟩

/-- C15. Tuple population: after a successful `dp_vs_conn_new` on a destination
whose forwarding mode is not Full-NAT, the inbound node has direction `INBOUND`,
source `(caddr, cport)` and destination `(vaddr, vport)` of the parameters; the
outbound node has direction `OUTBOUND` and destination `(caddr, cport)`; both
nodes carry `af` and `proto` of the parameters; and the flow has `caddr`,
`cport`, `vaddr`, `vport` of the parameters, `laddr = caddr` and
`lport = cport`. -/
theorem dp_vs_conn_new_tuples (env : Env) (s : State) (mbuf : Mbuf)
    (param : DpVsConnParam) (did : Nat) (flags : ConnFlags) (cid : Nat) (s' : State)
    (hret : dp_vs_conn_new env s mbuf param did flags = some (some cid, s'))
    (hm : (s.dests did).fwdmode ≠ FwdMode.FNAT) :
    (s'.conns cid).tuplehash_in
        = ⟨Dir.INBOUND, param.af, param.proto, param.caddr, param.cport,
            param.vaddr, param.vport⟩
    ∧ (s'.conns cid).tuplehash_out.direct = Dir.OUTBOUND
    ∧ (s'.conns cid).tuplehash_out.daddr = param.caddr
    ∧ (s'.conns cid).tuplehash_out.dport = param.cport
    ∧ (s'.conns cid).tuplehash_out.af = param.af
    ∧ (s'.conns cid).tuplehash_out.proto = param.proto
    ∧ (s'.conns cid).caddr = param.caddr
    ∧ (s'.conns cid).cport = param.cport
    ∧ (s'.conns cid).vaddr = param.vaddr
    ∧ (s'.conns cid).vport = param.vport
    ∧ (s'.conns cid).laddr = (s'.conns cid).caddr
    ∧ (s'.conns cid).lport = (s'.conns cid).cport := by
  obtain ⟨rest, rport, _, _, _, _, _, f4, _⟩ :=
    dp_vs_conn_new_success_facts env s mbuf param did flags cid s' hret
  have hb := f4 hm
  simp only [DpVsConn.body, Prod.mk.injEq] at hb
  obtain ⟨_, _, ⟨a1, a2, a3, _⟩, ⟨a5, a6, a7, _⟩, hin, hout, _, _⟩ := hb
  refine ⟨?_, ?_, ?_, ?_, ?_, ?_, ?_, ?_, ?_, ?_, ?_, ?_⟩
  · rw [hin]; rfl
  · rw [hout]; rfl
  · rw [hout]; rfl
  · rw [hout]; rfl
  · rw [hout]; rfl
  · rw [hout]; rfl
  · rw [a1]; rfl
  · rw [a5]; rfl
  · rw [a2]; rfl
  · rw [a6]; rfl
  · rw [a3, a1]; rfl
  · rw [a7, a5]; rfl

/-- Witness of C15: the flow `param0` created on the direct-routing destination
from the initial state. -/
theorem dp_vs_conn_new_tuples_witness :
    dp_vs_conn_new env0 state0 mbuf0 param0 0 ConnFlags.zero = some (some 0, state_new)
    ∧ (state0.dests 0).fwdmode ≠ FwdMode.FNAT
    ∧ (state_new.conns 0).tuplehash_in
        = ⟨Dir.INBOUND, 2, 6, 0x0a000001, 40000, 0x01010101, 80⟩
    ∧ (state_new.conns 0).tuplehash_out.direct = Dir.OUTBOUND
    ∧ (state_new.conns 0).tuplehash_out.daddr = 0x0a000001
    ∧ (state_new.conns 0).tuplehash_out.dport = 40000 :=
  ⟨rfl, by decide,
   (dp_vs_conn_new_tuples env0 state0 mbuf0 param0 0 ConnFlags.zero 0 state_new rfl
      (by decide)).1,
   (dp_vs_conn_new_tuples env0 state0 mbuf0 param0 0 ConnFlags.zero 0 state_new rfl
      (by decide)).2.1,
   (dp_vs_conn_new_tuples env0 state0 mbuf0 param0 0 ConnFlags.zero 0 state_new rfl
      (by decide)).2.2.1,
   (dp_vs_conn_new_tuples env0 state0 mbuf0 param0 0 ConnFlags.zero 0 state_new rfl
      (by decide)).2.2.2.1⟩

/-- C16. Result of `dp_vs_check_template`: it returns 1 exactly when the
template has a destination, the destination carries `AVAILABLE`, and it is
not the case that `expire_quiescent_template` is on and the weight of the
destination is 0; otherwise it returns 0. When it returns 1 nothing has
changed: ports, flags, reference count and both tables are as before. -/
theorem dp_vs_check_template_result (env : Env) (s : State) (ct : Nat) :
    ((dp_vs_check_template env s ct).1 = 1
      ↔ ∃ did, (s.conns ct).dest = some did ∧ (s.dests did).flags.available = true
          ∧ ¬ (s.conn_expire_quiescent_template = true ∧ (s.dests did).weight = 0))
    ∧ ((dp_vs_check_template env s ct).1 = 1 → (dp_vs_check_template env s ct).2 = s)
    ∧ ((dp_vs_check_template env s ct).1 ≠ 1 → (dp_vs_check_template env s ct).1 = 0) := by
  rw [← check_template_unavailable_false]
  unfold dp_vs_check_template
  cases hu : check_template_unavailable s ct <;> simp

/-- Witness of C16: the template of `state_tmpl` has an available destination
of weight 1, so the check returns 1 and leaves the state alone. -/
theorem dp_vs_check_template_result_witness :
    (dp_vs_check_template env0 state_tmpl 0).1 = 1
    ∧ (dp_vs_check_template env0 state_tmpl 0).2 = state_tmpl :=
  ⟨(dp_vs_check_template_result env0 state_tmpl 0).1.mpr ⟨0, by decide, by decide, by decide⟩,
   (dp_vs_check_template_result env0 state_tmpl 0).2.1
     ((dp_vs_check_template_result env0 state_tmpl 0).1.mpr
       ⟨0, by decide, by decide, by decide⟩)⟩

/-- C17, the code at the failing input. The template of `state_tmpl_down` is
hashed, held by the index and its creator (reference count 2), has virtual
port 80 and an unavailable destination. `dp_vs_check_template` returns 0 and
the ports are not rewritten: `conn_unhash` succeeds, its result 0 fails the
test `if (conn_unhash(ct))`, and `vport` and `dport` keep the values 80 and
8080. With one more holder (reference count 3) `conn_unhash` reports `BUSY`,
the rewrite runs, and on a little-endian host the 16-bit fields receive the
low half of `htonl(0xffff)`, which is 0, not `0xffff`. -/
theorem dp_vs_check_template_ports_not_sentinel :
    ((state_tmpl_down.conns 0).flags.hashed = true
      ∧ (state_tmpl_down.conns 0).flags.template = true
      ∧ (state_tmpl_down.conns 0).refcnt = 2
      ∧ (state_tmpl_down.conns 0).vport = 80
      ∧ (state_tmpl_down.dests 0).flags.available = false
      ∧ (dp_vs_check_template env0 state_tmpl_down 0).1 = 0
      ∧ ((dp_vs_check_template env0 state_tmpl_down 0).2.conns 0).vport = 80
      ∧ ((dp_vs_check_template env0 state_tmpl_down 0).2.conns 0).dport = 8080)
    ∧ ((state_tmpl_shared_down.conns 0).refcnt = 3
      ∧ (dp_vs_check_template env0 state_tmpl_shared_down 0).1 = 0
      ∧ ((dp_vs_check_template env0 state_tmpl_shared_down 0).2.conns 0).vport = 0
      ∧ ((dp_vs_check_template env0 state_tmpl_shared_down 0).2.conns 0).dport = 0) := by
  decide

/-- C18, as amended. Template quiescence: with `expire_quiescent_template` on,
for a hashed template whose destination has weight 0, whose virtual port is not
the sentinel and which is held by the index and one caller only (reference
count 2), `dp_vs_check_template` returns 0 and afterwards `dp_vs_ct_in_get`
returns this template for no query; for the inbound tuple of the template it
returns none, provided no node of another flow linked in the shared table
carries that tuple. -/
theorem dp_vs_check_template_quiescent (env : Env) (s : State) (ct did : Nat)
    (hq : s.conn_expire_quiescent_template = true)
    (hd : (s.conns ct).dest = some did) (hw : (s.dests did).weight = 0)
    (hh : (s.conns ct).flags.hashed = true) (hr : (s.conns ct).refcnt = 2)
    (hv : (s.conns ct).vport ≠ htons env 0xffff)
    (hu : ∀ h n, n ∈ s.dp_vs_ct_tab h → n.conn ≠ ct →
      (s.tuple n).key ≠ (s.conns ct).tuplehash_in.key) :
    (dp_vs_check_template env s ct).1 = 0
    ∧ (∀ af proto saddr daddr sport dport,
        (dp_vs_ct_in_get env (dp_vs_check_template env s ct).2
          af proto saddr daddr sport dport).1 ≠ some ct)
    ∧ (dp_vs_ct_in_get env (dp_vs_check_template env s ct).2
        (s.conns ct).tuplehash_in.af (s.conns ct).tuplehash_in.proto
        (s.conns ct).tuplehash_in.saddr (s.conns ct).tuplehash_in.daddr
        (s.conns ct).tuplehash_in.sport (s.conns ct).tuplehash_in.dport).1 = none := by
  have hun : check_template_unavailable s ct = true := by
    unfold check_template_unavailable
    simp only [hd, hq, hw, beq_self_eq_true, Bool.and_self, Bool.or_true]
  obtain ⟨k1, _, k3, k4, _⟩ := dp_vs_check_template_sole_holder env s ct hun hv hh hr
  have hmem : ∀ af proto saddr daddr sport dport c,
      (dp_vs_ct_in_get env (dp_vs_check_template env s ct).2
        af proto saddr daddr sport dport).1 = some c →
      ∃ n h, n ∈ s.dp_vs_ct_tab h ∧ n.conn = c ∧ n.conn ≠ ct
        ∧ (s.tuple n).key
            = (af, proto, inet_addr_part af saddr, sport, inet_addr_part af daddr, dport) := by
    intro af proto saddr daddr sport dport c hc
    obtain ⟨n, hn, hnc, hm, _⟩ := dp_vs_ct_in_get_hit env _ af proto saddr daddr sport dport c hc
    rw [k4, List.mem_filter] at hn
    have hne : n.conn ≠ ct := of_decide_eq_true hn.2
    have ht : (dp_vs_check_template env s ct).2.tuple n = s.tuple n := by
      simp only [State.tuple, k3 n.conn hne]
    rw [ht] at hm
    exact ⟨n, _, hn.1, hnc, hne, ct_in_get_match_key _ _ _ _ _ _ _ _ hm⟩
  refine ⟨k1, fun af proto saddr daddr sport dport hc => ?_, ?_⟩
  · obtain ⟨n, _, _, hnc, hne, _⟩ := hmem af proto saddr daddr sport dport ct hc
    exact hne hnc
  · cases hres : (dp_vs_ct_in_get env (dp_vs_check_template env s ct).2
        (s.conns ct).tuplehash_in.af (s.conns ct).tuplehash_in.proto
        (s.conns ct).tuplehash_in.saddr (s.conns ct).tuplehash_in.daddr
        (s.conns ct).tuplehash_in.sport (s.conns ct).tuplehash_in.dport).1 with
    | none => rfl
    | some c =>
      obtain ⟨n, h, hn, _, hne, hk⟩ := hmem _ _ _ _ _ _ c hres
      exact absurd hk (hu h n hn hne)

/-- Witness of C18: the template of `state_tmpl_quiet` is alone in the shared
table and held by the index and its creator; after the check the lookup of its
inbound tuple returns none. -/
theorem dp_vs_check_template_quiescent_witness :
    (dp_vs_check_template env0 state_tmpl_quiet 0).1 = 0
    ∧ (dp_vs_ct_in_get env0 (dp_vs_check_template env0 state_tmpl_quiet 0).2
        2 6 0x0a000001 0x01010101 0 80).1 = none :=
  ⟨(dp_vs_check_template_quiescent env0 state_tmpl_quiet 0 0 (by decide) (by decide)
      (by decide) (by decide) (by decide) (by decide)
      (fun h n hn hne => absurd (state_tmpl_quiet_nodes h n hn) hne)).1,
   (dp_vs_check_template_quiescent env0 state_tmpl_quiet 0 0 (by decide) (by decide)
      (by decide) (by decide) (by decide) (by decide)
      (fun h n hn hne => absurd (state_tmpl_quiet_nodes h n hn) hne)).2.2⟩

/-- Counterexample to C18 as stated, at two inputs, both with
`expire_quiescent_template` on and a destination of weight 0. A hashed template
with reference count 3: the check returns 0, `conn_unhash` reports `BUSY`, the
tuple nodes stay linked with their tuples, and the lookup of the original
inbound tuple returns the template. Two hashed templates with the same tuples,
the first with reference count 2: the check of the first returns 0 and the
lookup of its inbound tuple returns the second, not none. -/
theorem dp_vs_check_template_quiescent_still_found :
    ((state_tmpl_shared_quiet.conns 0).flags.hashed = true
      ∧ (state_tmpl_shared_quiet.conns 0).refcnt = 3
      ∧ (dp_vs_check_template env0 state_tmpl_shared_quiet 0).1 = 0
      ∧ (dp_vs_ct_in_get env0 (dp_vs_check_template env0 state_tmpl_shared_quiet 0).2
          2 6 0x0a000001 0x01010101 0 80).1 = some 0)
    ∧ ((state_tmpl_twice_quiet.conns 0).flags.hashed = true
      ∧ (state_tmpl_twice_quiet.conns 0).refcnt = 2
      ∧ (dp_vs_check_template env0 state_tmpl_twice_quiet 0).1 = 0
      ∧ (dp_vs_ct_in_get env0 (dp_vs_check_template env0 state_tmpl_twice_quiet 0).2
          2 6 0x0a000001 0x01010101 0 80).1 = some 1) := by
  decide

/-- C19, the code at the failing input. For the hashed template of
`state_tmpl_down` (reference count 2, unavailable destination)
`dp_vs_check_template` returns 0 and the sequence does not net out: the
template is unhashed and not hashed again, so its reference count ends at 0,
two less than before, `HASHED` is clear and its nodes have left the shared
table. With reference count 3 the inner `conn_unhash` reports `BUSY` and the
ports are rewritten all the same: `vport` goes from 80 to 0 and `dport` from
8080 to 0. -/
theorem dp_vs_check_template_does_not_net_out :
    ((state_tmpl_down.conns 0).refcnt = 2
      ∧ (state_tmpl_down.conns 0).flags.hashed = true
      ∧ state_tmpl_down.dp_vs_ct_tab 65874 = [⟨0, Dir.INBOUND⟩]
      ∧ state_tmpl_down.dp_vs_ct_tab 131587 = [⟨0, Dir.OUTBOUND⟩]
      ∧ (dp_vs_check_template env0 state_tmpl_down 0).1 = 0
      ∧ ((dp_vs_check_template env0 state_tmpl_down 0).2.conns 0).refcnt = 0
      ∧ ((dp_vs_check_template env0 state_tmpl_down 0).2.conns 0).flags.hashed = false
      ∧ (dp_vs_check_template env0 state_tmpl_down 0).2.dp_vs_ct_tab 65874 = []
      ∧ (dp_vs_check_template env0 state_tmpl_down 0).2.dp_vs_ct_tab 131587 = [])
    ∧ ((conn_unhash state_tmpl_shared_down 0).1 = Err.BUSY
      ∧ (state_tmpl_shared_down.conns 0).vport = 80
      ∧ (state_tmpl_shared_down.conns 0).dport = 8080
      ∧ ((dp_vs_check_template env0 state_tmpl_shared_down 0).2.conns 0).vport = 0
      ∧ ((dp_vs_check_template env0 state_tmpl_shared_down 0).2.conns 0).dport = 0) := by
  decide

/-- C20. The function `dp_vs_ct_in_get`: when it returns a flow, that flow
carries `TEMPLATE` and one of its tuple nodes is linked in the bucket of the
query in the shared table with `sport = sp`, `dport = dp`, source address equal
to `s` under the family of the query, protocol and family equal to those of
the query, and destination address equal to `d`, compared under `AF_UNSPEC`
when the protocol is 0, in which case the two addresses are the same whatever
the family, and under the family of the query otherwise; the reference count
of that flow is one higher and no other record has changed. When it returns
none the state is unchanged, and no node linked in the bucket of the query
meets these conditions. -/
theorem dp_vs_ct_in_get_spec (env : Env) (s : State) (af : Int)
    (proto saddr daddr sport dport : Nat) :
    (∀ c, (dp_vs_ct_in_get env s af proto saddr daddr sport dport).1 = some c →
      (s.conns c).flags.template = true
      ∧ (∃ n : Node, n ∈ s.dp_vs_ct_tab (conn_hashkey env s af saddr sport daddr dport)
          ∧ n.conn = c
          ∧ (s.tuple n).sport = sport ∧ (s.tuple n).dport = dport
          ∧ inet_addr_equal af (s.tuple n).saddr saddr = true
          ∧ (s.tuple n).proto = proto ∧ (s.tuple n).af = af
          ∧ inet_addr_equal (if proto = 0 then AF_UNSPEC else af) (s.tuple n).daddr daddr
              = true
          ∧ (proto = 0 → (s.tuple n).daddr = daddr)
          ∧ (proto ≠ 0 → inet_addr_equal af (s.tuple n).daddr daddr = true))
      ∧ ((dp_vs_ct_in_get env s af proto saddr daddr sport dport).2.conns c).refcnt
          = (s.conns c).refcnt + 1
      ∧ (∀ j, j ≠ c →
          (dp_vs_ct_in_get env s af proto saddr daddr sport dport).2.conns j = s.conns j)
      ∧ (dp_vs_ct_in_get env s af proto saddr daddr sport dport).2.dp_vs_ct_tab
          = s.dp_vs_ct_tab)
    ∧ ((dp_vs_ct_in_get env s af proto saddr daddr sport dport).1 = none →
        (dp_vs_ct_in_get env s af proto saddr daddr sport dport).2 = s
        ∧ ∀ n : Node, n ∈ s.dp_vs_ct_tab (conn_hashkey env s af saddr sport daddr dport) →
            ¬ ((s.conns n.conn).flags.template = true
              ∧ (s.tuple n).sport = sport ∧ (s.tuple n).dport = dport
              ∧ inet_addr_equal af (s.tuple n).saddr saddr = true
              ∧ (s.tuple n).proto = proto ∧ (s.tuple n).af = af
              ∧ inet_addr_equal (if proto = 0 then AF_UNSPEC else af) (s.tuple n).daddr
                  daddr = true)) := by
  refine ⟨fun c h => ?_, fun h =>
    ⟨dp_vs_ct_in_get_miss env s af proto saddr daddr sport dport h, fun n hn hm => ?_⟩⟩
  · obtain ⟨n, hmem, hc, hm, hst⟩ :=
      dp_vs_ct_in_get_hit env s af proto saddr daddr sport dport c h
    obtain ⟨m1, m2, m3, m4, m5, m6, m7⟩ := ct_in_get_match_fields _ _ _ _ _ _ _ _ hm
    rw [hc] at m5
    have e1 : proto = 0 → (s.tuple n).daddr = daddr := by
      intro hp
      have hp' : proto = IPPROTO_IP := hp
      rw [if_pos hp'] at m4
      exact (inet_addr_equal_unspec _ _).mp m4
    have e2 : proto ≠ 0 → inet_addr_equal af (s.tuple n).daddr daddr = true := by
      intro hp
      have hp' : ¬ proto = IPPROTO_IP := hp
      rw [if_neg hp'] at m4
      exact m4
    refine ⟨m5, ⟨n, hmem, hc, m1, m2, m3, m6, m7, m4, e1, e2⟩, ?_, ?_, ?_⟩
    · rw [hst]
      simp only [conn_refcnt_inc, setConn_conns_same]
    · intro j hj
      rw [hst]
      simp only [conn_refcnt_inc]
      exact setConn_conns_other _ _ _ _ hj
    · rw [hst]
      rfl
  · obtain ⟨k5, k1, k2, k3, k6, k7, k4⟩ := hm
    have hf := dp_vs_ct_in_get_miss_nodes env s af proto saddr daddr sport dport h n hn
    rw [ct_in_get_match_of_fields af proto saddr daddr sport dport _ _
      ⟨k1, k2, k3, k4, k5, k6, k7⟩] at hf
    cases hf

/-- Witness of C20 on the template of `state_tmpl_ip`, of family `AF_INET` and
protocol 0, from `10.0.0.1` towards `1.1.1.1:80`. The lookup of its inbound
tuple returns record 0, through a node whose destination address is the one
of the query, and takes one reference. A query whose source address differs
from the template's outside `in.s_addr` still returns it, since the source is
compared under `AF_INET`; a query whose destination address differs outside
`in.s_addr` misses, since the destination is compared under `AF_UNSPEC`. For
the template of `state_tmpl`, of protocol 6, the same difference in the
destination address is not seen. -/
theorem dp_vs_ct_in_get_spec_witness :
    (dp_vs_ct_in_get env0 state_tmpl_ip 2 0 0x0a000001 0x01010101 0 80).1 = some 0
    ∧ (state_tmpl_ip.conns 0).flags.template = true
    ∧ (∃ n : Node, n.conn = 0 ∧ (state_tmpl_ip.tuple n).proto = 0
        ∧ (state_tmpl_ip.tuple n).af = 2 ∧ (state_tmpl_ip.tuple n).daddr = 0x01010101)
    ∧ ((dp_vs_ct_in_get env0 state_tmpl_ip 2 0 0x0a000001 0x01010101 0 80).2.conns 0).refcnt
        = (state_tmpl_ip.conns 0).refcnt + 1
    ∧ (dp_vs_ct_in_get env0 state_tmpl_ip 2 0 0x10a000001 0x01010101 0 80).1 = some 0
    ∧ (dp_vs_ct_in_get env0 state_tmpl_ip 2 0 0x0a000001 0x101010101 0 80).1 = none
    ∧ (dp_vs_ct_in_get env0 state_tmpl 2 6 0x0a000001 0x101010101 0 80).1 = some 0 := by
  obtain ⟨h1, ⟨n, _, hc, _, _, _, hp, haf, _, hd, _⟩, h3, _⟩ :=
    (dp_vs_ct_in_get_spec env0 state_tmpl_ip 2 0 0x0a000001 0x01010101 0 80).1 0 (by decide)
  exact ⟨by decide, h1, ⟨n, hc, hp, haf, hd rfl⟩, h3, by decide, by decide, by decide⟩

/-- C21, as amended. Refcount invariant: in every state reached from empty
tables through `dp_vs_conn_new` (calls that return a flow, or that do not ask
for SYN-proxy), `dp_vs_conn_get`, releases by `dp_vs_conn_put` and
`dp_vs_conn_put_no_reset` of references that `dp_vs_conn_new` or
`dp_vs_conn_get` handed out, and timer firings of `conn_expire` on hashed
flows, every flow with `HASHED` set (every record outside the pool that
carries the flag) has a reference count of one plus the number of references
callers hold: at least 1, and at least 2 exactly while a caller holds a
reference. -/
theorem refcount_invariant (env : Env) (s : State) (held : Nat → Nat)
    (h : RefReachable env s held) (c : Nat) (hc : c ∉ s.conn_cache)
    (hh : (s.conns c).flags.hashed = true) :
    (s.conns c).refcnt = (held c : Int) + 1
    ∧ (s.conns c).refcnt ≥ 1
    ∧ ((s.conns c).refcnt ≥ 2 ↔ 1 ≤ held c) := by
  have hr : (s.conns c).refcnt = (held c : Int) + 1 :=
    (RefReachable.ref_inv env s held h).1 c hc hh
  refine ⟨hr, ?_, ?_⟩
  · rw [hr]
    omega
  · rw [hr]
    omega

/-- Witness of C21: `state_new` is reached by one creation; its flow is hashed
and the creator holds one reference, so the count is 2. -/
theorem refcount_invariant_witness :
    RefReachable env0 state_new (hold (fun _ => 0) 0)
    ∧ 0 ∉ state_new.conn_cache
    ∧ (state_new.conns 0).flags.hashed = true
    ∧ (state_new.conns 0).refcnt = ((hold (fun _ => 0) 0 0 : Nat) : Int) + 1
    ∧ (state_new.conns 0).refcnt = 2 :=
  ⟨state_new_reachable, by decide, by decide,
    (refcount_invariant env0 state_new _ state_new_reachable 0 (by decide) (by decide)).1,
    by decide⟩

/-- Counterexample to C21 as stated: `state_idle` is reached from the empty
tables of `state0` by `dp_vs_conn_new` followed by `dp_vs_conn_put` of the
creator; its flow 0 is outside the pool and carries `HASHED`, and its
reference count is 1. -/
theorem refcount_hashed_is_one :
    (∀ h, state0.dp_vs_conn_tab h = []) ∧ (∀ h, state0.dp_vs_ct_tab h = [])
    ∧ dp_vs_conn_new env0 state0 mbuf0 param0 0 ConnFlags.zero = some (some 0, state_new)
    ∧ dp_vs_conn_put state_new 0 = state_idle
    ∧ RefReachable env0 state_idle (unhold (hold (fun _ => 0) 0) 0)
    ∧ 0 ∉ state_idle.conn_cache
    ∧ (state_idle.conns 0).flags.hashed = true
    ∧ (state_idle.conns 0).refcnt = 1 :=
  ⟨fun _ => rfl, fun _ => rfl, rfl, rfl, state_idle_reachable, by decide, by decide, by decide⟩

/-- C22. Index invariant: in every state reached from empty tables through
`conn_hash`, `conn_unhash`, `dp_vs_conn_get`, `dp_vs_conn_put`,
`dp_vs_check_template` and `conn_expire`, for every record (released or not),
`HASHED` is set exactly when both tuple nodes are linked in the table the
`TEMPLATE` flag selects, each in the bucket `conn_hashkey` gives for its own
tuple; `HASHED` is clear exactly when no node of the record is linked in any
bucket of either table; a linked node is in no other bucket and not in the
other table; and the inbound node is linked exactly when the outbound one is,
so no state has one node linked without the other. -/
theorem index_invariant (env : Env) (s : State) (h : IndexReachable env s) (c : Nat) :
    ((s.conns c).flags.hashed = true
      ↔ ((⟨c, Dir.INBOUND⟩ : Node) ∈ s.tab_of c (conn_ihash env s c)
          ∧ (⟨c, Dir.OUTBOUND⟩ : Node) ∈ s.tab_of c (conn_ohash env s c)))
    ∧ ((s.conns c).flags.hashed = false
      ↔ ∀ h d, (⟨c, d⟩ : Node) ∉ s.dp_vs_conn_tab h ∧ (⟨c, d⟩ : Node) ∉ s.dp_vs_ct_tab h)
    ∧ (∀ h, (⟨c, Dir.INBOUND⟩ : Node) ∈ s.tab_of c h → h = conn_ihash env s c)
    ∧ (∀ h, (⟨c, Dir.OUTBOUND⟩ : Node) ∈ s.tab_of c h → h = conn_ohash env s c)
    ∧ (∀ h d, (⟨c, d⟩ : Node) ∉ s.other_tab_of c h)
    ∧ ((∃ h, (⟨c, Dir.INBOUND⟩ : Node) ∈ s.dp_vs_conn_tab h
          ∨ (⟨c, Dir.INBOUND⟩ : Node) ∈ s.dp_vs_ct_tab h)
      ↔ (∃ h, (⟨c, Dir.OUTBOUND⟩ : Node) ∈ s.dp_vs_conn_tab h
          ∨ (⟨c, Dir.OUTBOUND⟩ : Node) ∈ s.dp_vs_ct_tab h)) :=
  indexed_at_state env s c (IndexReachable.indexed env s h c)

/-- Witness of C22: `state2` is reached from the empty tables of `state1` by
`conn_hash` of record 0; the record carries `HASHED` and both nodes are linked
in their buckets of the per-lcore table. -/
theorem index_invariant_witness :
    IndexReachable env0 state2
    ∧ (state2.conns 0).flags.hashed = true
    ∧ (⟨0, Dir.INBOUND⟩ : Node) ∈ state2.tab_of 0 (conn_ihash env0 state2 0)
    ∧ (⟨0, Dir.OUTBOUND⟩ : Node) ∈ state2.tab_of 0 (conn_ohash env0 state2 0) :=
  have hr : IndexReachable env0 state2 :=
    IndexReachable.hash state1 0
      (IndexReachable.init state1 (fun _ => rfl) (fun _ => rfl)
        (fun c => by
          by_cases h : c = 0
          · subst h
            rfl
          · simp only [state1, State.setConn, if_neg h]
            rfl))
  ⟨hr, by decide, ((index_invariant env0 state2 hr 0).1.mp (by decide)).1,
    ((index_invariant env0 state2 hr 0).1.mp (by decide)).2⟩

/-- C23, as amended. SYN-proxy retransmit budget: for a flow with a saved SYN
and `syn_retry_max = n` at the first firing, each of the first `n` successive
firings of `conn_expire` returns from the retransmit phase: after `k ≤ n`
firings `syn_retry_max` is `n - k`, the flags of the flow (`HASHED` among
them), its reference count, both tables and the pool are as before the first
firing, and at most `k` clones of the SYN have been handed to the inbound
transmitter; exactly `k` when the flow has an inbound transmitter and neither
the pool lookup nor the clone fails. Firing `n + 1` goes past the retransmit
phase to the controller check. -/
theorem conn_expire_retransmit_budget (env : Env) (s : State) (cid : Nat) (syn : Mbuf)
    (n : Nat) (hs : (s.conns cid).syn_mbuf = some syn)
    (hn : (s.conns cid).syn_retry_max = n) :
    (∀ k, k ≤ n →
      ∃ sk, conn_expire_times env cid k s = some sk
        ∧ (sk.conns cid).syn_retry_max = (n : Int) - k
        ∧ (sk.conns cid).flags = (s.conns cid).flags
        ∧ (sk.conns cid).refcnt = (s.conns cid).refcnt
        ∧ sk.dp_vs_conn_tab = s.dp_vs_conn_tab
        ∧ sk.dp_vs_ct_tab = s.dp_vs_ct_tab
        ∧ sk.conn_cache = s.conn_cache
        ∧ syn_clones_sent sk cid ≤ syn_clones_sent s cid + k
        ∧ ((s.conns cid).packet_xmit ≠ none → (∀ c, env.mbuf_pool c = true) →
            env.pktmbuf_clone syn = true →
            syn_clones_sent sk cid = syn_clones_sent s cid + k))
    ∧ ∃ sn, conn_expire_times env cid n s = some sn
        ∧ (sn.conns cid).syn_retry_max = 0
        ∧ conn_expire env sn cid = conn_expire_rest env (conn_expire_entry env sn cid) cid := by
  constructor
  · intro k hk
    have hr : (s.conns cid).syn_retry_max ≥ k := by
      rw [hn]
      exact_mod_cast hk
    obtain ⟨sk, g0, g1, _, g3, g4, _, g6, g7, _, g9, g10, g11⟩ :=
      conn_expire_times_retransmit env cid syn k s hs hr
    exact ⟨sk, g0, by rw [g1, hn], g4, g3, g6, g7, g9, g10, g11⟩
  · have hr : (s.conns cid).syn_retry_max ≥ n := by rw [hn]
    obtain ⟨sn, g0, g1, _⟩ := conn_expire_times_retransmit env cid syn n s hs hr
    have hz : (sn.conns cid).syn_retry_max = 0 := by
      rw [g1, hn]
      exact sub_self _
    exact ⟨sn, g0, hz, conn_expire_past_retransmit env sn cid (Or.inr (le_of_eq hz))⟩

/-- Witness of C23: the flow of `state_syn` has a saved SYN, two retransmits
left and the direct-routing transmitter; after two firings two clones have been
sent and the budget is used up. -/
theorem conn_expire_retransmit_budget_witness :
    ∃ s2, conn_expire_times env0 0 2 state_syn = some s2
      ∧ (s2.conns 0).syn_retry_max = 0
      ∧ (s2.conns 0).flags = (state_syn.conns 0).flags
      ∧ (s2.conns 0).refcnt = (state_syn.conns 0).refcnt
      ∧ syn_clones_sent s2 0 = syn_clones_sent state_syn 0 + 2 := by
  obtain ⟨s2, h0, h1, h2, h3, _, _, _, _, h8⟩ :=
    (conn_expire_retransmit_budget env0 state_syn 0 mbuf0 2 (by decide) (by decide)).1 2
      (le_refl 2)
  exact ⟨s2, h0, h1, h2, h3, h8 (by decide) (fun _ => rfl) rfl⟩

/-- Counterexample to C23 as stated: the same flow in an environment where
`rte_pktmbuf_clone` fails. Two firings return from the retransmit phase and
use up the budget of 2, the third goes past it, and no clone has been handed
to the transmitter. -/
theorem conn_expire_retransmit_no_clone :
    (state_syn.conns 0).syn_mbuf = some mbuf0
    ∧ (state_syn.conns 0).syn_retry_max = 2
    ∧ syn_clones_sent state_syn 0 = 0
    ∧ (conn_expire_times env_noclone 0 2 state_syn).map
        (fun t => ((t.conns 0).syn_retry_max, (t.conns 0).flags.hashed, (t.conns 0).refcnt,
          syn_clones_sent t 0))
        = some (0, true, 1, 0)
    ∧ (conn_expire_times env_noclone 0 3 state_syn).map
        (fun t => ((t.conns 0).flags.hashed, syn_clones_sent t 0))
        = some (false, 0) := by
  decide

/-- C24. Validation of `conn_init_timeout`: whatever the previous value, after
the keyword handler has read the integer `n` the variable is `n` when
`IPVS_TIMEOUT_MIN < n < IPVS_TIMEOUT_MAX`, both strict, and the default 3
otherwise; nothing else of the tracker state changes. -/
theorem conn_init_timeout_handler_spec (tmin tmax : Int) (s : State) (n : Int) :
    (conn_init_timeout_handler tmin tmax s n).conn_init_timeout
        = (if tmin < n ∧ n < tmax then n else 3)
    ∧ (conn_init_timeout_handler tmin tmax s n).conns = s.conns
    ∧ (conn_init_timeout_handler tmin tmax s n).dests = s.dests
    ∧ (conn_init_timeout_handler tmin tmax s n).dp_vs_conn_tab = s.dp_vs_conn_tab
    ∧ (conn_init_timeout_handler tmin tmax s n).dp_vs_ct_tab = s.dp_vs_ct_tab
    ∧ (conn_init_timeout_handler tmin tmax s n).conn_expire_quiescent_template
        = s.conn_expire_quiescent_template := by
  unfold conn_init_timeout_handler
  by_cases h : n > tmin ∧ n < tmax
  · rw [if_pos h, if_pos h]
    exact ⟨rfl, rfl, rfl, rfl, rfl, rfl⟩
  · rw [if_neg h, if_neg h]
    exact ⟨rfl, rfl, rfl, rfl, rfl, rfl⟩

/-- C25. Expiration reprieve: for a hashed flow with no pending SYN retransmit
(no saved SYN, or no retry left), `n_control = 0` and a reference count of at
least 2 when its timer fires, `conn_expire` returns without giving the record
back to the pool; the inner `conn_unhash` reports `BUSY`; on return the flow
still carries `HASHED`, both tables and both tuple nodes are as at entry, the
reference count has its value at entry, the recomputed deadline is stored and
one timer update with that deadline has been issued. -/
theorem conn_expire_reprieve (env : Env) (s : State) (cid : Nat)
    (hh : (s.conns cid).flags.hashed = true)
    (hsyn : (s.conns cid).syn_mbuf = none ∨ (s.conns cid).syn_retry_max ≤ 0)
    (hn : (s.conns cid).n_control = 0)
    (hr : (s.conns cid).refcnt ≥ 2) :
    ∃ s', conn_expire env s cid = some s'
      ∧ conn_expire_released env s cid = false
      ∧ s'.conn_cache = s.conn_cache
      ∧ (conn_unhash (conn_expire_entry env s cid) cid).1 = Err.BUSY
      ∧ (s'.conns cid).flags.hashed = true
      ∧ s'.dp_vs_conn_tab = s.dp_vs_conn_tab
      ∧ s'.dp_vs_ct_tab = s.dp_vs_ct_tab
      ∧ (s'.conns cid).tuplehash_in = (s.conns cid).tuplehash_in
      ∧ (s'.conns cid).tuplehash_out = (s.conns cid).tuplehash_out
      ∧ (s'.conns cid).refcnt = (s.conns cid).refcnt
      ∧ (s'.conns cid).timeout = conn_expire_deadline env (s.conns cid)
      ∧ s'.log = Event.timer_update cid (conn_expire_deadline env (s.conns cid)) false :: s.log
      ∧ s'.dp_vs_conn_count = s.dp_vs_conn_count := by
  have hc := conn_expire_entry_conn env s cid
  have e1 : ((conn_expire_entry env s cid).conns cid).n_control = 0 := by rw [hc]; exact hn
  have e2 : ((conn_expire_entry env s cid).conns cid).flags.hashed = true := by rw [hc]; exact hh
  have e3 : ((conn_expire_entry env s cid).conns cid).refcnt = (s.conns cid).refcnt + 1 := by
    rw [hc]
  have e4 : ((conn_expire_entry env s cid).conns cid).refcnt ≠ 2 := by rw [e3]; omega
  have e5 : ((conn_expire_entry env s cid).conns cid).refcnt ≠ 1 := by rw [e3]; omega
  obtain ⟨hu, _, hrest⟩ := conn_expire_rest_reprieve env _ cid e1 e2 e4 e5
  have hexp := (conn_expire_past_retransmit env s cid hsyn).trans hrest
  have hrel : conn_expire_released env s cid = false := by
    unfold conn_expire_released
    rw [hexp]
    simp only [conn_refcnt_dec_frame, emit_frame, conn_expire_entry_frame, decide_eq_false_iff_not]
    intro h
    have := congrArg List.length h
    simp at this
  refine ⟨_, hexp, hrel, ?_, ?_, ?_, ?_, ?_, ?_, ?_, ?_, ?_, ?_, ?_⟩
  · simp only [conn_refcnt_dec_frame, emit_frame, conn_expire_entry_frame]
  · rw [hu]
  · simp only [conn_refcnt_dec, setConn_conns_same, emit_frame, hc, hh]
  · simp only [conn_refcnt_dec_frame, emit_frame, conn_expire_entry_frame]
  · simp only [conn_refcnt_dec_frame, emit_frame, conn_expire_entry_frame]
  · simp only [conn_refcnt_dec, setConn_conns_same, emit_frame, hc]
  · simp only [conn_refcnt_dec, setConn_conns_same, emit_frame, hc]
  · simp only [conn_refcnt_dec, setConn_conns_same, emit_frame, hc]
    omega
  · simp only [conn_refcnt_dec, setConn_conns_same, emit_frame, hc]
  · simp only [conn_refcnt_dec, setConn_frame, State.emit, hc]
    rfl
  · simp only [conn_refcnt_dec_frame, emit_frame, conn_expire_entry_frame]

/-- Witness of C25: the flow of `state_new` is hashed and held by the index and
its creator; a firing of its timer leaves it hashed with reference count 2. -/
theorem conn_expire_reprieve_witness :
    ∃ s', conn_expire env0 state_new 0 = some s'
      ∧ s'.conn_cache = state_new.conn_cache
      ∧ (s'.conns 0).flags.hashed = true
      ∧ (s'.conns 0).refcnt = 2 := by
  obtain ⟨s', h1, _, h3, _, h5, _, _, _, _, h10, _⟩ :=
    conn_expire_reprieve env0 state_new 0 (by decide) (by decide) (by decide) (by decide)
  exact ⟨s', h1, h3, h5, h10.trans (by decide)⟩

/-- C26. Terminal phase of the expiration: for a hashed flow bound to the
destination `did`, with reference count 1 when its timer fires, no pending SYN
retransmit and `n_control = 0`, `conn_expire` returns and has unlinked both
tuple nodes (every other node stays where it was) and cleared `HASHED`,
cancelled the timer on the wheel `TEMPLATE` selects, lowered `refcnt` of the
destination and the counter that matches the flags of the flow (`persistconns`
for `TEMPLATE`, else `inactconns` for `INACTIVE`, else `actconns`), nulled the
`dest` pointer, emptied the list of stored ACK packets and set `ack_num` to 0,
left the reference count at 0, pushed the record on the pool once and lowered
the flow count by one. -/
theorem conn_expire_terminal_phase (env : Env) (s : State) (cid did : Nat)
    (hh : (s.conns cid).flags.hashed = true)
    (hd : (s.conns cid).dest = some did)
    (hr : (s.conns cid).refcnt = 1)
    (hsyn : (s.conns cid).syn_mbuf = none ∨ (s.conns cid).syn_retry_max ≤ 0)
    (hn : (s.conns cid).n_control = 0) :
    ∃ s', conn_expire env s cid = some s'
      ∧ conn_expire_released env s cid = true
      ∧ (∀ h, s'.dp_vs_conn_tab h
          = (s.dp_vs_conn_tab h).filter (fun n => decide (n.conn ≠ cid)))
      ∧ (∀ h, s'.dp_vs_ct_tab h
          = (s.dp_vs_ct_tab h).filter (fun n => decide (n.conn ≠ cid)))
      ∧ (∀ h d, (⟨cid, d⟩ : Node) ∉ s'.dp_vs_conn_tab h ∧ (⟨cid, d⟩ : Node) ∉ s'.dp_vs_ct_tab h)
      ∧ (s'.conns cid).flags.hashed = false
      ∧ Event.timer_cancel cid (s.conns cid).flags.template ∈ s'.log
      ∧ (s'.dests did).counters
          = ((s.dests did).refcnt - 1,
              (s.dests did).actconns
                - (if (s.conns cid).flags.template = false ∧ (s.conns cid).flags.inactive = false
                    then 1 else 0),
              (s.dests did).inactconns
                - (if (s.conns cid).flags.template = false ∧ (s.conns cid).flags.inactive = true
                    then 1 else 0),
              (s.dests did).persistconns - (if (s.conns cid).flags.template = true then 1 else 0))
      ∧ (s'.conns cid).dest = none
      ∧ (s'.conns cid).ack_mbuf = []
      ∧ (s'.conns cid).ack_num = 0
      ∧ (s'.conns cid).refcnt = 0
      ∧ s'.conn_cache = cid :: s.conn_cache
      ∧ s'.dp_vs_conn_count = s.dp_vs_conn_count - 1 := by
  have hc := conn_expire_entry_conn env s cid
  obtain ⟨e1, e2, e3, e4, _, e6, _, e8⟩ := conn_expire_entry_frame env s cid
  have g1 : ((conn_expire_entry env s cid).conns cid).n_control = 0 := by rw [hc]; exact hn
  have g2 : ((conn_expire_entry env s cid).conns cid).flags.hashed = true := by rw [hc]; exact hh
  have g3 : ((conn_expire_entry env s cid).conns cid).refcnt = 2 := by
    rw [hc]
    show (s.conns cid).refcnt + 1 = 2
    rw [hr]
    rfl
  have hexp := (conn_expire_past_retransmit env s cid hsyn).trans
    (conn_expire_rest_terminal env _ cid g1 g2 g3)
  obtain ⟨_, k2, k3, k4, _, _⟩ := conn_unhash_of_ok (conn_expire_entry env s cid) cid g2 g3
  have k5 : (conn_unhash (conn_expire_entry env s cid) cid).2.dests = s.dests := by
    unfold conn_unhash
    simp only [g2, g3, if_true, ne_eq, not_true_eq_false, if_false, conn_refcnt_dec_frame,
      setConn_frame, e1]
  have k6 : (conn_unhash (conn_expire_entry env s cid) cid).2.dp_vs_conn_count
      = s.dp_vs_conn_count := by
    unfold conn_unhash
    simp only [g2, g3, if_true, ne_eq, not_true_eq_false, if_false, conn_refcnt_dec_frame,
      setConn_frame, e4]
  have k7 := conn_unhash_conn_cache (conn_expire_entry env s cid) cid
  have hd3 : ((conn_unhash (conn_expire_entry env s cid) cid).2.conns cid).dest = some did := by
    rw [k4, hc]
    exact hd
  obtain ⟨s', hs', ⟨c, n, t1⟩, _, t3, _, t5, t6, t7, _, t9, t10, _⟩ :=
    conn_expire_terminal_some env _ cid did hd3
  have hfin := hexp.trans hs'
  have hcache : s'.conn_cache = cid :: s.conn_cache := by rw [t9, k7, e6]
  have htab : ∀ h, s'.dp_vs_conn_tab h
      = (s.dp_vs_conn_tab h).filter (fun n => decide (n.conn ≠ cid)) := by
    intro h
    rw [t5, k3 h, e2]
  have hct : ∀ h, s'.dp_vs_ct_tab h
      = (s.dp_vs_ct_tab h).filter (fun n => decide (n.conn ≠ cid)) := by
    intro h
    rw [t6, k2 h, e3]
  refine ⟨s', hfin, ?_, htab, hct, ?_, ?_, ?_, ?_, ?_, ?_, ?_, ?_, hcache, ?_⟩
  · unfold conn_expire_released
    rw [hfin]
    simp only [hcache, decide_True]
  · intro h d
    rw [htab h, hct h]
    simp only [List.mem_filter, ne_eq, not_true_eq_false, decide_False, Bool.false_eq_true,
      and_false, not_false_eq_true, and_self]
  · rw [t1]
    simp only [k4]
  · have : ((conn_unhash (conn_expire_entry env s cid) cid).2.conns cid).flags.template
        = (s.conns cid).flags.template := by
      rw [k4, hc]
    rw [← this]
    exact t10
  · rw [t3, k5, k4, hc]
  · rw [t1]
  · rw [t1]
  · rw [t1]
  · rw [t1]
    simp only [k4]
    rfl
  · rw [t7, k6]

/-- Witness of C26: the flow of `state_idle` is hashed, bound to destination 0
and held by the index only; a firing of its timer takes it out of the table and
gives the record back. -/
theorem conn_expire_terminal_phase_witness :
    ∃ s', conn_expire env0 state_idle 0 = some s'
      ∧ (s'.conns 0).flags.hashed = false
      ∧ (s'.conns 0).refcnt = 0
      ∧ (s'.conns 0).dest = none
      ∧ s'.conn_cache = 0 :: state_idle.conn_cache := by
  obtain ⟨s', h1, _, _, _, _, h6, _, _, h9, _, _, h12, h13, _⟩ :=
    conn_expire_terminal_phase env0 state_idle 0 0 (by decide) (by decide) (by decide)
      (by decide) (by decide)
  exact ⟨s', h1, h6, h12, h9, h13⟩

/-- C27, the code at the failing input. In `state_idle` the flow 0 is hashed,
linked in buckets 65874 and 171587 of the per-lcore table and held by the index
only, so its count reads 2 at the check of `conn_flush`: it is eligible. The
loop bound `NELEMS(this_conn_tab)` is 0, `conn_flush` visits no bucket and
returns with the flow still hashed, its reference count, the pool and the flow
count unchanged. The loop body started at bucket 65874 does release the flow. -/
theorem conn_flush_walks_no_bucket :
    ((state_idle.conns 0).flags.hashed = true
      ∧ (state_idle.conns 0).refcnt = 1
      ∧ state_idle.dp_vs_conn_tab 65874 = [⟨0, Dir.INBOUND⟩]
      ∧ state_idle.dp_vs_conn_tab 171587 = [⟨0, Dir.OUTBOUND⟩]
      ∧ state_idle.dp_vs_conn_count = 1
      ∧ state_idle.conn_cache = [1, 2])
    ∧ NELEMS_this_conn_tab = 0
    ∧ (conn_flush state_idle).map
        (fun t => ((t.conns 0).flags.hashed, (t.conns 0).refcnt, t.dp_vs_conn_count,
          t.conn_cache))
        = some (true, 1, 1, [1, 2])
    ∧ (conn_flush state_idle).map
        (fun t => (t.dp_vs_conn_tab 65874, t.dp_vs_conn_tab 171587))
        = some ([⟨0, Dir.INBOUND⟩], [⟨0, Dir.OUTBOUND⟩])
    ∧ (conn_flush state_idle).map (fun t => t.log) = some state_idle.log
    ∧ (conn_flush_from state_idle 65874 1).map
        (fun t => ((t.conns 0).flags.hashed, (t.conns 0).refcnt, t.dp_vs_conn_count,
          t.conn_cache))
        = some (false, 0, 0, [0, 1, 2])
    ∧ (conn_flush_from state_idle 65874 1).map
        (fun t => (t.dp_vs_conn_tab 65874, t.dp_vs_conn_tab 171587))
        = some ([], []) := by
  decide

/-- C28, the code at the failing input. The template of `state_tmpl` carries
`TEMPLATE`, its timer was scheduled by `dp_vs_conn_new` on the template wheel,
and it is held by the index and its creator. A firing of `conn_expire` takes
the reprieve and issues `dpvs_timer_update(..., false)`: the update goes to the
other wheel. A release by `dp_vs_conn_put` updates on the template wheel. -/
theorem conn_expire_reprieve_wrong_wheel :
    (state_tmpl.conns 0).flags.template = true
    ∧ state_tmpl.log = [Event.timer_sched 0 ⟨3, 0⟩ true]
    ∧ (conn_expire env0 state_tmpl 0).map (fun t => (t.log, (t.conns 0).flags.template))
        = some ([Event.timer_update 0 ⟨60, 0⟩ false, Event.timer_sched 0 ⟨3, 0⟩ true], true)
    ∧ (dp_vs_conn_put state_tmpl 0).log
        = [Event.timer_update 0 ⟨3, 0⟩ true, Event.timer_sched 0 ⟨3, 0⟩ true] := by
  decide

end Dpvs
